import Mathlib

/-!
# Verification of the Google Apps Script folder-replication web app

This file gives a shallow embedding, in Lean 4, of the Google Apps Script
program in `main.js` (the authoritative variant) of the
`google-apps-script-copy-folder-and-files` repository, together with proofs
about it.

Modelling decisions, stated once here:

* Google Drive is modelled by an explicit `Drive` state: a list of folders
  (id, name, parent), a list of files (id, name, content, mime type, parent),
  and a fresh-id counter.  Drive ids are natural numbers; URLs are derived
  from ids.  The source folder handed to `copyFolderStructure` is presented
  as an inductive snapshot (`SrcFolder`) of the reachable source tree,
  registered in the drive under its id; this makes the program's recursive
  traversals structural.
* Failures of the external Drive calls are injected through fault fields of
  the `Drive` state (`failFolderNames`, `failFileNames`, `failSetContent`):
  an operation on a listed name throws, anything else succeeds.  Thrown
  exceptions are modelled by `Except` / explicit error components, and the
  JavaScript heap surviving a throw is modelled by returning the partial
  state alongside the error.
* `console.error` logging is modelled by the `log` field of `Drive`.
* `JSON.stringify(returnData, null, 2)` is modelled by the executable
  serializer `serializeResult`; it reproduces the structure (keys, nesting,
  insertion order) of the JS serialization, not its whitespace.  A file's
  `getSize()` is the length of its stored content string.
* Timestamps (`new Date().toISOString()`, `Utilities.formatDate(...)`) are
  modelled by the `nowIso` / `nowFormatted` fields of the drive state.
* JavaScript number-to-string conversion is modelled by the decimal
  rendering `natRepr`.
* JS plain objects used as string-keyed maps (`subFolders`, `files`,
  `folderIdMap`, CacheService) are modelled by association lists with
  JS assignment semantics (`insertAssoc`: overwrite in place, else append).
-/

/-- Decimal rendering of a natural number, modelling JavaScript
number-to-string conversion for the natural numbers the program handles. -/
def natRepr (n : Nat) : String :=
  if n = 0 then "0" else ⟨((Nat.digits 10 n).map Nat.digitChar).reverse⟩

theorem digitChar_injOn :
    ∀ x ∈ List.range 10, ∀ y ∈ List.range 10,
      Nat.digitChar x = Nat.digitChar y → x = y := by decide

theorem map_digitChar_inj :
    ∀ (l₁ l₂ : List Nat), (∀ x ∈ l₁, x < 10) → (∀ x ∈ l₂, x < 10) →
      l₁.map Nat.digitChar = l₂.map Nat.digitChar → l₁ = l₂ := by
  intro l₁
  induction l₁ with
  | nil => intro l₂ _ _ h; cases l₂ <;> simp_all
  | cons a t ih =>
    intro l₂ h₁ h₂ h
    cases l₂ with
    | nil => simp_all
    | cons b t' =>
      simp only [List.map_cons, List.cons.injEq] at h
      have ha : a ∈ List.range 10 := List.mem_range.mpr (h₁ a (by simp))
      have hb : b ∈ List.range 10 := List.mem_range.mpr (h₂ b (by simp))
      have hab := digitChar_injOn a ha b hb h.1
      have ht := ih t' (fun x hx => h₁ x (by simp [hx])) (fun x hx => h₂ x (by simp [hx])) h.2
      simp [hab, ht]

theorem natRepr_ne_zero_digits {n : Nat} (hn : n ≠ 0) :
    natRepr n = ⟨((Nat.digits 10 n).map Nat.digitChar).reverse⟩ := by
  simp [natRepr, hn]

theorem digits_eq_of_natRepr_eq {a b : Nat} (ha : a ≠ 0) (hb : b ≠ 0)
    (h : natRepr a = natRepr b) : a = b := by
  rw [natRepr_ne_zero_digits ha, natRepr_ne_zero_digits hb] at h
  have hdata : ((Nat.digits 10 a).map Nat.digitChar).reverse =
      ((Nat.digits 10 b).map Nat.digitChar).reverse := congrArg String.data h
  have hmap := congrArg List.reverse hdata
  simp only [List.reverse_reverse] at hmap
  have hlt₁ : ∀ x ∈ Nat.digits 10 a, x < 10 :=
    fun x hx => Nat.digits_lt_base (by norm_num) hx
  have hlt₂ : ∀ x ∈ Nat.digits 10 b, x < 10 :=
    fun x hx => Nat.digits_lt_base (by norm_num) hx
  exact Nat.digits_inj_iff.mp (map_digitChar_inj _ _ hlt₁ hlt₂ hmap)

theorem natRepr_zero_ne {b : Nat} (hb : b ≠ 0) : natRepr 0 ≠ natRepr b := by
  intro h
  rw [natRepr_ne_zero_digits hb] at h
  have hdata : (natRepr 0).data = ((Nat.digits 10 b).map Nat.digitChar).reverse :=
    congrArg String.data h
  have h0 : (natRepr 0).data = [Char.ofNat 48] := by decide
  rw [h0] at hdata
  have hmap : (Nat.digits 10 b).map Nat.digitChar = [Char.ofNat 48] := by
    have := congrArg List.reverse hdata
    simpa using this.symm
  have hlt : ∀ x ∈ Nat.digits 10 b, x < 10 :=
    fun x hx => Nat.digits_lt_base (by norm_num) hx
  have hdig : Nat.digits 10 b = [0] := by
    have h0' : ([0] : List Nat).map Nat.digitChar = [Char.ofNat 48] := by decide
    exact map_digitChar_inj _ [0] hlt (by intro x hx; simp at hx; omega)
      (hmap.trans h0'.symm)
  have hlast := Nat.getLast_digit_ne_zero 10 hb
  simp [hdig] at hlast

theorem natRepr_injective : Function.Injective natRepr := by
  intro a b h
  by_cases ha : a = 0 <;> by_cases hb : b = 0
  · omega
  · exact absurd (ha ▸ h) (natRepr_zero_ne hb)
  · exact absurd (hb ▸ h.symm) (natRepr_zero_ne ha)
  · exact digits_eq_of_natRepr_eq ha hb h

/-- JS object-assignment on a string-keyed map: overwrite the existing key in
place, otherwise append the new binding at the end. -/
def insertAssoc {α : Type} (m : List (String × α)) (k : String) (v : α) :
    List (String × α) :=
  match m with
  | [] => [(k, v)]
  | (k', v') :: rest =>
      if k' = k then (k, v) :: rest else (k', v') :: insertAssoc rest k v

/-- JS object read on a string-keyed map. -/
def lookupAssoc {α : Type} (m : List (String × α)) (k : String) : Option α :=
  match m with
  | [] => none
  | (k', v') :: rest => if k' = k then some v' else lookupAssoc rest k

theorem lookupAssoc_insertAssoc_self {α : Type} (m : List (String × α))
    (k : String) (v : α) : lookupAssoc (insertAssoc m k v) k = some v := by
  induction m with
  | nil => simp [insertAssoc, lookupAssoc]
  | cons p rest ih =>
    obtain ⟨k', v'⟩ := p
    by_cases h : k' = k <;> simp [insertAssoc, lookupAssoc, h, ih]

theorem lookupAssoc_insertAssoc_ne {α : Type} (m : List (String × α))
    (k k' : String) (v : α) (h : k ≠ k') :
    lookupAssoc (insertAssoc m k v) k' = lookupAssoc m k' := by
  induction m with
  | nil => simp [insertAssoc, lookupAssoc, h, Ne.symm h]
  | cons p rest ih =>
    obtain ⟨k₀, v₀⟩ := p
    by_cases h₀ : k₀ = k
    · subst h₀; simp [insertAssoc, lookupAssoc, h, Ne.symm h]
    · by_cases h₁ : k₀ = k' <;>
        simp [insertAssoc, lookupAssoc, h₀, h₁, Ne.symm h, ih]

/-- Inserting a key already present keeps the length; a fresh key appends. -/
theorem length_insertAssoc {α : Type} (m : List (String × α)) (k : String)
    (v : α) :
    (insertAssoc m k v).length =
      (if (lookupAssoc m k).isNone then m.length + 1 else m.length) := by
  induction m with
  | nil => simp [insertAssoc, lookupAssoc]
  | cons p rest ih =>
    obtain ⟨k₀, v₀⟩ := p
    by_cases h₀ : k₀ = k
    · simp [insertAssoc, lookupAssoc, h₀]
    · simp only [insertAssoc, lookupAssoc, if_neg h₀, List.length_cons, ih]
      by_cases h : (lookupAssoc rest k).isNone <;> simp [h]

/-- A file in the source tree: name, byte content, mime type, as read through
the Drive file interface. -/
structure SrcFile where
  name : String
  content : String
  mimeType : String
deriving DecidableEq, Repr

/-- Inductive snapshot of the source folder tree reachable from the source
folder id: the folder's name, its files (in iteration order) and its
subfolders (in iteration order). -/
inductive SrcFolder where
  | node (name : String) (files : List SrcFile) (subs : List SrcFolder)

def SrcFolder.name : SrcFolder → String
  | .node n _ _ => n

def SrcFolder.files : SrcFolder → List SrcFile
  | .node _ fs _ => fs

def SrcFolder.subs : SrcFolder → List SrcFolder
  | .node _ _ ss => ss

/-- A destination folder stored in the drive: display name and parent id
(`none` for a top-level folder such as the pre-existing destination root). -/
structure DFolder where
  name : String
  parent : Option Nat
deriving DecidableEq, Repr

/-- A destination file stored in the drive. -/
structure DFile where
  name : String
  content : String
  mimeType : String
  parent : Nat
deriving DecidableEq, Repr

/-- The explicit Drive state threaded through the embedded program, together
with the ambient console log, the clock readings, and the fault-injection
fields that decide which external calls throw. -/
structure Drive where
  folders : List (Nat × DFolder)
  files : List (Nat × DFile)
  nextId : Nat
  sources : List (Nat × SrcFolder)
  nowIso : String
  nowFormatted : String
  failFolderNames : List String
  failFileNames : List String
  failSetContent : Bool
  log : List String

def folderUrl (id : Nat) : String := "https://drive/folder/" ++ natRepr id

def fileUrl (id : Nat) : String := "https://drive/file/" ++ natRepr id

def Drive.findFolder (d : Drive) (id : Nat) : Option DFolder :=
  (d.folders.find? (fun p => p.1 = id)).map (fun p => p.2)

def Drive.findFile (d : Drive) (id : Nat) : Option DFile :=
  (d.files.find? (fun p => p.1 = id)).map (fun p => p.2)

def Drive.findSource (d : Drive) (id : Nat) : Option SrcFolder :=
  (d.sources.find? (fun p => p.1 = id)).map (fun p => p.2)

/-- `folder.getName()`. -/
def Drive.folderName (d : Drive) (id : Nat) : String :=
  ((d.findFolder id).map DFolder.name).getD ""

/-- `folder.getParents()` (single-parent model). -/
def Drive.folderParent (d : Drive) (id : Nat) : Option Nat :=
  match d.findFolder id with
  | none => none
  | some f => f.parent

/-- The direct child folders of a folder, in drive iteration order. -/
def Drive.childFolders (d : Drive) (parentId : Nat) : List (Nat × DFolder) :=
  d.folders.filter (fun p => p.2.parent = some parentId)

/-- `parentFolder.getFoldersByName(name)`: ids of the direct child folders
carrying `name`, in iteration order. -/
def Drive.getFoldersByName (d : Drive) (parentId : Nat) (name : String) :
    List Nat :=
  ((d.childFolders parentId).filter (fun p => p.2.name = name)).map
    (fun p => p.1)

/-- `parent.createFolder(name)`: throws when the fault oracle lists `name`,
otherwise allocates a fresh id. -/
def Drive.createFolder (d : Drive) (parentId : Nat) (name : String) :
    Except String (Nat × Drive) :=
  if name ∈ d.failFolderNames then
    .error ("could not create folder " ++ name)
  else
    .ok (d.nextId,
      { d with
        folders := d.folders ++ [(d.nextId, ⟨name, some parentId⟩)],
        nextId := d.nextId + 1 })

/-- `file.makeCopy(file.getName(), destinationFolder)`: throws when the fault
oracle lists the file's name, otherwise creates a copy with a fresh id. -/
def Drive.makeCopy (d : Drive) (file : SrcFile) (destFolderId : Nat) :
    Except String (Nat × Drive) :=
  if file.name ∈ d.failFileNames then
    .error ("could not copy " ++ file.name)
  else
    .ok (d.nextId,
      { d with
        files := d.files ++
          [(d.nextId, ⟨file.name, file.content, file.mimeType, destFolderId⟩)],
        nextId := d.nextId + 1 })

/-- `folder.createFile(name, content, mimeType)`: same fault oracle as
`makeCopy` (a file-creation call on a listed name throws). -/
def Drive.createFile (d : Drive) (parentId : Nat) (name content mimeType : String) :
    Except String (Nat × Drive) :=
  if name ∈ d.failFileNames then
    .error ("could not create file " ++ name)
  else
    .ok (d.nextId,
      { d with
        files := d.files ++ [(d.nextId, ⟨name, content, mimeType, parentId⟩)],
        nextId := d.nextId + 1 })

/-- `file.setContent(content)`: overwrites the stored content in place. -/
def Drive.setContent (d : Drive) (fileId : Nat) (content : String) :
    Except String Drive :=
  if d.failSetContent then
    .error ("could not set content")
  else
    .ok { d with
      files := d.files.map (fun p =>
        if p.1 = fileId then (p.1, { p.2 with content := content }) else p) }

/-- `file.getSize()`: the byte length of the persisted content. -/
def Drive.getFileSize (d : Drive) (fileId : Nat) : Nat :=
  ((d.findFile fileId).map (fun f => f.content.length)).getD 0

/-- The persisted content of a file, for stating what was saved. -/
def Drive.fileContent (d : Drive) (fileId : Nat) : Option String :=
  (d.findFile fileId).map (fun f => f.content)

/-- `console.error(msg)`. -/
def Drive.logError (d : Drive) (msg : String) : Drive :=
  { d with log := d.log ++ [msg] }

/-- The per-file record (`fileInfo` object) stored in the result tree and in
the flat `createdFiles` list. -/
structure FileInfo where
  name : String
  id : Nat
  url : String
  path : String
  folderId : Nat
  size : Nat
  mimeType : String
  createdTime : String
deriving DecidableEq, Repr

/-- A node of the nested result tree (`folderStructure`): name, id, url, the
`subFolders` name-keyed map and the `files` name-keyed map, both in JS
insertion order. -/
inductive FolderNode where
  | mk (name : String) (id : Nat) (url : String)
      (subFolders : List (String × FolderNode))
      (files : List (String × FileInfo))

def FolderNode.name : FolderNode → String
  | .mk n _ _ _ _ => n

def FolderNode.id : FolderNode → Nat
  | .mk _ i _ _ _ => i

def FolderNode.url : FolderNode → String
  | .mk _ _ u _ _ => u

def FolderNode.subFolders : FolderNode → List (String × FolderNode)
  | .mk _ _ _ s _ => s

def FolderNode.filesMap : FolderNode → List (String × FileInfo)
  | .mk _ _ _ _ f => f

/-- `currentStructure.subFolders[key] = child`. -/
def FolderNode.setSub (node : FolderNode) (key : String) (child : FolderNode) :
    FolderNode :=
  match node with
  | .mk n i u s f => .mk n i u (insertAssoc s key child) f

/-- `currentStructure.subFolders[key]`. -/
def FolderNode.getSub (node : FolderNode) (key : String) : Option FolderNode :=
  lookupAssoc node.subFolders key

/-- `currentStructure.files[key] = info`. -/
def FolderNode.setFile (node : FolderNode) (key : String) (info : FileInfo) :
    FolderNode :=
  match node with
  | .mk n i u s f => .mk n i u s (insertAssoc f key info)

/-- `currentStructure.files[key]`. -/
def FolderNode.getFile (node : FolderNode) (key : String) : Option FileInfo :=
  lookupAssoc node.filesMap key

mutual

/-- Number of file leaves reachable in a result tree. -/
def FolderNode.fileCount : FolderNode → Nat
  | .mk _ _ _ subs files => files.length + subsFileCount subs

def subsFileCount : List (String × FolderNode) → Nat
  | [] => 0
  | (_, n) :: rest => FolderNode.fileCount n + subsFileCount rest

end

/-- File-leaf count of an optional tree (`undefined` serializes to nothing
and holds no leaves). -/
def treeFileCount : Option FolderNode → Nat
  | none => 0
  | some t => t.fileCount

/-- The `summary` object of the result. -/
structure Summary where
  totalFiles : Nat
  totalSize : Nat
  totalSizeHuman : String
  folderCount : Nat
deriving DecidableEq, Repr

/-- The `destinationRoot` object of the result (fields are `null` when the
destination folder was never fetched). -/
structure DestRootInfo where
  name : Option String
  id : Nat
  url : Option String
deriving DecidableEq, Repr

/-- The `mainFolder` object of the result.  `name` is set independently of
`id`: the JS variables `mainFolderName` and `mainFolderId` are assigned at
different points of the `try` block. -/
structure MainFolderInfo where
  name : Option String
  id : Option Nat
  url : Option String
deriving DecidableEq, Repr

/-- The full `returnData` object built by `copyFolderStructure`. -/
structure ReturnData where
  success : Bool
  timestamp : String
  destinationRoot : DestRootInfo
  mainFolder : MainFolderInfo
  summary : Summary
  folderStructure : Option FolderNode
  errors : List String

/-- JSON string escaping for the serializer. -/
def jsonEscapeChar (c : Char) : String :=
  if c = Char.ofNat 34 then "\\\""
  else if c = Char.ofNat 92 then "\\\\"
  else if c = Char.ofNat 10 then "\\n"
  else String.singleton c

def jsonEscape (s : String) : String :=
  String.join (s.data.map jsonEscapeChar)

def jsonStr (s : String) : String := "\"" ++ jsonEscape s ++ "\""

def jsonOptStr : Option String → String
  | none => "null"
  | some s => jsonStr s

def jsonOptNat : Option Nat → String
  | none => "null"
  | some n => natRepr n

def jsonBool (b : Bool) : String := if b then "true" else "false"

def serializeFileInfo (f : FileInfo) : String :=
  "\x7b\"name\":" ++ jsonStr f.name ++
  ",\"id\":" ++ natRepr f.id ++
  ",\"url\":" ++ jsonStr f.url ++
  ",\"path\":" ++ jsonStr f.path ++
  ",\"folderId\":" ++ natRepr f.folderId ++
  ",\"size\":" ++ natRepr f.size ++
  ",\"mimeType\":" ++ jsonStr f.mimeType ++
  ",\"createdTime\":" ++ jsonStr f.createdTime ++ "\x7d"

def serializeFilesMap : List (String × FileInfo) → String
  | [] => ""
  | [(k, v)] => jsonStr k ++ ":" ++ serializeFileInfo v
  | (k, v) :: rest =>
      jsonStr k ++ ":" ++ serializeFileInfo v ++ "," ++ serializeFilesMap rest

mutual

def serializeFolderNode : FolderNode → String
  | .mk name id url subs files =>
      "\x7b\"name\":" ++ jsonStr name ++
      ",\"id\":" ++ natRepr id ++
      ",\"url\":" ++ jsonStr url ++
      ",\"subFolders\":\x7b" ++ serializeSubsMap subs ++ "\x7d" ++
      ",\"files\":\x7b" ++ serializeFilesMap files ++ "\x7d\x7d"

def serializeSubsMap : List (String × FolderNode) → String
  | [] => ""
  | [(k, v)] => jsonStr k ++ ":" ++ serializeFolderNode v
  | (k, v) :: rest =>
      jsonStr k ++ ":" ++ serializeFolderNode v ++ "," ++ serializeSubsMap rest

end

def serializeErrors : List String → String
  | [] => ""
  | [e] => jsonStr e
  | e :: rest => jsonStr e ++ "," ++ serializeErrors rest

def serializeOptTree : Option FolderNode → String
  | none => "null"
  | some t => serializeFolderNode t

/-- Executable model of `JSON.stringify(returnData, null, 2)`. -/
def serializeResult (r : ReturnData) : String :=
  "\x7b\"success\":" ++ jsonBool r.success ++
  ",\"timestamp\":" ++ jsonStr r.timestamp ++
  ",\"destinationRoot\":\x7b\"name\":" ++ jsonOptStr r.destinationRoot.name ++
  ",\"id\":" ++ natRepr r.destinationRoot.id ++
  ",\"url\":" ++ jsonOptStr r.destinationRoot.url ++ "\x7d" ++
  ",\"mainFolder\":\x7b\"name\":" ++ jsonOptStr r.mainFolder.name ++
  ",\"id\":" ++ jsonOptNat r.mainFolder.id ++
  ",\"url\":" ++ jsonOptStr r.mainFolder.url ++ "\x7d" ++
  ",\"summary\":\x7b\"totalFiles\":" ++ natRepr r.summary.totalFiles ++
  ",\"totalSize\":" ++ natRepr r.summary.totalSize ++
  ",\"totalSizeHuman\":" ++ jsonStr r.summary.totalSizeHuman ++
  ",\"folderCount\":" ++ natRepr r.summary.folderCount ++ "\x7d" ++
  ",\"folderStructure\":" ++ serializeOptTree r.folderStructure ++
  ",\"errors\":[" ++ serializeErrors r.errors ++ "]\x7d"

/-- The serialized result is always longer than the `'{}'` placeholder (its
leading text alone is). -/
theorem serializeResult_length_gt_two (r : ReturnData) :
    2 < (serializeResult r).length := by
  have h11 : ("\x7b\"success\":" : String).length = 11 := by decide
  unfold serializeResult
  simp only [String.length_append, h11]
  omega

/-- Model of `formatBytes`: `'0 Bytes'` for zero, otherwise the value scaled
by the matching 1024-power unit.  The two-decimal float formatting of the JS
original (`parseFloat((bytes / Math.pow(k, i)).toFixed(2))`) is rendered with
integer arithmetic (truncation); no claim depends on this text. -/
def formatBytes (bytes : Nat) : String :=
  if bytes = 0 then "0 Bytes"
  else
    let sizes := ["Bytes", "KB", "MB", "GB", "TB"]
    let i := Nat.log 1024 bytes
    let whole := bytes / 1024 ^ i
    let hundredths := bytes * 100 / 1024 ^ i % 100
    let dec :=
      if hundredths = 0 then ""
      else if hundredths % 10 = 0 then "." ++ natRepr (hundredths / 10)
      else "." ++ (if hundredths < 10 then "0" else "") ++ natRepr hundredths
    natRepr whole ++ dec ++ " " ++ (sizes.getD i "undefined")

/-- One step list of `getFilePath`'s upward walk: collect the names of the
ancestors that lie in `folderIdMap`, stopping at the first ancestor outside
the map.  The fuel (number of folders in the drive plus one) bounds the walk;
parent chains of created folders are finite. -/
def getFilePathWalk (d : Drive) (idMap : List Nat) :
    Nat → Nat → List String → List String
  | 0, _, acc => acc
  | fuel + 1, folderId, acc =>
      if folderId ∈ idMap then
        let acc' := d.folderName folderId :: acc
        match d.folderParent folderId with
        | some p =>
            if p ∈ idMap then getFilePathWalk d idMap fuel p acc' else acc'
        | none => acc'
      else acc

/-- `getFilePath(folder, folderIdMap)`: slash-joined names of the ancestors
of `folder` that were created by this run. -/
def getFilePath (d : Drive) (folderId : Nat) (idMap : List Nat) : String :=
  String.intercalate ("/") (getFilePathWalk d idMap (d.folders.length + 1) folderId [])

/-- The candidate name tried by `getUniqueFolderName`'s counter loop. -/
def uniqueNameCandidate (baseName timestamp : String) (counter : Nat) : String :=
  baseName ++ " (" ++ timestamp ++ " - " ++ natRepr counter ++ ")"

/-- The `while (folders.hasNext())` loop of `getUniqueFolderName`.  The JS
loop is unbounded; here it carries fuel, with the fuel chosen (and proved)
large enough that the unchecked fuel-exhaustion fallback is never taken. -/
def getUniqueFolderNameLoop (d : Drive) (parentId : Nat)
    (baseName timestamp : String) : Nat → Nat → String
  | 0, counter => uniqueNameCandidate baseName timestamp counter
  | fuel + 1, counter =>
      let name := uniqueNameCandidate baseName timestamp counter
      if d.getFoldersByName parentId name ≠ [] then
        getUniqueFolderNameLoop d parentId baseName timestamp fuel (counter + 1)
      else name

/-- `getUniqueFolderName(parentFolder, baseName)`. -/
def getUniqueFolderName (d : Drive) (parentId : Nat) (baseName : String) :
    String :=
  if d.getFoldersByName parentId baseName ≠ [] then
    let timestamp := d.nowFormatted
    let name1 := baseName ++ " (" ++ timestamp ++ ")"
    if d.getFoldersByName parentId name1 ≠ [] then
      getUniqueFolderNameLoop d parentId baseName timestamp
        ((d.childFolders parentId).length + 1) 1
    else name1
  else baseName

mutual

/-- `createFolderStructureRecursive(sourceFolder, destinationFolder,
currentStructure, folderIdMap)`: phase 1, mirrors the subfolder hierarchy.
A `createFolder` throw aborts the traversal; the drive, the partially built
tree and the partially filled id map at the moment of the throw are returned
alongside the error (the JS heap survives the exception). -/
def createFolderStructureRecursive (d : Drive) (src : SrcFolder)
    (destFolderId : Nat) (node : FolderNode) (idMap : List Nat) :
    Option String × Drive × FolderNode × List Nat :=
  match src with
  | .node _ _ ss => createSubfolders d ss destFolderId node idMap

/-- The `while (subfolders.hasNext())` loop of phase 1. -/
def createSubfolders (d : Drive) (subs : List SrcFolder) (destFolderId : Nat)
    (node : FolderNode) (idMap : List Nat) :
    Option String × Drive × FolderNode × List Nat :=
  match subs with
  | [] => (none, d, node, idMap)
  | sub :: rest =>
      match d.createFolder destFolderId sub.name with
      | .error e => (some e, d, node, idMap)
      | .ok (newId, d₁) =>
          let newNode : FolderNode := .mk sub.name newId (folderUrl newId) [] []
          let idMap₁ := idMap ++ [newId]
          match createFolderStructureRecursive d₁ sub newId newNode idMap₁ with
          | (some e, d₂, childNode, idMap₂) =>
              (some e, d₂, node.setSub sub.name childNode, idMap₂)
          | (none, d₂, childNode, idMap₂) =>
              createSubfolders d₂ rest destFolderId
                (node.setSub sub.name childNode) idMap₂

end

mutual

/-- `copyFilesRecursive(sourceFolder, destinationFolder, currentStructure,
folderIdMap, createdFiles)`: phase 2, copies the items. -/
def copyFilesRecursive (d : Drive) (src : SrcFolder) (destFolderId : Nat)
    (node : FolderNode) (idMap : List Nat) (createdFiles : List FileInfo) :
    Drive × FolderNode × List FileInfo :=
  match src with
  | .node _ fs ss =>
      match copyFilesList d fs destFolderId node idMap createdFiles with
      | (d₁, node₁, created₁) =>
          copySubfolderFiles d₁ ss destFolderId node₁ idMap created₁

/-- The `while (files.hasNext())` loop of phase 2.  A `makeCopy` throw is
caught at the item's scope: it is logged to the console and the loop
continues with the next file. -/
def copyFilesList (d : Drive) (files : List SrcFile) (destFolderId : Nat)
    (node : FolderNode) (idMap : List Nat) (createdFiles : List FileInfo) :
    Drive × FolderNode × List FileInfo :=
  match files with
  | [] => (d, node, createdFiles)
  | file :: rest =>
      match d.makeCopy file destFolderId with
      | .error e =>
          let d₁ := d.logError ("Could not copy file: " ++ file.name ++ ", Error: " ++ e)
          copyFilesList d₁ rest destFolderId node idMap createdFiles
      | .ok (newId, d₁) =>
          let info : FileInfo :=
            { name := file.name
              id := newId
              url := fileUrl newId
              path := getFilePath d₁ destFolderId idMap
              folderId := destFolderId
              size := file.content.length
              mimeType := file.mimeType
              createdTime := d₁.nowIso }
          copyFilesList d₁ rest destFolderId (node.setFile file.name info)
            idMap (createdFiles ++ [info])

/-- The `while (subfolders.hasNext())` loop of phase 2: look the destination
counterpart up by name, recurse into it; a missing counterpart is logged and
skipped.  (The branch where the counterpart folder exists but the tree node
does not is unreachable after a successful phase 1; it is modelled as the
same log-and-skip.) -/
def copySubfolderFiles (d : Drive) (subs : List SrcFolder) (destFolderId : Nat)
    (node : FolderNode) (idMap : List Nat) (createdFiles : List FileInfo) :
    Drive × FolderNode × List FileInfo :=
  match subs with
  | [] => (d, node, createdFiles)
  | sub :: rest =>
      match d.getFoldersByName destFolderId sub.name with
      | [] =>
          let d₁ := d.logError ("Error: Destination subfolder not found: " ++ sub.name)
          copySubfolderFiles d₁ rest destFolderId node idMap createdFiles
      | destSubId :: _ =>
          let subName := d.folderName destSubId
          match node.getSub subName with
          | some subNode =>
              match copyFilesRecursive d sub destSubId subNode idMap createdFiles with
              | (d₁, subNode₁, created₁) =>
                  copySubfolderFiles d₁ rest destFolderId
                    (node.setSub subName subNode₁) idMap created₁
          | none =>
              let d₁ := d.logError ("Error: Destination subfolder not found: " ++ sub.name)
              copySubfolderFiles d₁ rest destFolderId node idMap createdFiles

end

/-- `CONFIG.JSON_REPORT_FILENAME`. -/
def JSON_REPORT_FILENAME : String := "_folder_structure_report.json"

/-- The state of all local variables of `copyFolderStructure` at the end of
its `try`/`catch` block. -/
structure AttemptResult where
  drive : Drive
  success : Bool
  errors : List String
  destName : Option String
  mainFolderName : Option String
  mainFolderId : Option Nat
  tree : Option FolderNode
  folderIdMap : List Nat
  createdFiles : List FileInfo

/-- `newFolderName || sourceFolder.getName()`: JS `||` treats the empty
string and an absent argument alike as falsy. -/
def effectiveBaseName (newFolderName : Option String) (sourceFolder : SrcFolder) :
    String :=
  match newFolderName with
  | some n => if n = "" then sourceFolder.name else n
  | none => sourceFolder.name

/-- The `try` block of `copyFolderStructure` (fetch both folders, resolve the
root name, create the root, run phase 1 then phase 2), with the `catch`
applied: any throw ends the block with `success = false` and the error pushed
onto `errors`, keeping whatever the heap holds at that point. -/
def copyAttempt (d : Drive) (sourceFolderId destinationFolderId : Nat)
    (newFolderName : Option String) : AttemptResult :=
  match d.findSource sourceFolderId with
  | none =>
      { drive := d, success := false
        errors := ["Source folder not found: " ++ natRepr sourceFolderId]
        destName := none, mainFolderName := none, mainFolderId := none
        tree := none, folderIdMap := [], createdFiles := [] }
  | some sourceFolder =>
      match d.findFolder destinationFolderId with
      | none =>
          { drive := d, success := false
            errors := ["Destination folder not found: " ++ natRepr destinationFolderId]
            destName := none, mainFolderName := none, mainFolderId := none
            tree := none, folderIdMap := [], createdFiles := [] }
      | some destFolder =>
          let mainFolderName :=
            getUniqueFolderName d destinationFolderId
              (effectiveBaseName newFolderName sourceFolder)
          match d.createFolder destinationFolderId mainFolderName with
          | .error e =>
              { drive := d, success := false, errors := [e]
                destName := some destFolder.name
                mainFolderName := some mainFolderName, mainFolderId := none
                tree := none, folderIdMap := [], createdFiles := [] }
          | .ok (mainFolderId, d₁) =>
              let tree₀ : FolderNode :=
                .mk mainFolderName mainFolderId (folderUrl mainFolderId) [] []
              let idMap₀ := [mainFolderId]
              match createFolderStructureRecursive d₁ sourceFolder
                  mainFolderId tree₀ idMap₀ with
              | (some e, d₂, tree₁, idMap₁) =>
                  { drive := d₂, success := false, errors := [e]
                    destName := some destFolder.name
                    mainFolderName := some mainFolderName
                    mainFolderId := some mainFolderId
                    tree := some tree₁, folderIdMap := idMap₁
                    createdFiles := [] }
              | (none, d₂, tree₁, idMap₁) =>
                  match copyFilesRecursive d₂ sourceFolder mainFolderId
                      tree₁ idMap₁ [] with
                  | (d₃, tree₂, createdFiles) =>
                      { drive := d₃, success := true, errors := []
                        destName := some destFolder.name
                        mainFolderName := some mainFolderName
                        mainFolderId := some mainFolderId
                        tree := some tree₂, folderIdMap := idMap₁
                        createdFiles := createdFiles }

/-- `file.size` summed over a flat list, i.e.
`createdFiles.reduce((sum, file) => sum + file.size, 0)`. -/
def sumSizes (files : List FileInfo) : Nat :=
  (files.map FileInfo.size).sum

/-- The `returnData` object as assembled right after the `try`/`catch`
block (the "PREPARE RETURN DATA" section). -/
def buildReturnData (d₀ : Drive) (destinationFolderId : Nat)
    (a : AttemptResult) : ReturnData :=
  let totalFiles := a.createdFiles.length
  let totalSize := sumSizes a.createdFiles
  { success := a.success
    timestamp := d₀.nowIso
    destinationRoot :=
      { name := a.destName
        id := destinationFolderId
        url := a.destName.map (fun _ => folderUrl destinationFolderId) }
    mainFolder :=
      { name := a.mainFolderName
        id := a.mainFolderId
        url := a.mainFolderId.map folderUrl }
    summary :=
      { totalFiles := totalFiles
        totalSize := totalSize
        totalSizeHuman := formatBytes totalSize
        folderCount := a.folderIdMap.eraseDups.length }
    folderStructure := a.tree
    errors := a.errors }

/-- The full result of a `copyFolderStructure` run: the final `returnData`,
the final drive, and (as ghost outputs, values the JS function computes
internally) the flat `createdFiles` list, the id map, the `returnData` as it
stood before the report step, and the id and serialized content written into
the report file when both report-writing steps succeeded. -/
structure CopyOutcome where
  data : ReturnData
  drive : Drive
  createdFiles : List FileInfo
  folderIdMap : List Nat
  preReportData : ReturnData
  reportId : Option Nat
  reportPreJson : Option String

/-- Steps 5–7 of the "SAVE JSON REPORT" section: serialize the now-complete
`data₁`, overwrite the placeholder with it, read the persisted size back and
patch the one record (aliased from both the tree and the flat list) and
`totalSize`.  A `setContent` throw is caught: the error is appended and
`success` is forced to `false`. -/
def saveJsonReportStep2 (rd data₁ : ReturnData) (d₁ : Drive) (reportId : Nat)
    (createdFiles₁ : List FileInfo) (idMap : List Nat) (tree₁ : FolderNode)
    (reportFileInfo : FileInfo) : CopyOutcome :=
  let finalJsonContent := serializeResult data₁
  match d₁.setContent reportId finalJsonContent with
  | .error e =>
      let msg := "Failed to save JSON report file: " ++ e
      { data := { data₁ with errors := data₁.errors ++ [msg], success := false }
        drive := d₁.logError msg
        createdFiles := createdFiles₁, folderIdMap := idMap
        preReportData := rd, reportId := some reportId, reportPreJson := none }
  | .ok d₂ =>
      let finalFileSize := d₂.getFileSize reportId
      let tree₂ := tree₁.setFile JSON_REPORT_FILENAME
        { reportFileInfo with size := finalFileSize }
      let createdFiles₂ := createdFiles₁.map (fun f =>
        if f.id = reportId then { f with size := finalFileSize } else f)
      let newTotalSize₂ := (createdFiles₁.map (fun f =>
        if f.id = reportId then finalFileSize else f.size)).sum
      { data :=
          { data₁ with
            folderStructure := some tree₂
            summary :=
              { data₁.summary with
                totalSize := newTotalSize₂
                totalSizeHuman := formatBytes newTotalSize₂ } }
        drive := d₂
        createdFiles := createdFiles₂, folderIdMap := idMap
        preReportData := rd, reportId := some reportId
        reportPreJson := some finalJsonContent }

/-- The "SAVE JSON REPORT" section of `copyFolderStructure`: create a `'{}'`
placeholder to obtain an id and url, splice its provisional record (size 0)
into the tree, the flat list and the summary, then run steps 5–7
(`saveJsonReportStep2`).  A `createFile` throw is caught: the error is
appended and `success` is forced to `false`. -/
def saveJsonReport (rd : ReturnData) (d : Drive) (createdFiles : List FileInfo)
    (idMap : List Nat) (rootId : Nat) (tree : FolderNode) : CopyOutcome :=
  match d.createFile rootId JSON_REPORT_FILENAME ("\x7b\x7d") ("application/json") with
  | .error e =>
      let msg := "Failed to save JSON report file: " ++ e
      { data := { rd with errors := rd.errors ++ [msg], success := false }
        drive := d.logError msg
        createdFiles := createdFiles, folderIdMap := idMap
        preReportData := rd, reportId := none, reportPreJson := none }
  | .ok (reportId, d₁) =>
      let reportFileInfo : FileInfo :=
        { name := JSON_REPORT_FILENAME
          id := reportId
          url := fileUrl reportId
          path := getFilePath d₁ rootId idMap
          folderId := rootId
          size := 0
          mimeType := "application/json"
          createdTime := d₁.nowIso }
      let tree₁ := tree.setFile JSON_REPORT_FILENAME reportFileInfo
      let createdFiles₁ := createdFiles ++ [reportFileInfo]
      let newTotalSize := sumSizes createdFiles₁
      let data₁ : ReturnData :=
        { rd with
          folderStructure := some tree₁
          summary :=
            { totalFiles := createdFiles₁.length
              totalSize := newTotalSize
              totalSizeHuman := formatBytes newTotalSize
              folderCount := rd.summary.folderCount } }
      saveJsonReportStep2 rd data₁ d₁ reportId createdFiles₁ idMap tree₁
        reportFileInfo

/-- `copyFolderStructure(sourceFolderId, destinationFolderId, newFolderName,
saveJsonOutput)`, with the final `returnData` and the ghost outputs exposed;
the JS function returns `JSON.stringify` of `.data` (see
`copyFolderStructure` below). -/
def copyFolderStructureData (d : Drive) (sourceFolderId destinationFolderId : Nat)
    (newFolderName : Option String) (saveJsonOutput : Bool) : CopyOutcome :=
  let a := copyAttempt d sourceFolderId destinationFolderId newFolderName
  let rd := buildReturnData d destinationFolderId a
  match saveJsonOutput, a.mainFolderId, a.tree with
  | true, some rootId, some tree =>
      saveJsonReport rd a.drive a.createdFiles a.folderIdMap rootId tree
  | _, _, _ =>
      { data := rd, drive := a.drive
        createdFiles := a.createdFiles, folderIdMap := a.folderIdMap
        preReportData := rd, reportId := none, reportPreJson := none }

/-- `copyFolderStructure`: the JSON string the JS function returns, with the
final drive state. -/
def copyFolderStructure (d : Drive) (sourceFolderId destinationFolderId : Nat)
    (newFolderName : Option String) (saveJsonOutput : Bool) : String × Drive :=
  let o := copyFolderStructureData d sourceFolderId destinationFolderId
    newFolderName saveJsonOutput
  (serializeResult o.data, o.drive)

/-- The job payload stored in CacheService under `'job_' + jobId`. -/
structure JobData where
  sourceFolderId : Nat
  destinationFolderId : Nat
  newFolderName : Option String
  saveJsonOutput : Bool
  callbackUrl : String
  requestTimestamp : String
deriving DecidableEq, Repr

/-- The JSON envelope handed to `sendCallback`. -/
structure CallbackPayload where
  success : Bool
  jobId : String
  data : Option String
  errMsg : Option String
deriving DecidableEq, Repr

/-- The ambient Apps Script service state: the drive, the persisted
`JOB_QUEUE` script property, the CacheService store, the script lock, the
payloads handed to the callback dispatcher (delivery itself is an external
HTTP call), and the UUID source.  `lockTimesOut` injects `waitLock`
failures. -/
structure ScriptState where
  drive : Drive
  jobQueue : Option (List String)
  cache : List (String × JobData)
  lockTimesOut : Bool
  lockHeld : Bool
  callbacks : List (String × CallbackPayload)
  uuidCounter : Nat

/-- `Utilities.getUuid()`, modelled as a fresh token from a counter. -/
def newUuid (n : Nat) : String := "uuid-" ++ natRepr n

/-- `addJobToQueue(jobId)`: lock, read the persisted queue (empty when the
property is unset), append, persist; the lock is released in the `finally`
block on every path.  A lock timeout is caught, logged and rethrown as the
returned error. -/
def addJobToQueue (s : ScriptState) (jobId : String) :
    ScriptState × Option String :=
  if s.lockTimesOut then
    let s₁ := { s with
      drive := s.drive.logError ("Could not get lock to add job to queue: timeout")
      lockHeld := false }
    (s₁, some "Failed to queue job, could not acquire lock.")
  else
    let queue := s.jobQueue.getD []
    ({ s with jobQueue := some (queue ++ [jobId]), lockHeld := false }, none)

/-- `getNextJobFromQueue()`: lock; `null` when the property is unset or the
queue is empty; otherwise shift the head, persist the remainder and return
the head.  A lock timeout is caught, logged, and `null` is returned.  The
lock is released in the `finally` block on every path. -/
def getNextJobFromQueue (s : ScriptState) : Option String × ScriptState :=
  if s.lockTimesOut then
    let s₁ := { s with
      drive := s.drive.logError ("Could not get lock to read job queue: timeout")
      lockHeld := false }
    (none, s₁)
  else
    match s.jobQueue with
    | none => (none, { s with lockHeld := false })
    | some [] => (none, { s with lockHeld := false })
    | some (jobId :: rest) =>
        (some jobId, { s with jobQueue := some rest, lockHeld := false })

/-- `sendCallback(callbackUrl, payload)`: records the envelope handed to the
outbound HTTP client (`UrlFetchApp.fetch`); delivery is external and
best-effort. -/
def sendCallback (s : ScriptState) (callbackUrl : String)
    (payload : CallbackPayload) : ScriptState :=
  { s with callbacks := s.callbacks ++ [(callbackUrl, payload)] }

/-- `processJobQueue()`: the 1-minute tick.  Dequeue at most one job; if its
payload is gone from the cache, log and discard silently; otherwise run the
whole synchronous copy, send the `{success, jobId, data}` envelope, and
remove the payload in the `finally` block.  (`copyFolderStructure` catches
all its internal failures and always returns, so the tick's own `catch`
branch — the `{success:false,jobId,error}` envelope — is unreachable in the
model, as in the source.) -/
def processJobQueue (s : ScriptState) : ScriptState :=
  match getNextJobFromQueue s with
  | (none, s₁) => s₁
  | (some jobId, s₁) =>
      match lookupAssoc s₁.cache ("job_" ++ jobId) with
      | none =>
          let msg := "Job " ++ jobId ++
            " found in queue but data not found in cache. It may have expired. Discarding."
          { s₁ with drive := s₁.drive.logError msg }
      | some jobData =>
          let o := copyFolderStructureData s₁.drive jobData.sourceFolderId
            jobData.destinationFolderId jobData.newFolderName
            jobData.saveJsonOutput
          let payload : CallbackPayload :=
            { success := true, jobId := jobId
              data := some (serializeResult o.data), errMsg := none }
          let s₂ := sendCallback { s₁ with drive := o.drive }
            jobData.callbackUrl payload
          { s₂ with cache := s₂.cache.filter (fun p => p.1 ≠ "job_" ++ jobId) }

/-- The response envelope of `doPost`. -/
inductive DoPostResponse where
  | asyncAccepted (jobId : String) (message : String)
  | syncResult (data : String)
  | errorResp (errMsg : String)
deriving DecidableEq, Repr

/-- The request parameters after `validateRequest` (authentication, rate
limiting and id validation are modelled as preconditions of calling this
function; they reject before any mutation). -/
structure PostParams where
  sourceFolderId : Nat
  destinationFolderId : Nat
  newFolderName : Option String
  saveJsonOutput : Bool
  callbackUrl : Option String
deriving DecidableEq, Repr

/-- `doPost(e)` after validation: a present `callbackUrl` selects async mode
(cache the payload, enqueue, return the `jobId` immediately); otherwise run
the copy synchronously.  A throw from `addJobToQueue` is caught by `doPost`'s
`catch` and becomes the error envelope. -/
def doPost (s : ScriptState) (params : PostParams) :
    ScriptState × DoPostResponse :=
  match params.callbackUrl with
  | some cb =>
      let jobId := newUuid s.uuidCounter
      let jobData : JobData :=
        { sourceFolderId := params.sourceFolderId
          destinationFolderId := params.destinationFolderId
          newFolderName := params.newFolderName
          saveJsonOutput := params.saveJsonOutput
          callbackUrl := cb
          requestTimestamp := s.drive.nowIso }
      let s₁ := { s with
        uuidCounter := s.uuidCounter + 1
        cache := insertAssoc s.cache ("job_" ++ jobId) jobData }
      match addJobToQueue s₁ jobId with
      | (s₂, some e) => (s₂, .errorResp e)
      | (s₂, none) =>
          (s₂, .asyncAccepted jobId "Job accepted and queued for processing.")
  | none =>
      let o := copyFolderStructureData s.drive params.sourceFolderId
        params.destinationFolderId params.newFolderName params.saveJsonOutput
      ({ s with drive := o.drive }, .syncResult (serializeResult o.data))

/-- External events interleaved with processing: a scheduler tick, or the
expiry (TTL eviction) of a cache entry. -/
inductive QStep where
  | tick : QStep
  | expire (key : String) : QStep

def runStep (s : ScriptState) : QStep → ScriptState
  | .tick => processJobQueue s
  | .expire k => { s with cache := s.cache.filter (fun p => p.1 ≠ k) }

def runSteps (s : ScriptState) : List QStep → ScriptState
  | [] => s
  | st :: rest => runSteps (runStep s st) rest

/-- Number of dispatched callback payloads tagged with `jobId`. -/
def callbackCount (s : ScriptState) (jobId : String) : Nat :=
  (s.callbacks.filter (fun c => c.2.jobId = jobId)).length

/-- Number of occurrences of `jobId` in the pending queue. -/
def queueCount (s : ScriptState) (jobId : String) : Nat :=
  ((s.jobQueue.getD []).filter (fun j => j = jobId)).length

/-- Repeatedly dequeue, collecting the returned job ids in order. -/
def drainQueue (s : ScriptState) : Nat → List String
  | 0 => []
  | n + 1 =>
      match getNextJobFromQueue s with
      | (none, _) => []
      | (some j, s₁) => j :: drainQueue s₁ n

/-! ## Lemmas about the job queue -/

theorem drainQueue_spec : ∀ (q : List String) (s : ScriptState),
    s.lockTimesOut = false → s.jobQueue = some q →
    drainQueue s q.length = q := by
  intro q
  induction q with
  | nil => intro s h1 h2; simp [drainQueue]
  | cons j rest ih =>
    intro s h1 h2
    have hstep : getNextJobFromQueue s =
        (some j, { s with jobQueue := some rest, lockHeld := false }) := by
      simp [getNextJobFromQueue, h1, h2]
    simp only [List.length_cons, drainQueue, hstep]
    have hrec := ih { s with jobQueue := some rest, lockHeld := false }
      (by simp [h1]) (by simp)
    simp [hrec]

theorem callbackCount_append (cbs : List (String × CallbackPayload))
    (c : String × CallbackPayload) (j : String) :
    ((cbs ++ [c]).filter (fun x => x.2.jobId = j)).length =
      (cbs.filter (fun x => x.2.jobId = j)).length +
        (if c.2.jobId = j then 1 else 0) := by
  by_cases h : c.2.jobId = j <;> simp [List.filter_append, h]

/-- One step (tick or expiry) never increases the number of callbacks tagged
`j` plus the number of pending occurrences of `j`. -/
theorem step_callback_queue_bound (s : ScriptState) (st : QStep) (j : String) :
    callbackCount (runStep s st) j + queueCount (runStep s st) j ≤
      callbackCount s j + queueCount s j := by
  cases st with
  | expire k => simp [runStep, callbackCount, queueCount]
  | tick =>
    simp only [runStep, processJobQueue]
    by_cases hl : s.lockTimesOut
    · simp [getNextJobFromQueue, hl, callbackCount, queueCount, Drive.logError]
    · simp only [getNextJobFromQueue, hl, Bool.false_eq_true, if_false]
      match hq : s.jobQueue with
      | none => simp [callbackCount, queueCount]
      | some [] => simp [callbackCount, queueCount]
      | some (h :: rest) =>
        simp only
        match hc : lookupAssoc s.cache ("job_" ++ h) with
        | none =>
          simp only [callbackCount, queueCount, Drive.logError]
          by_cases hj : h = j <;> simp [hq, hj]
        | some jd =>
          simp only [callbackCount, queueCount, sendCallback]
          rw [callbackCount_append]
          by_cases hj : h = j
          · simp [hq, hj]; omega
          · simp [hq, hj]

theorem runSteps_callback_bound (steps : List QStep) (s : ScriptState)
    (j : String) :
    callbackCount (runSteps s steps) j + queueCount (runSteps s steps) j ≤
      callbackCount s j + queueCount s j := by
  induction steps generalizing s with
  | nil => simp [runSteps]
  | cons st rest ih =>
    calc callbackCount (runSteps (runStep s st) rest) j +
          queueCount (runSteps (runStep s st) rest) j ≤
        callbackCount (runStep s st) j + queueCount (runStep s st) j := ih _
      _ ≤ callbackCount s j + queueCount s j := step_callback_queue_bound s st j

theorem lookupAssoc_filter_ne {α : Type} (l : List (String × α)) (k : String) :
    lookupAssoc (l.filter (fun p => p.1 ≠ k)) k = none := by
  induction l with
  | nil => simp [lookupAssoc]
  | cons p rest ih =>
    obtain ⟨k₀, v₀⟩ := p
    simp only [ne_eq, decide_not] at ih ⊢
    by_cases h : k₀ = k
    · simp [h, lookupAssoc, ih]
    · simp [h, lookupAssoc, ih]

/-! ## Shared concrete fixtures for witnesses -/

/-- A concrete drive: a pre-existing destination folder `Dest` (id 2) and a
source tree `A/{B/{file1}, file2}` registered under id 1;  no faults. -/
def exDrive : Drive :=
  { folders := [(2, ⟨"Dest", none⟩)]
    files := []
    nextId := 10
    sources := [(1, .node ("A") [⟨"file2", "xx", "text/plain"⟩]
      [.node ("B") [⟨"file1", "yyy", "text/plain"⟩] []])]
    nowIso := "2026-01-01T00:00:00Z"
    nowFormatted := "01-Jan-2026 00:00:00"
    failFolderNames := []
    failFileNames := []
    failSetContent := false
    log := [] }

def exJob : JobData :=
  { sourceFolderId := 1, destinationFolderId := 2, newFolderName := none
    saveJsonOutput := false, callbackUrl := "https://hook.example/cb"
    requestTimestamp := "2026-01-01T00:00:00Z" }

/-- A concrete service state: two queued jobs, the first with a cached
payload. -/
def exQState : ScriptState :=
  { drive := exDrive
    jobQueue := some ["uuid-0", "uuid-1"]
    cache := [("job_uuid-0", exJob)]
    lockTimesOut := false
    lockHeld := false
    callbacks := []
    uuidCounter := 2 }

/-! ## C6: the job queue is a lock-guarded FIFO -/

/-- **C6.** `getNextJobFromQueue` returns `null` when the persisted queue is
absent or empty; otherwise it removes exactly the head element, persists the
remainder, and returns that head.  `addJobToQueue` appends under the same
lock, so repeated dequeuing returns the ids in exactly enqueue order (FIFO),
each removed once.  On every path — including lock timeouts, the modelled
exception — both operations leave the lock released. -/
theorem claim_C6_queue_fifo (s : ScriptState) (j : String)
    (q rest : List String) :
    (s.lockTimesOut = false →
      ((s.jobQueue = none →
          getNextJobFromQueue s = (none, { s with lockHeld := false }))
        ∧ (s.jobQueue = some [] →
          getNextJobFromQueue s = (none, { s with lockHeld := false }))
        ∧ (s.jobQueue = some (j :: rest) →
          getNextJobFromQueue s =
            (some j, { s with jobQueue := some rest, lockHeld := false }))
        ∧ addJobToQueue s j =
            ({ s with jobQueue := some (s.jobQueue.getD [] ++ [j])
                      lockHeld := false }, none)
        ∧ (s.jobQueue = some q → drainQueue s q.length = q)))
    ∧ (getNextJobFromQueue s).2.lockHeld = false
    ∧ (addJobToQueue s j).1.lockHeld = false := by
  refine ⟨fun hl => ⟨?_, ?_, ?_, ?_, ?_⟩, ?_, ?_⟩
  · intro hq; simp [getNextJobFromQueue, hl, hq]
  · intro hq; simp [getNextJobFromQueue, hl, hq]
  · intro hq; simp [getNextJobFromQueue, hl, hq]
  · simp [addJobToQueue, hl]
  · intro hq; exact drainQueue_spec q s hl hq
  · by_cases hl : s.lockTimesOut <;>
      simp [getNextJobFromQueue, hl] <;>
      cases hq : s.jobQueue with
      | none => simp
      | some l => cases l <;> simp
  · by_cases hl : s.lockTimesOut <;> simp [addJobToQueue, hl]

theorem claim_C6_queue_fifo_witness :
    drainQueue exQState (List.length ["uuid-0", "uuid-1"]) = ["uuid-0", "uuid-1"]
    ∧ (getNextJobFromQueue exQState).2.lockHeld = false := by
  have h := claim_C6_queue_fifo exQState "x" ["uuid-0", "uuid-1"] []
  exact ⟨(h.1 rfl).2.2.2.2 rfl, h.2.1⟩

/-! ## C7: each submitted job id reaches at most one callback payload -/

/-- **C7.** Submitting asynchronously returns a fresh `jobId` synchronously,
with the payload cached and the id enqueued.  The tick that claims a job
whose payload is still cached dispatches exactly one callback envelope tagged
with that `jobId` (success envelope carrying the run's data) and discards the
payload; a claimed job whose payload has expired is discarded silently — no
callback, no error recorded anywhere, the cache untouched.  Across any
interleaving of ticks and cache expiries, a job id queued at most once is
tagged in at most one callback payload. -/
theorem claim_C7_job_callback_at_most_once
    (s : ScriptState) (params : PostParams) (cb : String)
    (j : String) (rest : List String) (jd : JobData) (steps : List QStep) :
    (params.callbackUrl = some cb → s.lockTimesOut = false →
      doPost s params =
        ({ s with
            uuidCounter := s.uuidCounter + 1
            cache := insertAssoc s.cache ("job_" ++ newUuid s.uuidCounter)
              { sourceFolderId := params.sourceFolderId
                destinationFolderId := params.destinationFolderId
                newFolderName := params.newFolderName
                saveJsonOutput := params.saveJsonOutput
                callbackUrl := cb
                requestTimestamp := s.drive.nowIso }
            jobQueue := some (s.jobQueue.getD [] ++ [newUuid s.uuidCounter])
            lockHeld := false },
          .asyncAccepted (newUuid s.uuidCounter)
            "Job accepted and queued for processing."))
    ∧ (s.lockTimesOut = false → s.jobQueue = some (j :: rest) →
      lookupAssoc s.cache ("job_" ++ j) = some jd →
      callbackCount (processJobQueue s) j = callbackCount s j + 1
      ∧ (processJobQueue s).callbacks = s.callbacks ++
          [(jd.callbackUrl,
            { success := true, jobId := j
              data := some (serializeResult
                (copyFolderStructureData s.drive jd.sourceFolderId
                  jd.destinationFolderId jd.newFolderName
                  jd.saveJsonOutput).data)
              errMsg := none })]
      ∧ (processJobQueue s).jobQueue = some rest
      ∧ lookupAssoc (processJobQueue s).cache ("job_" ++ j) = none)
    ∧ (s.lockTimesOut = false → s.jobQueue = some (j :: rest) →
      lookupAssoc s.cache ("job_" ++ j) = none →
      (processJobQueue s).callbacks = s.callbacks
      ∧ (processJobQueue s).jobQueue = some rest
      ∧ (processJobQueue s).cache = s.cache)
    ∧ (callbackCount s j = 0 → queueCount s j ≤ 1 →
      callbackCount (runSteps s steps) j ≤ 1) := by
  refine ⟨?_, ?_, ?_, ?_⟩
  · intro hcb hl
    simp only [doPost, hcb, addJobToQueue, hl, Bool.false_eq_true, if_false]
  · intro hl hq hc
    have hstep : getNextJobFromQueue s =
        (some j, { s with jobQueue := some rest, lockHeld := false }) := by
      simp [getNextJobFromQueue, hl, hq]
    simp only [processJobQueue, hstep]
    simp only [hc]
    refine ⟨?_, by simp [sendCallback], rfl, ?_⟩
    · simp only [callbackCount, sendCallback]
      rw [callbackCount_append]
      simp
    · exact lookupAssoc_filter_ne _ _
  · intro hl hq hc
    have hstep : getNextJobFromQueue s =
        (some j, { s with jobQueue := some rest, lockHeld := false }) := by
      simp [getNextJobFromQueue, hl, hq]
    simp only [processJobQueue, hstep]
    simp only [hc]
    exact ⟨by simp [Drive.logError], by simp, by simp⟩
  · intro h0 h1
    have := runSteps_callback_bound steps s j
    omega

theorem claim_C7_job_callback_at_most_once_witness :
    callbackCount (processJobQueue exQState) ("uuid-0") =
      callbackCount exQState ("uuid-0") + 1
    ∧ (processJobQueue exQState).jobQueue = some ["uuid-1"]
    ∧ callbackCount (runSteps exQState [.tick, .tick, .tick]) ("uuid-0") ≤ 1 := by
  have h := claim_C7_job_callback_at_most_once exQState
    { sourceFolderId := 1, destinationFolderId := 2, newFolderName := none
      saveJsonOutput := false, callbackUrl := some "https://hook.example/cb" }
    "https://hook.example/cb" "uuid-0" ["uuid-1"] exJob [.tick, .tick, .tick]
  have hb := h.2.1 rfl rfl rfl
  exact ⟨hb.1, hb.2.2.1, h.2.2.2 rfl (by decide)⟩

/-! ## C3: a structural failure aborts, is caught at the top, no rollback -/

/-- **C3.** When creating a destination subcontainer throws during the
structure phase (hypothesis `hp`), the traversal is aborted and the exception
reaches `copyFolderStructure`'s top-level catch: the run returns normally
with `success = false` and the fault's message in `errors`, no item is
copied, the partially built tree is still in the result, and the destination
drive is exactly the partial state at the throw — every folder already
created is retained (no rollback). -/
theorem claim_C3_structural_failure
    (d : Drive) (sourceFolderId destinationFolderId : Nat)
    (newFolderName : Option String) (src : SrcFolder) (destFolder : DFolder)
    (rootId : Nat) (d₁ d₂ : Drive) (tree : FolderNode) (idMap : List Nat)
    (e : String)
    (hs : d.findSource sourceFolderId = some src)
    (hd : d.findFolder destinationFolderId = some destFolder)
    (hc : d.createFolder destinationFolderId
      (getUniqueFolderName d destinationFolderId
        (effectiveBaseName newFolderName src)) = .ok (rootId, d₁))
    (hp : createFolderStructureRecursive d₁ src rootId
      (FolderNode.mk
        (getUniqueFolderName d destinationFolderId
          (effectiveBaseName newFolderName src))
        rootId (folderUrl rootId) [] []) [rootId] =
      (some e, d₂, tree, idMap)) :
    (copyFolderStructureData d sourceFolderId destinationFolderId
        newFolderName false).data.success = false
    ∧ (copyFolderStructureData d sourceFolderId destinationFolderId
        newFolderName false).data.errors = [e]
    ∧ (copyFolderStructureData d sourceFolderId destinationFolderId
        newFolderName false).drive = d₂
    ∧ (∀ p ∈ d₂.folders,
        p ∈ (copyFolderStructureData d sourceFolderId destinationFolderId
          newFolderName false).drive.folders)
    ∧ (copyFolderStructureData d sourceFolderId destinationFolderId
        newFolderName false).data.summary.totalFiles = 0
    ∧ (copyFolderStructureData d sourceFolderId destinationFolderId
        newFolderName false).data.folderStructure = some tree := by
  have ha : copyAttempt d sourceFolderId destinationFolderId newFolderName =
      { drive := d₂, success := false, errors := [e]
        destName := some destFolder.name
        mainFolderName := some (getUniqueFolderName d destinationFolderId
          (effectiveBaseName newFolderName src))
        mainFolderId := some rootId
        tree := some tree, folderIdMap := idMap, createdFiles := [] } := by
    unfold copyAttempt
    simp only [hs, hd, hc, hp]
  simp [copyFolderStructureData, ha, buildReturnData]

/-- `exDrive` with subfolder creation for name `B` poisoned: phase 1 throws
mid-tree. -/
def exDriveFailB : Drive := { exDrive with failFolderNames := ["B"] }

theorem claim_C3_structural_failure_witness :
    (copyFolderStructureData exDriveFailB 1 2 none false).data.success = false
    ∧ (copyFolderStructureData exDriveFailB 1 2 none false).data.errors =
        ["could not create folder B"]
    ∧ (copyFolderStructureData exDriveFailB 1 2 none false).data.summary.totalFiles = 0 := by
  have h := claim_C3_structural_failure exDriveFailB 1 2 none _ _ 10 _ _ _ _
    ("could not create folder B") rfl rfl rfl rfl
  exact ⟨h.1, h.2.1, h.2.2.2.2.1⟩

/-! ## C8: a report-persistence failure forces overall failure -/

theorem subFolders_setFile (t : FolderNode) (k : String) (v : FileInfo) :
    (t.setFile k v).subFolders = t.subFolders := by
  cases t; rfl

theorem saveJsonReportStep2_pre (rd data₁ : ReturnData) (d₁ : Drive)
    (reportId : Nat) (cf₁ : List FileInfo) (im : List Nat) (t₁ : FolderNode)
    (rfi : FileInfo) :
    (saveJsonReportStep2 rd data₁ d₁ reportId cf₁ im t₁ rfi).preReportData = rd := by
  cases hsc : d₁.setContent reportId (serializeResult data₁) with
  | error e => simp [saveJsonReportStep2, hsc]
  | ok d₂ => simp [saveJsonReportStep2, hsc]

theorem saveJsonReport_pre (rd : ReturnData) (d : Drive) (cf : List FileInfo)
    (im : List Nat) (rid : Nat) (t : FolderNode) :
    (saveJsonReport rd d cf im rid t).preReportData = rd := by
  unfold saveJsonReport
  split
  · rfl
  · exact saveJsonReportStep2_pre _ _ _ _ _ _ _ _

theorem copyFolderStructureData_pre (d : Drive) (srcId destId : Nat)
    (nn : Option String) (save : Bool) :
    (copyFolderStructureData d srcId destId nn save).preReportData =
      buildReturnData d destId (copyAttempt d srcId destId nn) := by
  unfold copyFolderStructureData
  dsimp only
  split
  · exact saveJsonReport_pre _ _ _ _ _ _
  · rfl

theorem copyAttempt_tree_isSome (d : Drive) (srcId destId : Nat)
    (nn : Option String) :
    (copyAttempt d srcId destId nn).tree.isSome =
      (copyAttempt d srcId destId nn).mainFolderId.isSome := by
  unfold copyAttempt
  repeat' (first | split | dsimp only)
  all_goals rfl

theorem saveJsonReportStep2_failure (rd data₁ : ReturnData) (d₁ : Drive)
    (reportId : Nat) (cf₁ : List FileInfo) (im : List Nat) (t₁ : FolderNode)
    (rfi : FileInfo)
    (hfail : (saveJsonReportStep2 rd data₁ d₁ reportId cf₁ im t₁ rfi).reportPreJson = none) :
    (saveJsonReportStep2 rd data₁ d₁ reportId cf₁ im t₁ rfi).data.success = false
    ∧ (∃ suffix, (saveJsonReportStep2 rd data₁ d₁ reportId cf₁ im t₁ rfi).data.errors =
        data₁.errors ++ ["Failed to save JSON report file: " ++ suffix])
    ∧ (saveJsonReportStep2 rd data₁ d₁ reportId cf₁ im t₁ rfi).data.folderStructure =
        data₁.folderStructure
    ∧ (saveJsonReportStep2 rd data₁ d₁ reportId cf₁ im t₁ rfi).data.summary.folderCount =
        data₁.summary.folderCount := by
  cases hsc : d₁.setContent reportId (serializeResult data₁) with
  | error e =>
    refine ⟨?_, ⟨e, ?_⟩, ?_, ?_⟩ <;> simp [saveJsonReportStep2, hsc]
  | ok d₂ =>
    exfalso
    simp [saveJsonReportStep2, hsc] at hfail

/-- **C8.** If either report-persistence step fails — creating the
placeholder item or overwriting its content — the failure is caught: an
error string starting with `"Failed to save JSON report file: "` is appended
to the errors carried so far, overall `success` is forced to `false` (even
when tree replication itself succeeded, i.e. whatever `success` was before
the report step), and the already-built tree (same container structure) and
summary (same `folderCount`) are still returned. -/
theorem claim_C8_report_persist_failure
    (d : Drive) (srcId destId : Nat) (nn : Option String) (r : Nat)
    (hroot : (copyFolderStructureData d srcId destId nn true).preReportData.mainFolder.id = some r)
    (hfail : (copyFolderStructureData d srcId destId nn true).reportPreJson = none) :
    (copyFolderStructureData d srcId destId nn true).data.success = false
    ∧ (∃ suffix, (copyFolderStructureData d srcId destId nn true).data.errors =
        (copyFolderStructureData d srcId destId nn true).preReportData.errors ++
          ["Failed to save JSON report file: " ++ suffix])
    ∧ (∃ t', (copyFolderStructureData d srcId destId nn true).data.folderStructure = some t'
        ∧ (copyFolderStructureData d srcId destId nn true).preReportData.folderStructure.map
            FolderNode.subFolders = some t'.subFolders)
    ∧ (copyFolderStructureData d srcId destId nn true).data.summary.folderCount =
        (copyFolderStructureData d srcId destId nn true).preReportData.summary.folderCount := by
  have hpre := copyFolderStructureData_pre d srcId destId nn true
  have hm : (copyAttempt d srcId destId nn).mainFolderId = some r := by
    rw [hpre] at hroot; exact hroot
  have hts : (copyAttempt d srcId destId nn).tree.isSome = true := by
    rw [copyAttempt_tree_isSome, hm]; rfl
  obtain ⟨tree, ht⟩ := Option.isSome_iff_exists.mp hts
  have hred : copyFolderStructureData d srcId destId nn true =
      saveJsonReport (buildReturnData d destId (copyAttempt d srcId destId nn))
        (copyAttempt d srcId destId nn).drive
        (copyAttempt d srcId destId nn).createdFiles
        (copyAttempt d srcId destId nn).folderIdMap r tree := by
    unfold copyFolderStructureData
    dsimp only
    rw [hm, ht]
  rw [hred] at hfail ⊢
  rw [saveJsonReport_pre]
  set rd := buildReturnData d destId (copyAttempt d srcId destId nn) with hrd
  have hrdtree : rd.folderStructure = some tree := by
    rw [hrd]; unfold buildReturnData; dsimp only; rw [ht]
  cases hcf : (copyAttempt d srcId destId nn).drive.createFile r
      JSON_REPORT_FILENAME ("\x7b\x7d") ("application/json") with
  | error e =>
    refine ⟨?_, ⟨e, ?_⟩, ⟨tree, ?_, ?_⟩, ?_⟩ <;>
      simp [saveJsonReport, hcf, hrdtree]
  | ok pr =>
    obtain ⟨rid', d₁⟩ := pr
    rw [saveJsonReport] at hfail ⊢
    rw [hcf] at hfail ⊢
    dsimp only at hfail ⊢
    obtain ⟨h1, ⟨suf, h2⟩, h3, h4⟩ :=
      saveJsonReportStep2_failure _ _ _ _ _ _ _ _ hfail
    refine ⟨h1, ⟨suf, ?_⟩, ?_, ?_⟩
    · rw [h2]
    · refine ⟨tree.setFile JSON_REPORT_FILENAME
        { name := JSON_REPORT_FILENAME, id := rid', url := fileUrl rid'
          path := getFilePath d₁ r (copyAttempt d srcId destId nn).folderIdMap
          folderId := r, size := 0, mimeType := "application/json"
          createdTime := d₁.nowIso }, ?_, ?_⟩
      · rw [h3]
      · rw [hrdtree, subFolders_setFile]; rfl
    · rw [h4]

/-- `exDrive` with `setContent` poisoned: the report overwrite step throws. -/
def exDriveFailSC : Drive := { exDrive with failSetContent := true }

theorem claim_C8_report_persist_failure_witness :
    (copyFolderStructureData exDriveFailSC 1 2 none true).data.success = false
    ∧ (copyFolderStructureData exDriveFailSC 1 2 none true).data.summary.folderCount =
        (copyFolderStructureData exDriveFailSC 1 2 none true).preReportData.summary.folderCount := by
  have h := claim_C8_report_persist_failure exDriveFailSC 1 2 none 10 rfl rfl
  exact ⟨h.1, h.2.2.2⟩

/-! ## Drive evolution and well-formedness -/

/-- All stored ids are below the fresh-id counter. -/
def Drive.WF (d : Drive) : Prop :=
  (∀ p ∈ d.folders, p.1 < d.nextId) ∧ (∀ p ∈ d.files, p.1 < d.nextId)

/-- How every operation of the embedded program changes the drive: folders
are only appended (with fresh ids), the id counter never decreases, and the
source snapshots, clocks and fault oracles are untouched; well-formedness is
preserved. -/
def DriveGrows (d d' : Drive) : Prop :=
  (∃ l, d'.folders = d.folders ++ l ∧ ∀ q ∈ l, d.nextId ≤ q.1) ∧
  d.nextId ≤ d'.nextId ∧
  d'.sources = d.sources ∧
  d'.nowIso = d.nowIso ∧
  d'.nowFormatted = d.nowFormatted ∧
  d'.failFolderNames = d.failFolderNames ∧
  d'.failFileNames = d.failFileNames ∧
  d'.failSetContent = d.failSetContent ∧
  (d.WF → d'.WF)

theorem DriveGrows.refl (d : Drive) : DriveGrows d d :=
  ⟨⟨[], by simp⟩, le_refl _, rfl, rfl, rfl, rfl, rfl, rfl, id⟩

theorem DriveGrows.trans {d₁ d₂ d₃ : Drive} (h₁ : DriveGrows d₁ d₂)
    (h₂ : DriveGrows d₂ d₃) : DriveGrows d₁ d₃ := by
  obtain ⟨⟨l₁, hl₁, hf₁⟩, hn₁, hs₁, hi₁, hfmt₁, hffn₁, hffi₁, hfsc₁, hwf₁⟩ := h₁
  obtain ⟨⟨l₂, hl₂, hf₂⟩, hn₂, hs₂, hi₂, hfmt₂, hffn₂, hffi₂, hfsc₂, hwf₂⟩ := h₂
  refine ⟨⟨l₁ ++ l₂, by rw [hl₂, hl₁, List.append_assoc], ?_⟩,
    le_trans hn₁ hn₂, hs₂.trans hs₁, hi₂.trans hi₁, hfmt₂.trans hfmt₁,
    hffn₂.trans hffn₁, hffi₂.trans hffi₁, hfsc₂.trans hfsc₁,
    fun h => hwf₂ (hwf₁ h)⟩
  intro q hq
  rcases List.mem_append.mp hq with h | h
  · exact hf₁ q h
  · exact le_trans hn₁ (hf₂ q h)

theorem createFolder_ok_spec {d : Drive} {p : Nat} {n : String} {r : Nat}
    {d' : Drive} (h : d.createFolder p n = .ok (r, d')) :
    r = d.nextId ∧
    d' = { d with folders := d.folders ++ [(d.nextId, ⟨n, some p⟩)]
                  nextId := d.nextId + 1 } ∧
    n ∉ d.failFolderNames := by
  unfold Drive.createFolder at h
  by_cases hn : n ∈ d.failFolderNames
  · simp [hn] at h
  · simp only [hn, if_neg, if_false] at h
    cases h
    exact ⟨rfl, rfl, hn⟩

theorem createFolder_grows {d : Drive} {p : Nat} {n : String} {r : Nat}
    {d' : Drive} (h : d.createFolder p n = .ok (r, d')) : DriveGrows d d' := by
  obtain ⟨hr, hd, _⟩ := createFolder_ok_spec h
  subst hd
  refine ⟨⟨[(d.nextId, ⟨n, some p⟩)], by simp, by simp⟩, by simp, rfl, rfl,
    rfl, rfl, rfl, rfl, ?_⟩
  rintro ⟨hfo, hfi⟩
  constructor
  · intro q hq
    simp only [List.mem_append, List.mem_singleton] at hq
    rcases hq with h | h
    · exact lt_trans (hfo q h) (by simp)
    · simp [h]
  · intro q hq
    exact lt_trans (hfi q hq) (by simp)

theorem makeCopy_ok_spec {d : Drive} {f : SrcFile} {p : Nat} {r : Nat}
    {d' : Drive} (h : d.makeCopy f p = .ok (r, d')) :
    r = d.nextId ∧
    d' = { d with
      files := d.files ++ [(d.nextId, ⟨f.name, f.content, f.mimeType, p⟩)]
      nextId := d.nextId + 1 } ∧
    f.name ∉ d.failFileNames := by
  unfold Drive.makeCopy at h
  by_cases hn : f.name ∈ d.failFileNames
  · simp [hn] at h
  · simp only [hn, if_neg, if_false] at h
    cases h
    exact ⟨rfl, rfl, hn⟩

theorem makeCopy_grows {d : Drive} {f : SrcFile} {p : Nat} {r : Nat}
    {d' : Drive} (h : d.makeCopy f p = .ok (r, d')) : DriveGrows d d' := by
  obtain ⟨hr, hd, _⟩ := makeCopy_ok_spec h
  subst hd
  refine ⟨⟨[], by simp⟩, by simp, rfl, rfl, rfl, rfl, rfl, rfl, ?_⟩
  rintro ⟨hfo, hfi⟩
  constructor
  · intro q hq
    exact lt_trans (hfo q hq) (by simp)
  · intro q hq
    simp only [List.mem_append, List.mem_singleton] at hq
    rcases hq with h | h
    · exact lt_trans (hfi q h) (by simp)
    · simp [h]

theorem createFile_ok_spec {d : Drive} {p : Nat} {n c m : String} {r : Nat}
    {d' : Drive} (h : d.createFile p n c m = .ok (r, d')) :
    r = d.nextId ∧
    d' = { d with files := d.files ++ [(d.nextId, ⟨n, c, m, p⟩)]
                  nextId := d.nextId + 1 } ∧
    n ∉ d.failFileNames := by
  unfold Drive.createFile at h
  by_cases hn : n ∈ d.failFileNames
  · simp [hn] at h
  · simp only [hn, if_neg, if_false] at h
    cases h
    exact ⟨rfl, rfl, hn⟩

theorem createFile_grows {d : Drive} {p : Nat} {n c m : String} {r : Nat}
    {d' : Drive} (h : d.createFile p n c m = .ok (r, d')) : DriveGrows d d' := by
  obtain ⟨hr, hd, _⟩ := createFile_ok_spec h
  subst hd
  refine ⟨⟨[], by simp⟩, by simp, rfl, rfl, rfl, rfl, rfl, rfl, ?_⟩
  rintro ⟨hfo, hfi⟩
  constructor
  · intro q hq
    exact lt_trans (hfo q hq) (by simp)
  · intro q hq
    simp only [List.mem_append, List.mem_singleton] at hq
    rcases hq with h | h
    · exact lt_trans (hfi q h) (by simp)
    · simp [h]

theorem setContent_ok_spec {d : Drive} {i : Nat} {c : String} {d' : Drive}
    (h : d.setContent i c = .ok d') :
    d' = { d with files := d.files.map (fun p =>
      if p.1 = i then (p.1, { p.2 with content := c }) else p) } ∧
    d.failSetContent = false := by
  unfold Drive.setContent at h
  by_cases hf : d.failSetContent
  · simp [hf] at h
  · rw [if_neg hf] at h
    cases h
    exact ⟨rfl, by simpa using hf⟩

theorem setContent_grows {d : Drive} {i : Nat} {c : String} {d' : Drive}
    (h : d.setContent i c = .ok d') : DriveGrows d d' := by
  obtain ⟨hd, _⟩ := setContent_ok_spec h
  subst hd
  refine ⟨⟨[], by simp⟩, by simp, rfl, rfl, rfl, rfl, rfl, rfl, ?_⟩
  rintro ⟨hfo, hfi⟩
  refine ⟨fun q hq => hfo q hq, ?_⟩
  intro q hq
  simp only [List.mem_map] at hq
  obtain ⟨p, hp, hpq⟩ := hq
  by_cases hpi : p.1 = i
  · rw [if_pos hpi] at hpq
    have hfi' := hfi p hp
    rw [← hpq]
    simpa using hfi'
  · rw [if_neg hpi] at hpq
    exact hpq ▸ hfi p hp

theorem logError_grows (d : Drive) (msg : String) :
    DriveGrows d (d.logError msg) := by
  refine ⟨⟨[], by simp [Drive.logError]⟩, by simp [Drive.logError], rfl, rfl,
    rfl, rfl, rfl, rfl, fun h => h⟩

mutual

theorem createFolderStructureRecursive_grows (src : SrcFolder) (d : Drive)
    (p : Nat) (node : FolderNode) (im : List Nat) :
    DriveGrows d (createFolderStructureRecursive d src p node im).2.1 := by
  match src with
  | .node n fs ss =>
    simp only [createFolderStructureRecursive]
    exact createSubfolders_grows ss d p node im

theorem createSubfolders_grows (subs : List SrcFolder) (d : Drive) (p : Nat)
    (node : FolderNode) (im : List Nat) :
    DriveGrows d (createSubfolders d subs p node im).2.1 := by
  match subs with
  | [] => exact DriveGrows.refl d
  | sub :: rest =>
    simp only [createSubfolders]
    cases hcf : d.createFolder p sub.name with
    | error e => exact DriveGrows.refl d
    | ok pr =>
      obtain ⟨newId, d₁⟩ := pr
      dsimp only
      have h₁ := createFolder_grows hcf
      cases hrec : createFolderStructureRecursive d₁ sub newId
          (FolderNode.mk sub.name newId (folderUrl newId) [] [])
          (im ++ [newId]) with
      | mk e? tl =>
        obtain ⟨d₂, node₂, im₂⟩ := tl
        have h₂ := createFolderStructureRecursive_grows sub d₁ newId
          (FolderNode.mk sub.name newId (folderUrl newId) [] []) (im ++ [newId])
        rw [hrec] at h₂
        cases e? with
        | some e => exact h₁.trans h₂
        | none =>
          have h₃ := createSubfolders_grows rest d₂ p
            (node.setSub sub.name node₂) im₂
          exact (h₁.trans h₂).trans h₃

end

theorem copyFilesList_grows (files : List SrcFile) (d : Drive) (p : Nat)
    (node : FolderNode) (im : List Nat) (cf : List FileInfo) :
    DriveGrows d (copyFilesList d files p node im cf).1 ∧
    (copyFilesList d files p node im cf).1.folders = d.folders := by
  induction files generalizing d node cf with
  | nil => exact ⟨DriveGrows.refl d, rfl⟩
  | cons file rest ih =>
    simp only [copyFilesList]
    cases hmc : d.makeCopy file p with
    | error e =>
      have h₂ := ih (d.logError ("Could not copy file: " ++ file.name ++ ", Error: " ++ e)) node cf
      exact ⟨(logError_grows d _).trans h₂.1, by rw [h₂.2]; rfl⟩
    | ok pr =>
      obtain ⟨newId, d₁⟩ := pr
      dsimp only
      obtain ⟨hmr, hmd, _⟩ := makeCopy_ok_spec hmc
      let info : FileInfo :=
        { name := file.name, id := newId, url := fileUrl newId,
          path := getFilePath d₁ p im, folderId := p,
          size := file.content.length, mimeType := file.mimeType,
          createdTime := d₁.nowIso }
      have h₂ := ih d₁ (node.setFile file.name info) (cf ++ [info])
      refine ⟨(makeCopy_grows hmc).trans h₂.1, ?_⟩
      rw [show d₁.folders = d.folders from by rw [hmd]] at h₂
      exact h₂.2

mutual

theorem copyFilesRecursive_grows (src : SrcFolder) (d : Drive) (p : Nat)
    (node : FolderNode) (im : List Nat) (cf : List FileInfo) :
    DriveGrows d (copyFilesRecursive d src p node im cf).1 ∧
    (copyFilesRecursive d src p node im cf).1.folders = d.folders := by
  match src with
  | .node n fs ss =>
    simp only [copyFilesRecursive]
    cases hfl : copyFilesList d fs p node im cf with
    | mk d₁ tl =>
      obtain ⟨node₁, cf₁⟩ := tl
      have h₁ := copyFilesList_grows fs d p node im cf
      rw [hfl] at h₁
      have h₂ := copySubfolderFiles_grows ss d₁ p node₁ im cf₁
      exact ⟨h₁.1.trans h₂.1, by rw [h₂.2, h₁.2]⟩

theorem copySubfolderFiles_grows (subs : List SrcFolder) (d : Drive) (p : Nat)
    (node : FolderNode) (im : List Nat) (cf : List FileInfo) :
    DriveGrows d (copySubfolderFiles d subs p node im cf).1 ∧
    (copySubfolderFiles d subs p node im cf).1.folders = d.folders := by
  match subs with
  | [] => exact ⟨DriveGrows.refl d, rfl⟩
  | sub :: rest =>
    simp only [copySubfolderFiles]
    cases hby : d.getFoldersByName p sub.name with
    | nil =>
      have h₂ := copySubfolderFiles_grows rest
        (d.logError ("Error: Destination subfolder not found: " ++ sub.name)) p node im cf
      exact ⟨(logError_grows d _).trans h₂.1, by rw [h₂.2]; rfl⟩
    | cons destSubId tlids =>
      dsimp only
      cases hns : node.getSub (d.folderName destSubId) with
      | none =>
        have h₂ := copySubfolderFiles_grows rest
          (d.logError ("Error: Destination subfolder not found: " ++ sub.name)) p node im cf
        exact ⟨(logError_grows d _).trans h₂.1, by rw [h₂.2]; rfl⟩
      | some subNode =>
        dsimp only
        cases hcr : copyFilesRecursive d sub destSubId subNode im cf with
        | mk d₁ tl =>
          obtain ⟨subNode₁, cf₁⟩ := tl
          dsimp only
          have h₁ := copyFilesRecursive_grows sub d destSubId subNode im cf
          rw [hcr] at h₁
          have h₂ := copySubfolderFiles_grows rest d₁ p
            (node.setSub (d.folderName destSubId) subNode₁) im cf₁
          exact ⟨h₁.1.trans h₂.1, by rw [h₂.2]; exact h₁.2⟩

end

theorem saveJsonReportStep2_grows (rd data₁ : ReturnData) (d₁ : Drive)
    (reportId : Nat) (cf₁ : List FileInfo) (im : List Nat) (t₁ : FolderNode)
    (rfi : FileInfo) :
    DriveGrows d₁ (saveJsonReportStep2 rd data₁ d₁ reportId cf₁ im t₁ rfi).drive := by
  cases hsc : d₁.setContent reportId (serializeResult data₁) with
  | error e =>
    simp only [saveJsonReportStep2, hsc]
    exact logError_grows d₁ _
  | ok d₂ =>
    simp only [saveJsonReportStep2, hsc]
    exact setContent_grows hsc

theorem saveJsonReport_grows (rd : ReturnData) (d : Drive) (cf : List FileInfo)
    (im : List Nat) (rid : Nat) (t : FolderNode) :
    DriveGrows d (saveJsonReport rd d cf im rid t).drive := by
  cases hcf : d.createFile rid JSON_REPORT_FILENAME ("\x7b\x7d") ("application/json") with
  | error e =>
    simp only [saveJsonReport, hcf]
    exact logError_grows d _
  | ok pr =>
    obtain ⟨rid', d₁⟩ := pr
    simp only [saveJsonReport, hcf]
    exact (createFile_grows hcf).trans (saveJsonReportStep2_grows _ _ _ _ _ _ _ _)

theorem copyAttempt_grows (d : Drive) (srcId destId : Nat) (nn : Option String) :
    DriveGrows d (copyAttempt d srcId destId nn).drive := by
  unfold copyAttempt
  cases hfs : d.findSource srcId with
  | none => exact DriveGrows.refl d
  | some src =>
    cases hfd : d.findFolder destId with
    | none => exact DriveGrows.refl d
    | some f =>
      dsimp only
      cases hcf : d.createFolder destId
          (getUniqueFolderName d destId (effectiveBaseName nn src)) with
      | error e => exact DriveGrows.refl d
      | ok pr =>
        obtain ⟨rootId, d₁⟩ := pr
        dsimp only
        cases hp : createFolderStructureRecursive d₁ src rootId
            (FolderNode.mk (getUniqueFolderName d destId (effectiveBaseName nn src))
              rootId (folderUrl rootId) [] []) [rootId] with
        | mk e? tl =>
          obtain ⟨d₂, tree₁, im₁⟩ := tl
          have h₁ := createFolder_grows hcf
          have h₂ := createFolderStructureRecursive_grows src d₁ rootId
            (FolderNode.mk (getUniqueFolderName d destId (effectiveBaseName nn src))
              rootId (folderUrl rootId) [] []) [rootId]
          rw [hp] at h₂
          cases e? with
          | some e => exact h₁.trans h₂
          | none =>
            dsimp only
            cases hcr : copyFilesRecursive d₂ src rootId tree₁ im₁ [] with
            | mk d₃ tl₂ =>
              obtain ⟨tree₂, cf⟩ := tl₂
              dsimp only
              have h₃ := copyFilesRecursive_grows src d₂ rootId tree₁ im₁ []
              rw [hcr] at h₃
              exact (h₁.trans h₂).trans h₃.1

theorem copyFolderStructureData_grows (d : Drive) (srcId destId : Nat)
    (nn : Option String) (save : Bool) :
    DriveGrows d (copyFolderStructureData d srcId destId nn save).drive := by
  unfold copyFolderStructureData
  dsimp only
  split
  · exact (copyAttempt_grows d srcId destId nn).trans
      (saveJsonReport_grows _ _ _ _ _ _)
  · exact copyAttempt_grows d srcId destId nn

/-! ## C1 and C10: the self-referential report -/

theorem find?_append_fresh {α : Type} (l : List (Nat × α)) (i : Nat) (x : α)
    (h : ∀ q ∈ l, q.1 ≠ i) :
    (l ++ [(i, x)]).find? (fun p => p.1 = i) = some (i, x) := by
  induction l with
  | nil => simp
  | cons q rest ih =>
    have hq : q.1 ≠ i := h q (by simp)
    rw [List.cons_append, List.find?_cons_of_neg _ (by simpa using hq)]
    exact ih (fun q hq' => h q (by simp [hq']))

theorem find?_map_key {α : Type} (l : List (Nat × α)) (i : Nat)
    (g : Nat × α → Nat × α) (hg : ∀ p, (g p).1 = p.1) :
    (l.map g).find? (fun p => p.1 = i) = (l.find? (fun p => p.1 = i)).map g := by
  induction l with
  | nil => simp
  | cons q rest ih =>
    by_cases hq : q.1 = i
    · rw [List.map_cons, List.find?_cons_of_pos _ (by simp [hg q, hq]),
        List.find?_cons_of_pos _ (by simp [hq])]
      simp
    · rw [List.map_cons, List.find?_cons_of_neg _ (by simp [hg q, hq]),
        List.find?_cons_of_neg _ (by simp [hq])]
      exact ih

theorem getFile_setFile_self (t : FolderNode) (k : String) (v : FileInfo) :
    (t.setFile k v).getFile k = some v := by
  cases t with
  | mk n i u s f =>
    simp [FolderNode.setFile, FolderNode.getFile, FolderNode.filesMap,
      lookupAssoc_insertAssoc_self]

theorem sumSizes_patch (cf : List FileInfo) (rid final : Nat) :
    sumSizes (cf.map (fun f =>
      if f.id = rid then { f with size := final } else f)) =
    (cf.map (fun f => if f.id = rid then final else f.size)).sum := by
  induction cf with
  | nil => rfl
  | cons f rest ih =>
    simp only [List.map_cons, sumSizes, List.sum_cons] at ih ⊢
    by_cases h : f.id = rid
    · simp only [if_pos h, List.map_cons, List.sum_cons]
      rw [ih]
    · simp only [if_neg h, List.map_cons, List.sum_cons]
      rw [ih]

/-- The file record visible after the create-then-overwrite pair. -/
theorem report_file_after_write {dA : Drive} {r rid' : Nat} {d₁ d₂ : Drive}
    {c : String} (hwfA : dA.WF)
    (hcf : dA.createFile r JSON_REPORT_FILENAME ("\x7b\x7d") ("application/json") = .ok (rid', d₁))
    (hsc : d₁.setContent rid' c = .ok d₂) :
    d₂.findFile rid' =
      some ⟨JSON_REPORT_FILENAME, c, "application/json", r⟩ := by
  obtain ⟨hr, hd₁, _⟩ := createFile_ok_spec hcf
  obtain ⟨hd₂, _⟩ := setContent_ok_spec hsc
  subst hr
  have hfresh : ∀ q ∈ dA.files, q.1 ≠ dA.nextId :=
    fun q hq => Nat.ne_of_lt (hwfA.2 q hq)
  have hfind₁ : d₁.files.find? (fun p => p.1 = dA.nextId) =
      some (dA.nextId, ⟨JSON_REPORT_FILENAME, "\x7b\x7d", "application/json", r⟩) := by
    rw [hd₁]
    exact find?_append_fresh dA.files dA.nextId _ hfresh
  have hkey : ∀ p : Nat × DFile,
      ((fun p : Nat × DFile =>
        if p.1 = dA.nextId then (p.1, { p.2 with content := c }) else p) p).1 = p.1 := by
    intro p
    by_cases hp : p.1 = dA.nextId <;> simp [hp]
  unfold Drive.findFile
  rw [hd₂]
  dsimp only
  rw [find?_map_key d₁.files dA.nextId _ hkey, hfind₁]
  simp

theorem saveJsonReportStep2_success (rd data₁ : ReturnData) (d₁ : Drive)
    (reportId : Nat) (cf₁ : List FileInfo) (im : List Nat) (t₁ : FolderNode)
    (rfi : FileInfo) (content : String)
    (hpj : (saveJsonReportStep2 rd data₁ d₁ reportId cf₁ im t₁ rfi).reportPreJson = some content) :
    ∃ d₂, d₁.setContent reportId (serializeResult data₁) = .ok d₂ ∧
      content = serializeResult data₁ ∧
      saveJsonReportStep2 rd data₁ d₁ reportId cf₁ im t₁ rfi =
        { data :=
            { data₁ with
              folderStructure := some (t₁.setFile JSON_REPORT_FILENAME
                { rfi with size := d₂.getFileSize reportId })
              summary :=
                { data₁.summary with
                  totalSize := (cf₁.map (fun f =>
                    if f.id = reportId then d₂.getFileSize reportId else f.size)).sum
                  totalSizeHuman := formatBytes ((cf₁.map (fun f =>
                    if f.id = reportId then d₂.getFileSize reportId else f.size)).sum) } }
          drive := d₂
          createdFiles := cf₁.map (fun f =>
            if f.id = reportId then { f with size := d₂.getFileSize reportId } else f)
          folderIdMap := im
          preReportData := rd, reportId := some reportId
          reportPreJson := some (serializeResult data₁) } := by
  cases hsc : d₁.setContent reportId (serializeResult data₁) with
  | error e =>
    exfalso
    simp [saveJsonReportStep2, hsc] at hpj
  | ok d₂ =>
    refine ⟨d₂, rfl, ?_, ?_⟩
    · simp [saveJsonReportStep2, hsc] at hpj
      exact hpj.symm
    · simp only [saveJsonReportStep2, hsc]

/-- When a run's report ghost output is set, the run went through the
report-saving branch, with the root id and tree exposed. -/
theorem copyFolderStructureData_report_branch (d : Drive) (srcId destId : Nat)
    (nn : Option String)
    (h : (copyFolderStructureData d srcId destId nn true).reportPreJson ≠ none) :
    ∃ r tree, (copyAttempt d srcId destId nn).mainFolderId = some r ∧
      (copyAttempt d srcId destId nn).tree = some tree ∧
      copyFolderStructureData d srcId destId nn true =
        saveJsonReport (buildReturnData d destId (copyAttempt d srcId destId nn))
          (copyAttempt d srcId destId nn).drive
          (copyAttempt d srcId destId nn).createdFiles
          (copyAttempt d srcId destId nn).folderIdMap r tree := by
  cases hm : (copyAttempt d srcId destId nn).mainFolderId with
  | none =>
    exfalso
    apply h
    cases ht : (copyAttempt d srcId destId nn).tree with
    | none => unfold copyFolderStructureData; dsimp only; rw [hm, ht]
    | some t => unfold copyFolderStructureData; dsimp only; rw [hm, ht]
  | some r =>
    cases ht : (copyAttempt d srcId destId nn).tree with
    | none =>
      exfalso
      apply h
      unfold copyFolderStructureData; dsimp only; rw [hm, ht]
    | some tree =>
      refine ⟨r, tree, rfl, rfl, ?_⟩
      unfold copyFolderStructureData; dsimp only; rw [hm, ht]

/-- **C1.** When report-saving is enabled and both report-writing steps
succeed (the run's report ghost outputs are set), the report's own item
record inside the returned result has `size` equal to the actual persisted
byte length of the final serialized report content — never `0` and never the
placeholder's length — and `summary.totalSize` is recomputed one final time
as the sum over the flat list in which the report entry carries that real
length. -/
theorem claim_C1_report_byte_size (d : Drive) (srcId destId : Nat)
    (nn : Option String) (rid : Nat) (content : String) (hwf : d.WF)
    (hrid : (copyFolderStructureData d srcId destId nn true).reportId = some rid)
    (hpj : (copyFolderStructureData d srcId destId nn true).reportPreJson = some content) :
    (copyFolderStructureData d srcId destId nn true).drive.fileContent rid = some content
    ∧ (∃ fi, ((copyFolderStructureData d srcId destId nn true).data.folderStructure.bind
          (fun t => t.getFile JSON_REPORT_FILENAME)) = some fi
        ∧ fi.size = content.length
        ∧ fi.size ≠ 0
        ∧ fi.size ≠ ("\x7b\x7d" : String).length)
    ∧ (copyFolderStructureData d srcId destId nn true).data.summary.totalSize =
        sumSizes (copyFolderStructureData d srcId destId nn true).createdFiles
    ∧ (∃ fi ∈ (copyFolderStructureData d srcId destId nn true).createdFiles,
        fi.id = rid ∧ fi.size = content.length) := by
  have hne : (copyFolderStructureData d srcId destId nn true).reportPreJson ≠ none := by
    rw [hpj]; simp
  obtain ⟨r, tree, hm, ht, hred⟩ :=
    copyFolderStructureData_report_branch d srcId destId nn hne
  rw [hred] at hpj hrid ⊢
  have hwfA : (copyAttempt d srcId destId nn).drive.WF :=
    (copyAttempt_grows d srcId destId nn).2.2.2.2.2.2.2.2 hwf
  cases hcf : (copyAttempt d srcId destId nn).drive.createFile r
      JSON_REPORT_FILENAME ("\x7b\x7d") ("application/json") with
  | error e =>
    exfalso
    simp [saveJsonReport, hcf] at hpj
  | ok pr =>
    obtain ⟨rid', d₁⟩ := pr
    simp only [saveJsonReport, hcf] at hpj hrid ⊢
    obtain ⟨d₂, hsc, hcontent, heq⟩ :=
      saveJsonReportStep2_success _ _ _ _ _ _ _ _ _ hpj
    rw [heq] at hrid ⊢
    have hrr : rid' = rid := by simpa using hrid
    subst hrr
    have hfile := report_file_after_write hwfA hcf hsc
    have hgt : 2 < content.length := by
      rw [hcontent]
      exact serializeResult_length_gt_two _
    have hsize : d₂.getFileSize rid' = content.length := by
      unfold Drive.getFileSize
      rw [hfile]
      simp [hcontent]
    refine ⟨?_, ?_, ?_, ?_⟩
    · unfold Drive.fileContent
      rw [hfile]
      simp [hcontent]
    · let fi : FileInfo :=
        { name := JSON_REPORT_FILENAME, id := rid', url := fileUrl rid',
          path := getFilePath d₁ r (copyAttempt d srcId destId nn).folderIdMap,
          folderId := r, size := d₂.getFileSize rid',
          mimeType := "application/json", createdTime := d₁.nowIso }
      refine ⟨fi, ?_, ?_, ?_, ?_⟩
      · dsimp only
        exact getFile_setFile_self _ _ _
      · dsimp only
        exact hsize
      · dsimp only
        omega
      · dsimp only
        have h2 : ("\x7b\x7d" : String).length = 2 := by decide
        rw [h2]
        omega
    · dsimp only
      rw [sumSizes_patch]
    · refine ⟨_, List.mem_map_of_mem _
        (List.mem_append_right _ (List.mem_singleton_self _)), ?_, ?_⟩
      · simp
      · simp [hsize]

theorem claim_C1_report_byte_size_witness :
    ∃ fi, ((copyFolderStructureData exDrive 1 2 none true).data.folderStructure.bind
        (fun t => t.getFile JSON_REPORT_FILENAME)) = some fi
      ∧ fi.size ≠ 0 ∧ fi.size ≠ ("\x7b\x7d" : String).length := by
  have h := claim_C1_report_byte_size exDrive 1 2 none 14 _
    ⟨by decide, by decide⟩ rfl rfl
  obtain ⟨_, ⟨fi, h1, h2, h3, h4⟩, _, _⟩ := h
  exact ⟨fi, h1, h3, h4⟩

theorem copyFilesList_ids (files : List SrcFile) (d : Drive) (p : Nat)
    (node : FolderNode) (im : List Nat) (cf : List FileInfo)
    (h : ∀ f ∈ cf, f.id < d.nextId) :
    ∀ f ∈ (copyFilesList d files p node im cf).2.2,
      f.id < (copyFilesList d files p node im cf).1.nextId := by
  induction files generalizing d node cf with
  | nil => exact h
  | cons file rest ih =>
    simp only [copyFilesList]
    cases hmc : d.makeCopy file p with
    | error e =>
      exact ih (d.logError _) node cf (fun f hf => h f hf)
    | ok pr =>
      obtain ⟨newId, d₁⟩ := pr
      dsimp only
      obtain ⟨hmr, hmd, _⟩ := makeCopy_ok_spec hmc
      apply ih
      intro f hf
      rcases List.mem_append.mp hf with hf | hf
      · have := h f hf
        subst hmd
        simpa using Nat.lt_succ_of_lt this
      · simp only [List.mem_singleton] at hf
        subst hf hmr hmd
        simp

mutual

theorem copyFilesRecursive_ids (src : SrcFolder) (d : Drive) (p : Nat)
    (node : FolderNode) (im : List Nat) (cf : List FileInfo)
    (h : ∀ f ∈ cf, f.id < d.nextId) :
    ∀ f ∈ (copyFilesRecursive d src p node im cf).2.2,
      f.id < (copyFilesRecursive d src p node im cf).1.nextId := by
  match src with
  | .node n fs ss =>
    simp only [copyFilesRecursive]
    cases hfl : copyFilesList d fs p node im cf with
    | mk d₁ tl =>
      obtain ⟨node₁, cf₁⟩ := tl
      have h₁ := copyFilesList_ids fs d p node im cf h
      rw [hfl] at h₁
      exact copySubfolderFiles_ids ss d₁ p node₁ im cf₁ h₁

theorem copySubfolderFiles_ids (subs : List SrcFolder) (d : Drive) (p : Nat)
    (node : FolderNode) (im : List Nat) (cf : List FileInfo)
    (h : ∀ f ∈ cf, f.id < d.nextId) :
    ∀ f ∈ (copySubfolderFiles d subs p node im cf).2.2,
      f.id < (copySubfolderFiles d subs p node im cf).1.nextId := by
  match subs with
  | [] => exact h
  | sub :: rest =>
    simp only [copySubfolderFiles]
    cases hby : d.getFoldersByName p sub.name with
    | nil =>
      exact copySubfolderFiles_ids rest (d.logError _) p node im cf
        (fun f hf => h f hf)
    | cons destSubId tlids =>
      dsimp only
      cases hns : node.getSub (d.folderName destSubId) with
      | none =>
        exact copySubfolderFiles_ids rest (d.logError _) p node im cf
          (fun f hf => h f hf)
      | some subNode =>
        dsimp only
        cases hcr : copyFilesRecursive d sub destSubId subNode im cf with
        | mk d₁ tl =>
          obtain ⟨subNode₁, cf₁⟩ := tl
          dsimp only
          have h₁ := copyFilesRecursive_ids sub d destSubId subNode im cf h
          rw [hcr] at h₁
          exact copySubfolderFiles_ids rest d₁ p
            (node.setSub (d.folderName destSubId) subNode₁) im cf₁ h₁

end

theorem copyAttempt_createdFiles_ids (d : Drive) (srcId destId : Nat)
    (nn : Option String) :
    ∀ f ∈ (copyAttempt d srcId destId nn).createdFiles,
      f.id < (copyAttempt d srcId destId nn).drive.nextId := by
  unfold copyAttempt
  cases hfs : d.findSource srcId with
  | none => simp
  | some src =>
    cases hfd : d.findFolder destId with
    | none => simp
    | some f =>
      dsimp only
      cases hcf : d.createFolder destId
          (getUniqueFolderName d destId (effectiveBaseName nn src)) with
      | error e => simp
      | ok pr =>
        obtain ⟨rootId, d₁⟩ := pr
        dsimp only
        cases hp : createFolderStructureRecursive d₁ src rootId
            (FolderNode.mk (getUniqueFolderName d destId (effectiveBaseName nn src))
              rootId (folderUrl rootId) [] []) [rootId] with
        | mk e? tl =>
          obtain ⟨d₂, tree₁, im₁⟩ := tl
          cases e? with
          | some e => simp
          | none =>
            dsimp only
            cases hcr : copyFilesRecursive d₂ src rootId tree₁ im₁ [] with
            | mk d₃ tl₂ =>
              obtain ⟨tree₂, cf⟩ := tl₂
              dsimp only
              have h₁ := copyFilesRecursive_ids src d₂ rootId tree₁ im₁ []
                (by simp)
              rw [hcr] at h₁
              exact h₁

theorem sumSizes_append_single (cf : List FileInfo) (rfi : FileInfo) :
    sumSizes (cf ++ [rfi]) = sumSizes cf + rfi.size := by
  simp [sumSizes]

theorem sum_guard_fresh (cf : List FileInfo) (rid final : Nat)
    (h : ∀ f ∈ cf, f.id ≠ rid) (rfi : FileInfo) (hrfi : rfi.id = rid) :
    ((cf ++ [rfi]).map (fun f => if f.id = rid then final else f.size)).sum =
      (cf.map FileInfo.size).sum + final := by
  induction cf with
  | nil => simp [hrfi]
  | cons f rest ih =>
    have hf : f.id ≠ rid := h f (by simp)
    simp only [List.cons_append, List.map_cons, List.sum_cons, if_neg hf]
    rw [ih (fun g hg => h g (by simp [hg]))]
    omega

/-- **C10.** The JSON content persisted into the report file is the
serialization taken *before* the final size patch: it serializes a result
state in which the report's own record carries size `0` and
`summary.totalSize` falls short of the returned one by exactly the report's
real byte length; only the string returned to the caller serializes the
patched final result. -/
theorem claim_C10_persisted_report_prepatch (d : Drive) (srcId destId : Nat)
    (nn : Option String) (rid : Nat) (content : String) (hwf : d.WF)
    (hrid : (copyFolderStructureData d srcId destId nn true).reportId = some rid)
    (hpj : (copyFolderStructureData d srcId destId nn true).reportPreJson = some content) :
    (copyFolderStructureData d srcId destId nn true).drive.fileContent rid = some content
    ∧ (∃ preData : ReturnData,
        content = serializeResult preData
        ∧ (∃ fi₀, preData.folderStructure.bind
              (fun t => t.getFile JSON_REPORT_FILENAME) = some fi₀
            ∧ fi₀.id = rid ∧ fi₀.size = 0)
        ∧ preData.summary.totalSize + content.length =
            (copyFolderStructureData d srcId destId nn true).data.summary.totalSize
        ∧ preData.success =
            (copyFolderStructureData d srcId destId nn true).data.success
        ∧ preData.errors =
            (copyFolderStructureData d srcId destId nn true).data.errors)
    ∧ (copyFolderStructure d srcId destId nn true).1 =
        serializeResult (copyFolderStructureData d srcId destId nn true).data := by
  have hne : (copyFolderStructureData d srcId destId nn true).reportPreJson ≠ none := by
    rw [hpj]; simp
  obtain ⟨r, tree, hm, ht, hred⟩ :=
    copyFolderStructureData_report_branch d srcId destId nn hne
  have hwfA : (copyAttempt d srcId destId nn).drive.WF :=
    (copyAttempt_grows d srcId destId nn).2.2.2.2.2.2.2.2 hwf
  have hids := copyAttempt_createdFiles_ids d srcId destId nn
  rw [hred] at hpj hrid
  refine ⟨?_, ?_, rfl⟩
  · rw [hred]
    cases hcf : (copyAttempt d srcId destId nn).drive.createFile r
        JSON_REPORT_FILENAME ("\x7b\x7d") ("application/json") with
    | error e =>
      exfalso
      simp [saveJsonReport, hcf] at hpj
    | ok pr =>
      obtain ⟨rid', d₁⟩ := pr
      simp only [saveJsonReport, hcf] at hpj hrid ⊢
      obtain ⟨d₂, hsc, hcontent, heq⟩ :=
        saveJsonReportStep2_success _ _ _ _ _ _ _ _ _ hpj
      rw [heq] at hrid ⊢
      have hrr : rid' = rid := by simpa using hrid
      subst hrr
      have hfile := report_file_after_write hwfA hcf hsc
      unfold Drive.fileContent
      rw [hfile]
      simp [hcontent]
  · rw [hred]
    cases hcf : (copyAttempt d srcId destId nn).drive.createFile r
        JSON_REPORT_FILENAME ("\x7b\x7d") ("application/json") with
    | error e =>
      exfalso
      simp [saveJsonReport, hcf] at hpj
    | ok pr =>
      obtain ⟨rid', d₁⟩ := pr
      simp only [saveJsonReport, hcf] at hpj hrid ⊢
      obtain ⟨d₂, hsc, hcontent, heq⟩ :=
        saveJsonReportStep2_success _ _ _ _ _ _ _ _ _ hpj
      rw [heq] at hrid ⊢
      have hrr : rid' = rid := by simpa using hrid
      subst hrr
      have hfile := report_file_after_write hwfA hcf hsc
      have hsize : d₂.getFileSize rid' = content.length := by
        unfold Drive.getFileSize
        rw [hfile]
        simp [hcontent]
      let fi₀ : FileInfo :=
        { name := JSON_REPORT_FILENAME, id := rid', url := fileUrl rid',
          path := getFilePath d₁ r (copyAttempt d srcId destId nn).folderIdMap,
          folderId := r, size := 0,
          mimeType := "application/json", createdTime := d₁.nowIso }
      refine ⟨_, hcontent, ⟨fi₀, ?_, rfl, rfl⟩, ?_, rfl, rfl⟩
      · dsimp only
        exact getFile_setFile_self _ _ _
      · dsimp only
        rw [sum_guard_fresh _ rid' (d₂.getFileSize rid') ?fresh _ rfl,
          sumSizes_append_single]
        · simp only [sumSizes]
          rw [hsize]
          omega
        case fresh =>
          intro f hf
          have hlt := hids f hf
          obtain ⟨hrnext, _, _⟩ := createFile_ok_spec hcf
          omega

theorem claim_C10_persisted_report_prepatch_witness :
    ∃ c, (copyFolderStructureData exDrive 1 2 none true).drive.fileContent 14 = some c
      ∧ ∃ preData, c = serializeResult preData
        ∧ preData.summary.totalSize + c.length =
            (copyFolderStructureData exDrive 1 2 none true).data.summary.totalSize := by
  have h := claim_C10_persisted_report_prepatch exDrive 1 2 none 14 _
    ⟨by decide, by decide⟩ rfl rfl
  obtain ⟨h1, ⟨pre, hc, _, htot, _, _⟩, h3⟩ := h
  exact ⟨_, h1, pre, hc, htot⟩

/-! ## C5: getUniqueFolderName never collides -/

theorem uniqueNameCandidate_injective (b ts : String) :
    Function.Injective (uniqueNameCandidate b ts) := by
  intro x y h
  unfold uniqueNameCandidate at h
  have hd := congrArg String.data h
  simp only [String.data_append, List.append_assoc] at hd
  have h1 := List.append_cancel_left hd
  have h2 := List.append_cancel_left h1
  have h3 := List.append_cancel_left h2
  have h4 := List.append_cancel_left h3
  have h5 := List.append_cancel_right h4
  exact natRepr_injective (by apply String.ext; exact h5)

theorem taken_iff (d : Drive) (parentId : Nat) (name : String) :
    d.getFoldersByName parentId name ≠ [] ↔
      ∃ p ∈ d.childFolders parentId, p.2.name = name := by
  unfold Drive.getFoldersByName
  rw [ne_eq, List.map_eq_nil_iff, List.filter_eq_nil_iff]
  push_neg
  simp

theorem exists_free_candidate (d : Drive) (parentId : Nat) (b ts : String) :
    ∃ k, 1 ≤ k ∧ k < 1 + ((d.childFolders parentId).length + 1) ∧
      d.getFoldersByName parentId (uniqueNameCandidate b ts k) = [] := by
  by_contra hcon
  push_neg at hcon
  have htaken : ∀ k ∈ Finset.Icc 1 ((d.childFolders parentId).length + 1),
      uniqueNameCandidate b ts k ∈
        ((d.childFolders parentId).map (fun p => p.2.name)).toFinset := by
    intro k hk
    simp only [Finset.mem_Icc] at hk
    have := hcon k hk.1 (by omega)
    obtain ⟨p, hp, hname⟩ := (taken_iff d parentId _).mp this
    rw [List.mem_toFinset, List.mem_map]
    exact ⟨p, hp, hname⟩
  have hcard := Finset.card_le_card_of_injOn (uniqueNameCandidate b ts) htaken
    ((uniqueNameCandidate_injective b ts).injOn)
  rw [Nat.card_Icc] at hcard
  have hlen := List.toFinset_card_le
    ((d.childFolders parentId).map (fun p => p.2.name))
  rw [List.length_map] at hlen
  omega

theorem getUniqueFolderNameLoop_spec (d : Drive) (parentId : Nat)
    (b ts : String) :
    ∀ (fuel counter : Nat),
      (∃ k, counter ≤ k ∧ k < counter + fuel ∧
        d.getFoldersByName parentId (uniqueNameCandidate b ts k) = []) →
      ∃ k, counter ≤ k ∧
        getUniqueFolderNameLoop d parentId b ts fuel counter =
          uniqueNameCandidate b ts k ∧
        d.getFoldersByName parentId (uniqueNameCandidate b ts k) = [] ∧
        ∀ j, counter ≤ j → j < k →
          d.getFoldersByName parentId (uniqueNameCandidate b ts j) ≠ [] := by
  intro fuel
  induction fuel with
  | zero =>
    intro counter hex
    obtain ⟨k, hk1, hk2, _⟩ := hex
    omega
  | succ fuel ih =>
    intro counter hex
    rw [getUniqueFolderNameLoop]
    by_cases hc : d.getFoldersByName parentId (uniqueNameCandidate b ts counter) ≠ []
    · rw [if_pos hc]
      obtain ⟨k, hk1, hk2, hkfree⟩ := hex
      have hkne : k ≠ counter := fun he => hc (he ▸ hkfree)
      obtain ⟨k', hk'1, hk'eq, hk'free, hk'min⟩ :=
        ih (counter + 1) ⟨k, by omega, by omega, hkfree⟩
      refine ⟨k', by omega, hk'eq, hk'free, ?_⟩
      intro j hj1 hj2
      rcases Nat.eq_or_lt_of_le hj1 with he | hlt
      · rw [← he]
        exact hc
      · exact hk'min j hlt hj2
    · rw [if_neg hc]
      exact ⟨counter, le_refl _, rfl, not_not.mp hc, fun j hj1 hj2 => by omega⟩

theorem getUniqueFolderName_free (d : Drive) (parentId : Nat) (b : String) :
    d.getFoldersByName parentId (getUniqueFolderName d parentId b) = [] := by
  unfold getUniqueFolderName
  by_cases h1 : d.getFoldersByName parentId b ≠ []
  · rw [if_pos h1]
    dsimp only
    by_cases h2 : d.getFoldersByName parentId
        (b ++ " (" ++ d.nowFormatted ++ ")") ≠ []
    · rw [if_pos h2]
      obtain ⟨k, hk1, hk2, hkfree⟩ :=
        exists_free_candidate d parentId b d.nowFormatted
      obtain ⟨k', _, heq, hfree, _⟩ :=
        getUniqueFolderNameLoop_spec d parentId b d.nowFormatted
          ((d.childFolders parentId).length + 1) 1 ⟨k, hk1, by omega, hkfree⟩
      rw [heq]
      exact hfree
    · rw [if_neg h2]
      exact not_not.mp h2
  · rw [if_neg h1]
    exact not_not.mp h1

/-- **C5.** `getUniqueFolderName` returns the base name unchanged when no
existing direct child of the parent carries it; if taken it returns the base
name with the formatted current timestamp appended; if that candidate is also
taken it returns the timestamp plus an integer counter starting at 1, having
re-checked (and found taken) every smaller counter candidate; and in every
case the returned name does not collide with any existing child at call
time. -/
theorem claim_C5_unique_folder_name (d : Drive) (parentId : Nat) (b : String) :
    (d.getFoldersByName parentId b = [] → getUniqueFolderName d parentId b = b)
    ∧ (d.getFoldersByName parentId b ≠ [] →
        d.getFoldersByName parentId (b ++ " (" ++ d.nowFormatted ++ ")") = [] →
        getUniqueFolderName d parentId b = b ++ " (" ++ d.nowFormatted ++ ")")
    ∧ (d.getFoldersByName parentId b ≠ [] →
        d.getFoldersByName parentId (b ++ " (" ++ d.nowFormatted ++ ")") ≠ [] →
        ∃ k, 1 ≤ k ∧
          getUniqueFolderName d parentId b =
            uniqueNameCandidate b d.nowFormatted k ∧
          ∀ j, 1 ≤ j → j < k →
            d.getFoldersByName parentId
              (uniqueNameCandidate b d.nowFormatted j) ≠ [])
    ∧ d.getFoldersByName parentId (getUniqueFolderName d parentId b) = [] := by
  refine ⟨?_, ?_, ?_, getUniqueFolderName_free d parentId b⟩
  · intro h
    unfold getUniqueFolderName
    rw [if_neg (by simp [h])]
  · intro h1 h2
    unfold getUniqueFolderName
    rw [if_pos h1]
    dsimp only
    rw [if_neg (by simp [h2])]
  · intro h1 h2
    unfold getUniqueFolderName
    rw [if_pos h1]
    dsimp only
    rw [if_pos h2]
    obtain ⟨k, hk1, hk2, hkfree⟩ :=
      exists_free_candidate d parentId b d.nowFormatted
    obtain ⟨k', hk'1, heq, hfree, hmin⟩ :=
      getUniqueFolderNameLoop_spec d parentId b d.nowFormatted
        ((d.childFolders parentId).length + 1) 1 ⟨k, hk1, by omega, hkfree⟩
    exact ⟨k', hk'1, heq, hmin⟩

/-- A destination whose folder `Dest` already contains children `X` and
`X (<timestamp>)`. -/
def exDriveC5 : Drive :=
  { exDrive with folders := [(2, ⟨"Dest", none⟩), (3, ⟨"X", some 2⟩),
      (4, ⟨"X (01-Jan-2026 00:00:00)", some 2⟩)] }

theorem claim_C5_unique_folder_name_witness :
    getUniqueFolderName exDriveC5 2 ("Fresh") = "Fresh"
    ∧ exDriveC5.getFoldersByName 2 (getUniqueFolderName exDriveC5 2 ("X")) = [] := by
  have h1 := claim_C5_unique_folder_name exDriveC5 2 ("Fresh")
  have h2 := claim_C5_unique_folder_name exDriveC5 2 ("X")
  exact ⟨h1.1 (by decide), h2.2.2.2⟩

/-! ## C9: replication is not idempotent -/

theorem find?_append_some {α : Type} (l₁ l₂ : List α) (p : α → Bool) (x : α)
    (h : l₁.find? p = some x) : (l₁ ++ l₂).find? p = some x := by
  induction l₁ with
  | nil => simp [List.find?] at h
  | cons a t ih =>
    rcases ha : p a with hfa | hta
    · rw [List.find?_cons_of_neg _ (by simp [ha])] at h
      rw [List.cons_append, List.find?_cons_of_neg _ (by simp [ha])]
      exact ih h
    · rw [List.find?_cons_of_pos _ ha] at h
      rw [List.cons_append, List.find?_cons_of_pos _ ha]
      exact h

theorem saveJsonReportStep2_folders (rd data₁ : ReturnData) (d₁ : Drive)
    (reportId : Nat) (cf₁ : List FileInfo) (im : List Nat) (t₁ : FolderNode)
    (rfi : FileInfo) :
    (saveJsonReportStep2 rd data₁ d₁ reportId cf₁ im t₁ rfi).drive.folders =
      d₁.folders := by
  cases hsc : d₁.setContent reportId (serializeResult data₁) with
  | error e => simp [saveJsonReportStep2, hsc, Drive.logError]
  | ok d₂ =>
    obtain ⟨hd₂, _⟩ := setContent_ok_spec hsc
    simp [saveJsonReportStep2, hsc, hd₂]

theorem saveJsonReport_folders (rd : ReturnData) (d : Drive)
    (cf : List FileInfo) (im : List Nat) (rid : Nat) (t : FolderNode) :
    (saveJsonReport rd d cf im rid t).drive.folders = d.folders := by
  cases hcf : d.createFile rid JSON_REPORT_FILENAME ("\x7b\x7d") ("application/json") with
  | error e => simp [saveJsonReport, hcf, Drive.logError]
  | ok pr =>
    obtain ⟨rid', d₁⟩ := pr
    obtain ⟨hr, hd₁, _⟩ := createFile_ok_spec hcf
    simp only [saveJsonReport, hcf]
    rw [saveJsonReportStep2_folders, hd₁]

theorem copyFolderStructureData_folders (d : Drive) (srcId destId : Nat)
    (nn : Option String) (save : Bool) :
    (copyFolderStructureData d srcId destId nn save).drive.folders =
      (copyAttempt d srcId destId nn).drive.folders := by
  unfold copyFolderStructureData
  dsimp only
  split
  · exact saveJsonReport_folders _ _ _ _ _ _
  · rfl

theorem saveJsonReportStep2_mainFolder (rd data₁ : ReturnData) (d₁ : Drive)
    (reportId : Nat) (cf₁ : List FileInfo) (im : List Nat) (t₁ : FolderNode)
    (rfi : FileInfo) :
    (saveJsonReportStep2 rd data₁ d₁ reportId cf₁ im t₁ rfi).data.mainFolder =
      data₁.mainFolder := by
  cases hsc : d₁.setContent reportId (serializeResult data₁) with
  | error e => simp [saveJsonReportStep2, hsc]
  | ok d₂ => simp [saveJsonReportStep2, hsc]

theorem saveJsonReport_mainFolder (rd : ReturnData) (d : Drive)
    (cf : List FileInfo) (im : List Nat) (rid : Nat) (t : FolderNode) :
    (saveJsonReport rd d cf im rid t).data.mainFolder = rd.mainFolder := by
  cases hcf : d.createFile rid JSON_REPORT_FILENAME ("\x7b\x7d") ("application/json") with
  | error e => simp [saveJsonReport, hcf]
  | ok pr =>
    obtain ⟨rid', d₁⟩ := pr
    simp only [saveJsonReport, hcf]
    rw [saveJsonReportStep2_mainFolder]

theorem copyFolderStructureData_mainFolder (d : Drive) (srcId destId : Nat)
    (nn : Option String) (save : Bool) :
    (copyFolderStructureData d srcId destId nn save).data.mainFolder =
      { name := (copyAttempt d srcId destId nn).mainFolderName
        id := (copyAttempt d srcId destId nn).mainFolderId
        url := (copyAttempt d srcId destId nn).mainFolderId.map folderUrl } := by
  unfold copyFolderStructureData
  dsimp only
  split
  · rw [saveJsonReport_mainFolder]
    rfl
  · rfl

/-- When a run created its destination root, the root id is the drive's
fresh id at call time, the root's name is the collision-resolved name, and
the root folder (child of the destination) is present in the run's final
drive. -/
theorem copyAttempt_root (d : Drive) (srcId destId : Nat) (nn : Option String)
    (hwf : d.WF) (r : Nat)
    (hm : (copyAttempt d srcId destId nn).mainFolderId = some r) :
    r = d.nextId ∧
    ∃ src, d.findSource srcId = some src ∧
      (copyAttempt d srcId destId nn).mainFolderName =
        some (getUniqueFolderName d destId (effectiveBaseName nn src)) ∧
      (copyAttempt d srcId destId nn).drive.findFolder r =
        some ⟨getUniqueFolderName d destId (effectiveBaseName nn src),
          some destId⟩ := by
  revert hm
  unfold copyAttempt
  cases hfs : d.findSource srcId with
  | none => intro hm; simp at hm
  | some src =>
    dsimp only
    cases hfd : d.findFolder destId with
    | none => intro hm; simp at hm
    | some f =>
      dsimp only
      cases hcf : d.createFolder destId
          (getUniqueFolderName d destId (effectiveBaseName nn src)) with
      | error e => intro hm; simp at hm
      | ok pr =>
        obtain ⟨rootId, d₁⟩ := pr
        dsimp only
        obtain ⟨hr, hd₁, _⟩ := createFolder_ok_spec hcf
        cases hp : createFolderStructureRecursive d₁ src rootId
            (FolderNode.mk (getUniqueFolderName d destId (effectiveBaseName nn src))
              rootId (folderUrl rootId) [] []) [rootId] with
        | mk e? tl =>
          obtain ⟨d₂, tree₁, im₁⟩ := tl
          have hg₂ := createFolderStructureRecursive_grows src d₁ rootId
            (FolderNode.mk (getUniqueFolderName d destId (effectiveBaseName nn src))
              rootId (folderUrl rootId) [] []) [rootId]
          rw [hp] at hg₂
          obtain ⟨⟨l₂, hl₂, hfresh₂⟩, _⟩ := hg₂
          have hfind : d₂.findFolder rootId =
              some ⟨getUniqueFolderName d destId (effectiveBaseName nn src),
                some destId⟩ := by
            unfold Drive.findFolder
            rw [hl₂, hd₁]
            dsimp only
            have hfirst : ((d.folders ++ [(d.nextId,
                (⟨getUniqueFolderName d destId (effectiveBaseName nn src),
                  some destId⟩ : DFolder))]) ++ l₂).find?
                (fun p => p.1 = rootId) = some (d.nextId,
                  ⟨getUniqueFolderName d destId (effectiveBaseName nn src),
                    some destId⟩) := by
              subst hr
              apply find?_append_some
              apply find?_append_fresh
              intro q hq
              exact Nat.ne_of_lt (hwf.1 q hq)
            rw [hfirst]
            rfl
          cases e? with
          | some e =>
            dsimp only
            intro hm
            have hrr : rootId = r := by simpa using hm
            subst hrr
            exact ⟨hr, src, rfl, rfl, hfind⟩
          | none =>
            dsimp only
            cases hcr : copyFilesRecursive d₂ src rootId tree₁ im₁ [] with
            | mk d₃ tl₂ =>
              obtain ⟨tree₂, cf⟩ := tl₂
              dsimp only
              intro hm
              have hrr : rootId = r := by simpa using hm
              subst hrr
              have hfold := copyFilesRecursive_grows src d₂ rootId tree₁ im₁ []
              rw [hcr] at hfold
              refine ⟨hr, src, rfl, rfl, ?_⟩
              unfold Drive.findFolder at hfind ⊢
              rw [hfold.2]
              exact hfind

theorem getFoldersByName_mem (d : Drive) (pid : Nat) (q : Nat × DFolder)
    (hq : q ∈ d.folders) (hp : q.2.parent = some pid) :
    q.1 ∈ d.getFoldersByName pid q.2.name := by
  unfold Drive.getFoldersByName Drive.childFolders
  refine List.mem_map_of_mem _ ?_
  refine List.mem_filter.mpr ⟨List.mem_filter.mpr ⟨hq, by simp [hp]⟩, by simp⟩

/-- **C9.** Replication is not idempotent: running `copyFolderStructure`
twice with identical arguments (each run creating its destination root, ids
`r₁` then `r₂`) always creates a second, distinct destination root container:
`r₂` did not exist after the first run and differs from `r₁`; the first root
survives as a child of the destination (nothing is reused or rolled back);
and the second root's collision-resolved name differs from the first's. -/
theorem claim_C9_not_idempotent (d : Drive) (srcId destId : Nat)
    (nn : Option String) (save₁ save₂ : Bool) (r₁ r₂ : Nat) (hwf : d.WF)
    (h1 : (copyFolderStructureData d srcId destId nn save₁).data.mainFolder.id = some r₁)
    (h2 : (copyFolderStructureData
        (copyFolderStructureData d srcId destId nn save₁).drive
        srcId destId nn save₂).data.mainFolder.id = some r₂) :
    r₂ ≠ r₁
    ∧ (copyFolderStructureData d srcId destId nn save₁).drive.findFolder r₂ = none
    ∧ (∃ f₁, (copyFolderStructureData
          (copyFolderStructureData d srcId destId nn save₁).drive
          srcId destId nn save₂).drive.findFolder r₁ = some f₁
        ∧ f₁.parent = some destId)
    ∧ (copyFolderStructureData
        (copyFolderStructureData d srcId destId nn save₁).drive
        srcId destId nn save₂).data.mainFolder.name ≠ none
    ∧ (copyFolderStructureData
        (copyFolderStructureData d srcId destId nn save₁).drive
        srcId destId nn save₂).data.mainFolder.name ≠
      (copyFolderStructureData d srcId destId nn save₁).data.mainFolder.name := by
  rw [copyFolderStructureData_mainFolder] at h1 h2
  dsimp only at h1 h2
  obtain ⟨hr₁next, src₁, hsrc₁, hname₁, hfind₁⟩ :=
    copyAttempt_root d srcId destId nn hwf r₁ h1
  have hgrow₁ := copyFolderStructureData_grows d srcId destId nn save₁
  have hwfMid : (copyFolderStructureData d srcId destId nn save₁).drive.WF :=
    hgrow₁.2.2.2.2.2.2.2.2 hwf
  have hfoldMid := copyFolderStructureData_folders d srcId destId nn save₁
  have hfindMid : (copyFolderStructureData d srcId destId nn save₁).drive.findFolder r₁ =
      some ⟨getUniqueFolderName d destId (effectiveBaseName nn src₁), some destId⟩ := by
    unfold Drive.findFolder at hfind₁ ⊢
    rw [hfoldMid]
    exact hfind₁
  obtain ⟨hr₂next, src₂, hsrc₂, hname₂, hfind₂⟩ :=
    copyAttempt_root _ srcId destId nn hwfMid r₂ h2
  have hmem₁ : (r₁, (⟨getUniqueFolderName d destId (effectiveBaseName nn src₁),
      some destId⟩ : DFolder)) ∈
      (copyFolderStructureData d srcId destId nn save₁).drive.folders := by
    unfold Drive.findFolder at hfindMid
    cases hf : (copyFolderStructureData d srcId destId nn save₁).drive.folders.find?
        (fun p => p.1 = r₁) with
    | none => rw [hf] at hfindMid; simp at hfindMid
    | some q =>
      rw [hf] at hfindMid
      have hq1 : q.1 = r₁ := by simpa using List.find?_some hf
      have hq2 : q.2 = ⟨getUniqueFolderName d destId (effectiveBaseName nn src₁),
          some destId⟩ := by simpa using hfindMid
      have hqeq : q = (r₁, ⟨getUniqueFolderName d destId
          (effectiveBaseName nn src₁), some destId⟩) := Prod.ext hq1 hq2
      rw [← hqeq]
      exact List.mem_of_find?_eq_some hf
  have hr₁lt : r₁ < (copyFolderStructureData d srcId destId nn save₁).drive.nextId :=
    hwfMid.1 _ hmem₁
  refine ⟨?_, ?_, ?_, ?_, ?_⟩
  · omega
  · unfold Drive.findFolder
    have hnone : (copyFolderStructureData d srcId destId nn save₁).drive.folders.find?
        (fun p => p.1 = r₂) = none := by
      apply List.find?_eq_none.mpr
      intro q hq
      have := hwfMid.1 q hq
      simp only [decide_eq_true_eq]
      omega
    rw [hnone]
    rfl
  · refine ⟨⟨getUniqueFolderName d destId (effectiveBaseName nn src₁),
      some destId⟩, ?_, rfl⟩
    have hfold₂ := copyFolderStructureData_folders
      (copyFolderStructureData d srcId destId nn save₁).drive srcId destId nn save₂
    obtain ⟨⟨l, hl, hfresh⟩, _⟩ := copyAttempt_grows
      (copyFolderStructureData d srcId destId nn save₁).drive srcId destId nn
    unfold Drive.findFolder at hfindMid ⊢
    rw [hfold₂, hl]
    cases hf : (copyFolderStructureData d srcId destId nn save₁).drive.folders.find?
        (fun p => p.1 = r₁) with
    | none => rw [hf] at hfindMid; simp at hfindMid
    | some q =>
      rw [find?_append_some _ _ _ _ hf]
      rw [hf] at hfindMid
      exact hfindMid
  · rw [copyFolderStructureData_mainFolder]
    dsimp only
    rw [hname₂]
    simp
  · rw [copyFolderStructureData_mainFolder, copyFolderStructureData_mainFolder]
    dsimp only
    rw [hname₂, hname₁]
    intro hcon
    have hnameeq : getUniqueFolderName
        (copyFolderStructureData d srcId destId nn save₁).drive destId
        (effectiveBaseName nn src₂) =
        getUniqueFolderName d destId (effectiveBaseName nn src₁) := by
      simpa using hcon
    have hfree := getUniqueFolderName_free
      (copyFolderStructureData d srcId destId nn save₁).drive destId
      (effectiveBaseName nn src₂)
    rw [hnameeq] at hfree
    have hmem := getFoldersByName_mem
      (copyFolderStructureData d srcId destId nn save₁).drive destId
      (r₁, ⟨getUniqueFolderName d destId (effectiveBaseName nn src₁), some destId⟩)
      hmem₁ rfl
    rw [hfree] at hmem
    simp at hmem

theorem claim_C9_not_idempotent_witness :
    (14 : Nat) ≠ 10
    ∧ (copyFolderStructureData exDrive 1 2 none false).drive.findFolder 14 = none
    ∧ (copyFolderStructureData
        (copyFolderStructureData exDrive 1 2 none false).drive
        1 2 none false).data.mainFolder.name ≠
      (copyFolderStructureData exDrive 1 2 none false).data.mainFolder.name := by
  have h := claim_C9_not_idempotent exDrive 1 2 none false false 10 14
    ⟨by decide, by decide⟩ rfl rfl
  exact ⟨h.1, h.2.1, h.2.2.2.2⟩

/-! ## C2: an item-copy failure is contained at the item's scope -/

theorem getFile_setFile_ne (t : FolderNode) (k k' : String) (v : FileInfo)
    (h : k ≠ k') : (t.setFile k v).getFile k' = t.getFile k' := by
  cases t with
  | mk n i u s f =>
    simp [FolderNode.setFile, FolderNode.getFile, FolderNode.filesMap,
      lookupAssoc_insertAssoc_ne _ _ _ _ h]

theorem copyFilesList_log_mono (files : List SrcFile) (d : Drive) (p : Nat)
    (node : FolderNode) (im : List Nat) (cf : List FileInfo) (msg : String)
    (h : msg ∈ d.log) : msg ∈ (copyFilesList d files p node im cf).1.log := by
  induction files generalizing d node cf with
  | nil => exact h
  | cons file rest ih =>
    simp only [copyFilesList]
    cases hmc : d.makeCopy file p with
    | error e => exact ih _ _ _ (by simp [Drive.logError, h])
    | ok pr =>
      obtain ⟨newId, d₁⟩ := pr
      dsimp only
      obtain ⟨_, hmd, _⟩ := makeCopy_ok_spec hmc
      apply ih
      rw [hmd]
      exact h

theorem copyFilesList_added (files : List SrcFile) :
    ∀ (d : Drive) (p : Nat) (node : FolderNode) (im : List Nat)
      (cf : List FileInfo),
    ∃ added, (copyFilesList d files p node im cf).2.2 = cf ++ added ∧
      added.map (fun f => f.name) =
        (files.filter (fun f => f.name ∉ d.failFileNames)).map
          (fun f => f.name) ∧
      (copyFilesList d files p node im cf).1.failFileNames = d.failFileNames ∧
      ∀ f ∈ files, f.name ∈ d.failFileNames →
        ∃ e, ("Could not copy file: " ++ f.name ++ ", Error: " ++ e) ∈
          (copyFilesList d files p node im cf).1.log := by
  induction files with
  | nil =>
    intro d p node im cf
    exact ⟨[], by simp [copyFilesList], by simp, rfl, by simp⟩
  | cons file rest ih =>
    intro d p node im cf
    simp only [copyFilesList]
    cases hmc : d.makeCopy file p with
    | error e =>
      have hfail : file.name ∈ d.failFileNames := by
        by_contra hnot
        unfold Drive.makeCopy at hmc
        rw [if_neg hnot] at hmc
        cases hmc
      obtain ⟨added, h1, h2, h3, h4⟩ := ih (d.logError _) p node im cf
      refine ⟨added, h1, ?_, h3, ?_⟩
      · rw [h2]
        rw [List.filter_cons_of_neg (by simpa using hfail)]
        rfl
      · intro f hf hfn
        rcases List.mem_cons.mp hf with he | hmem
        · subst he
          refine ⟨e, ?_⟩
          have hlog : ("Could not copy file: " ++ f.name ++ ", Error: " ++ e) ∈
              (d.logError ("Could not copy file: " ++ f.name ++ ", Error: " ++ e)).log := by
            simp [Drive.logError]
          exact copyFilesList_log_mono rest _ p node im cf _ hlog
        · exact h4 f hmem (h3 ▸ hfn)
    | ok pr =>
      obtain ⟨newId, d₁⟩ := pr
      dsimp only
      obtain ⟨hmr, hmd, hnot⟩ := makeCopy_ok_spec hmc
      let info : FileInfo :=
        { name := file.name, id := newId, url := fileUrl newId,
          path := getFilePath d₁ p im, folderId := p,
          size := file.content.length, mimeType := file.mimeType,
          createdTime := d₁.nowIso }
      obtain ⟨added, h1, h2, h3, h4⟩ :=
        ih d₁ p (node.setFile file.name info) im (cf ++ [info])
      refine ⟨info :: added, by rw [h1, List.append_assoc]; rfl, ?_, ?_, ?_⟩
      · rw [List.filter_cons_of_pos (by simpa using hnot)]
        simp only [List.map_cons]
        rw [h2, hmd]
      · rw [h3, hmd]
      · intro f hf hfn
        rcases List.mem_cons.mp hf with he | hmem
        · subst he
          exact absurd hfn hnot
        · exact h4 f hmem (by rw [hmd]; exact hfn)

theorem copyFilesList_node_preserved (files : List SrcFile) :
    ∀ (d : Drive) (p : Nat) (node : FolderNode) (im : List Nat)
      (cf : List FileInfo) (k : String),
    (∀ g ∈ files, g.name = k → g.name ∈ d.failFileNames) →
    (copyFilesList d files p node im cf).2.1.getFile k = node.getFile k := by
  induction files with
  | nil => intro d p node im cf k h; rfl
  | cons file rest ih =>
    intro d p node im cf k h
    simp only [copyFilesList]
    cases hmc : d.makeCopy file p with
    | error e =>
      exact ih _ p node im cf k (fun g hg => h g (by simp [hg]))
    | ok pr =>
      obtain ⟨newId, d₁⟩ := pr
      dsimp only
      obtain ⟨hmr, hmd, hnot⟩ := makeCopy_ok_spec hmc
      have hne : file.name ≠ k := by
        intro he
        exact hnot (h file (by simp) he)
      rw [ih d₁ p _ im _ k
        (fun g hg hgk => by rw [hmd]; exact h g (by simp [hg]) hgk)]
      exact getFile_setFile_ne _ _ _ _ hne

/-- A run whose structure phase succeeded returns `success = true` and an
empty `errors` list, whatever item-copy faults are injected. -/
theorem copyAttempt_success_of_phase1_ok
    (d : Drive) (sourceFolderId destinationFolderId : Nat)
    (newFolderName : Option String) (src : SrcFolder) (destFolder : DFolder)
    (rootId : Nat) (d₁ d₂ : Drive) (tree : FolderNode) (idMap : List Nat)
    (hs : d.findSource sourceFolderId = some src)
    (hd : d.findFolder destinationFolderId = some destFolder)
    (hc : d.createFolder destinationFolderId
      (getUniqueFolderName d destinationFolderId
        (effectiveBaseName newFolderName src)) = .ok (rootId, d₁))
    (hp : createFolderStructureRecursive d₁ src rootId
      (FolderNode.mk
        (getUniqueFolderName d destinationFolderId
          (effectiveBaseName newFolderName src))
        rootId (folderUrl rootId) [] []) [rootId] =
      (none, d₂, tree, idMap)) :
    (copyFolderStructureData d sourceFolderId destinationFolderId
        newFolderName false).data.success = true
    ∧ (copyFolderStructureData d sourceFolderId destinationFolderId
        newFolderName false).data.errors = [] := by
  have ha : copyAttempt d sourceFolderId destinationFolderId newFolderName =
      { drive := (copyFilesRecursive d₂ src rootId tree idMap []).1
        success := true, errors := []
        destName := some destFolder.name
        mainFolderName := some (getUniqueFolderName d destinationFolderId
          (effectiveBaseName newFolderName src))
        mainFolderId := some rootId
        tree := some (copyFilesRecursive d₂ src rootId tree idMap []).2.1
        folderIdMap := idMap
        createdFiles := (copyFilesRecursive d₂ src rootId tree idMap []).2.2 } := by
    unfold copyAttempt
    simp only [hs, hd, hc, hp]
  simp [copyFolderStructureData, ha, buildReturnData]

/-- **C2 (amended).** A failure copying a single item is caught at that
item's scope: over one container's file loop, the flat copied-item list is
extended by exactly the items whose copy did not throw (so a throwing item
is absent from it, and every non-throwing sibling is present); an item all
of whose name-mates throw leaves its key absent from the container's files
map; each throwing item leaves a `"Could not copy file: ..."` message on the
console log; and a run whose structure phase succeeded still returns
`success = true` with an *empty* `errors` list — item-copy failures are
logged, not recorded in `errors`. -/
theorem claim_C2_item_failure_contained
    (d : Drive) (files : List SrcFile) (p : Nat) (node : FolderNode)
    (im : List Nat) (cf : List FileInfo) :
    (∃ added, (copyFilesList d files p node im cf).2.2 = cf ++ added
      ∧ added.map (fun f => f.name) =
          (files.filter (fun f => f.name ∉ d.failFileNames)).map
            (fun f => f.name)
      ∧ (∀ f ∈ files, f.name ∈ d.failFileNames →
          (files.map (fun g => g.name)).Nodup →
          f.name ∉ added.map (fun g => g.name))
      ∧ (∀ f ∈ files, f.name ∉ d.failFileNames →
          f.name ∈ ((copyFilesList d files p node im cf).2.2.map
            (fun g => g.name)))
      ∧ (∀ f ∈ files, f.name ∈ d.failFileNames →
          ∃ e, ("Could not copy file: " ++ f.name ++ ", Error: " ++ e) ∈
            (copyFilesList d files p node im cf).1.log))
    ∧ (∀ k, (∀ g ∈ files, g.name = k → g.name ∈ d.failFileNames) →
        (copyFilesList d files p node im cf).2.1.getFile k = node.getFile k)
    ∧ (∀ (srcId destId : Nat) (nn : Option String) (src : SrcFolder)
        (destFolder : DFolder) (rootId : Nat) (d₁ d₂ : Drive)
        (tree : FolderNode) (idMap : List Nat),
        d.findSource srcId = some src →
        d.findFolder destId = some destFolder →
        d.createFolder destId (getUniqueFolderName d destId
          (effectiveBaseName nn src)) = .ok (rootId, d₁) →
        createFolderStructureRecursive d₁ src rootId
          (FolderNode.mk (getUniqueFolderName d destId
            (effectiveBaseName nn src)) rootId (folderUrl rootId) [] [])
          [rootId] = (none, d₂, tree, idMap) →
        (copyFolderStructureData d srcId destId nn false).data.success = true
        ∧ (copyFolderStructureData d srcId destId nn false).data.errors = []) := by
  obtain ⟨added, h1, h2, h3, h4⟩ := copyFilesList_added files d p node im cf
  refine ⟨⟨added, h1, h2, ?_, ?_, h4⟩, ?_, ?_⟩
  · intro f hf hfail hnodup hmem
    rw [h2] at hmem
    obtain ⟨g, hg, hgname⟩ := List.mem_map.mp hmem
    have hgmem := List.mem_of_mem_filter hg
    have hgkeep : g.name ∉ d.failFileNames := by
      have := List.of_mem_filter hg
      simpa using this
    rw [hgname] at hgkeep
    exact hgkeep hfail
  · intro f hf hkeep
    rw [h1, List.map_append]
    apply List.mem_append_right
    rw [h2, List.mem_map]
    exact ⟨f, List.mem_filter.mpr ⟨hf, by simpa using hkeep⟩, rfl⟩
  · intro k hk
    exact copyFilesList_node_preserved files d p node im cf k hk
  · intro srcId destId nn src destFolder rootId d₁ d₂ tree idMap hs hd hc hp
    exact copyAttempt_success_of_phase1_ok d srcId destId nn src destFolder
      rootId d₁ d₂ tree idMap hs hd hc hp

/-- `exDrive` with copying of the root item `file2` poisoned. -/
def exDriveFailFile : Drive := { exDrive with failFileNames := ["file2"] }

/-- **C2 (counterexample).** A run in which copying one item (`file2`)
throws: the structural result is produced with `success = true`, the item is
absent from the flat list while its sibling `file1` is present — yet the
result's `errors` list is empty: no corresponding message appears in
`errors` (it is only written to the console log), contradicting the claim as
stated. -/
theorem claim_C2_errors_counterexample :
    (copyFolderStructureData exDriveFailFile 1 2 none false).data.success = true
    ∧ ("file2" ∉ ((copyFolderStructureData exDriveFailFile 1 2 none
        false).createdFiles.map (fun f => f.name)))
    ∧ ("file1" ∈ ((copyFolderStructureData exDriveFailFile 1 2 none
        false).createdFiles.map (fun f => f.name)))
    ∧ (copyFolderStructureData exDriveFailFile 1 2 none false).data.errors = []
    ∧ ("Could not copy file: file2, Error: could not copy file2" ∈
        (copyFolderStructureData exDriveFailFile 1 2 none false).drive.log) := by
  refine ⟨?_, ?_, ?_, ?_, ?_⟩ <;> decide

theorem claim_C2_item_failure_contained_witness :
    (∃ added, (copyFilesList exDriveFailFile
        [⟨"file2", "xx", "text/plain"⟩, ⟨"a.txt", "b", "text/plain"⟩]
        10 (FolderNode.mk ("A") 10 (folderUrl 10) [] []) [10] []).2.2 =
        [] ++ added
      ∧ added.map (fun f => f.name) =
        (([⟨"file2", "xx", "text/plain"⟩, ⟨"a.txt", "b", "text/plain"⟩] :
          List SrcFile).filter
            (fun f => f.name ∉ exDriveFailFile.failFileNames)).map
          (fun f => f.name))
    ∧ (copyFolderStructureData exDriveFailFile 1 2 none false).data.success = true := by
  have h := claim_C2_item_failure_contained exDriveFailFile
    [⟨"file2", "xx", "text/plain"⟩, ⟨"a.txt", "b", "text/plain"⟩]
    10 (FolderNode.mk ("A") 10 (folderUrl 10) [] []) [10] []
  obtain ⟨⟨added, h1, h2, _, _, _⟩, _, htop⟩ := h
  refine ⟨⟨added, h1, h2⟩, ?_⟩
  exact (htop 1 2 none _ _ 10 _ _ _ _ rfl rfl rfl rfl).1

/-! ## C4: summary consistency (machinery) -/

theorem lookupAssoc_append_left {α : Type} (m l : List (String × α))
    (k : String) (v : α) (h : lookupAssoc m k = some v) :
    lookupAssoc (m ++ l) k = some v := by
  induction m with
  | nil => simp [lookupAssoc] at h
  | cons p rest ih =>
    obtain ⟨k₀, v₀⟩ := p
    by_cases h₀ : k₀ = k
    · simp only [lookupAssoc, if_pos h₀] at h
      simp [lookupAssoc, h₀, h]
    · simp only [lookupAssoc, if_neg h₀] at h ⊢
      exact ih h

theorem insertAssoc_append_of_none {α : Type} (m : List (String × α))
    (k : String) (v : α) (h : lookupAssoc m k = none) :
    insertAssoc m k v = m ++ [(k, v)] := by
  induction m with
  | nil => rfl
  | cons p rest ih =>
    obtain ⟨k₀, v₀⟩ := p
    by_cases h₀ : k₀ = k
    · simp [lookupAssoc, h₀] at h
    · simp only [lookupAssoc, if_neg h₀] at h
      simp [insertAssoc, h₀, ih h]

theorem getSub_setSub_self (t : FolderNode) (k : String) (c : FolderNode) :
    (t.setSub k c).getSub k = some c := by
  cases t with
  | mk n i u s f =>
    simp [FolderNode.setSub, FolderNode.getSub, FolderNode.subFolders,
      lookupAssoc_insertAssoc_self]

theorem getSub_setSub_ne (t : FolderNode) (k k' : String) (c : FolderNode)
    (h : k ≠ k') : (t.setSub k c).getSub k' = t.getSub k' := by
  cases t with
  | mk n i u s f =>
    simp [FolderNode.setSub, FolderNode.getSub, FolderNode.subFolders,
      lookupAssoc_insertAssoc_ne _ _ _ _ h]

theorem getFile_setSub (t : FolderNode) (k k' : String) (c : FolderNode) :
    (t.setSub k c).getFile k' = t.getFile k' := by
  cases t; rfl

theorem getSub_setFile (t : FolderNode) (k k' : String) (v : FileInfo) :
    (t.setFile k v).getSub k' = t.getSub k' := by
  cases t; rfl

theorem subFolders_setSub (t : FolderNode) (k : String) (c : FolderNode) :
    (t.setSub k c).subFolders = insertAssoc t.subFolders k c := by
  cases t; rfl

theorem filesMap_setSub (t : FolderNode) (k : String) (c : FolderNode) :
    (t.setSub k c).filesMap = t.filesMap := by
  cases t; rfl

theorem subsFileCount_insertAssoc_some
    (m : List (String × FolderNode)) (k : String) (c c' : FolderNode)
    (h : lookupAssoc m k = some c) :
    subsFileCount (insertAssoc m k c') + c.fileCount =
      subsFileCount m + c'.fileCount := by
  induction m with
  | nil => simp [lookupAssoc] at h
  | cons p rest ih =>
    obtain ⟨k₀, v₀⟩ := p
    by_cases h₀ : k₀ = k
    · simp only [lookupAssoc, if_pos h₀] at h
      cases h
      simp only [insertAssoc, if_pos h₀, subsFileCount]
      omega
    · simp only [lookupAssoc, if_neg h₀] at h
      simp only [insertAssoc, if_neg h₀, subsFileCount]
      have := ih h
      omega

theorem subsFileCount_append (m l : List (String × FolderNode)) :
    subsFileCount (m ++ l) = subsFileCount m + subsFileCount l := by
  induction m with
  | nil => simp [subsFileCount]
  | cons p rest ih =>
    obtain ⟨k₀, v₀⟩ := p
    simp only [List.cons_append, subsFileCount, List.append_eq, ih]
    omega

theorem subsFileCount_insertAssoc_none
    (m : List (String × FolderNode)) (k : String) (c : FolderNode)
    (h : lookupAssoc m k = none) :
    subsFileCount (insertAssoc m k c) = subsFileCount m + c.fileCount := by
  rw [insertAssoc_append_of_none m k c h, subsFileCount_append]
  simp [subsFileCount]

theorem fileCount_eq (t : FolderNode) :
    t.fileCount = t.filesMap.length + subsFileCount t.subFolders := by
  cases t; rfl

theorem fileCount_setFile_new (t : FolderNode) (k : String) (v : FileInfo)
    (h : t.getFile k = none) :
    (t.setFile k v).fileCount = t.fileCount + 1 := by
  cases t with
  | mk n i u s f =>
    simp only [FolderNode.setFile, FolderNode.fileCount]
    unfold FolderNode.getFile FolderNode.filesMap at h
    rw [length_insertAssoc, h]
    simp
    omega

theorem fileCount_setFile_old (t : FolderNode) (k : String) (v v₀ : FileInfo)
    (h : t.getFile k = some v₀) :
    (t.setFile k v).fileCount = t.fileCount := by
  cases t with
  | mk n i u s f =>
    simp only [FolderNode.setFile, FolderNode.fileCount]
    unfold FolderNode.getFile FolderNode.filesMap at h
    rw [length_insertAssoc, h]
    simp

theorem fileCount_setSub_some (t : FolderNode) (k : String) (c c' : FolderNode)
    (h : t.getSub k = some c) :
    (t.setSub k c').fileCount + c.fileCount = t.fileCount + c'.fileCount := by
  cases t with
  | mk n i u s f =>
    simp only [FolderNode.setSub, FolderNode.fileCount]
    unfold FolderNode.getSub FolderNode.subFolders at h
    have := subsFileCount_insertAssoc_some s k c c' h
    omega

theorem fileCount_setSub_none (t : FolderNode) (k : String) (c : FolderNode)
    (h : t.getSub k = none) :
    (t.setSub k c).fileCount = t.fileCount + c.fileCount := by
  cases t with
  | mk n i u s f =>
    simp only [FolderNode.setSub, FolderNode.fileCount]
    unfold FolderNode.getSub FolderNode.subFolders at h
    have := subsFileCount_insertAssoc_none s k c h
    omega

mutual

/-- Every `files` map in the tree is empty (the shape of a phase-1 tree). -/
def FolderNode.zeroFiles : FolderNode → Prop
  | .mk _ _ _ subs files => files = [] ∧ zeroFilesList subs

def zeroFilesList : List (String × FolderNode) → Prop
  | [] => True
  | (_, c) :: rest => c.zeroFiles ∧ zeroFilesList rest

end

mutual

theorem zeroFiles_fileCount : ∀ (t : FolderNode), t.zeroFiles → t.fileCount = 0
  | .mk n i u subs files => by
    intro ⟨h1, h2⟩
    simp only [FolderNode.fileCount, h1, List.length_nil]
    rw [zeroFilesList_count subs h2]

theorem zeroFilesList_count : ∀ (l : List (String × FolderNode)),
    zeroFilesList l → subsFileCount l = 0
  | [] => by intro _; rfl
  | (k, c) :: rest => by
    intro ⟨h1, h2⟩
    simp only [subsFileCount]
    rw [zeroFiles_fileCount c h1, zeroFilesList_count rest h2]

end

theorem zeroFilesList_insertAssoc (l : List (String × FolderNode))
    (k : String) (c : FolderNode) (hl : zeroFilesList l) (hc : c.zeroFiles) :
    zeroFilesList (insertAssoc l k c) := by
  induction l with
  | nil => exact ⟨hc, trivial⟩
  | cons p rest ih =>
    obtain ⟨k₀, c₀⟩ := p
    obtain ⟨h₁, h₂⟩ := hl
    by_cases h₀ : k₀ = k
    · simp only [insertAssoc, if_pos h₀]
      exact ⟨hc, h₂⟩
    · simp only [insertAssoc, if_neg h₀]
      exact ⟨h₁, ih h₂⟩

theorem zeroFiles_setSub (t : FolderNode) (k : String) (c : FolderNode)
    (ht : t.zeroFiles) (hc : c.zeroFiles) : (t.setSub k c).zeroFiles := by
  cases t with
  | mk n i u s f =>
    obtain ⟨h1, h2⟩ := ht
    exact ⟨h1, zeroFilesList_insertAssoc s k c h2 hc⟩

mutual

/-- Sibling names are duplicate-free throughout the source tree: no two
files of a folder share a name, and no two subfolders of a folder share a
name.  Under this precondition the JS object maps, keyed by name, are
faithful to the source. -/
def SrcFolder.goodNamesB : SrcFolder → Bool
  | .node _ fs ss =>
      decide ((fs.map (fun f => f.name)).Nodup) &&
      (decide ((ss.map SrcFolder.name).Nodup) && goodNamesListB ss)

def goodNamesListB : List SrcFolder → Bool
  | [] => true
  | s :: rest => SrcFolder.goodNamesB s && goodNamesListB rest

end

theorem goodNamesB_node (n : String) (fs : List SrcFile) (ss : List SrcFolder)
    (h : SrcFolder.goodNamesB (.node n fs ss) = true) :
    (fs.map (fun f => f.name)).Nodup ∧ (ss.map SrcFolder.name).Nodup ∧
      goodNamesListB ss = true := by
  simp only [SrcFolder.goodNamesB, Bool.and_eq_true, decide_eq_true_eq] at h
  exact ⟨h.1, h.2.1, h.2.2⟩

theorem goodNamesListB_cons (s : SrcFolder) (rest : List SrcFolder)
    (h : goodNamesListB (s :: rest) = true) :
    SrcFolder.goodNamesB s = true ∧ goodNamesListB rest = true := by
  simp only [goodNamesListB, Bool.and_eq_true] at h
  exact h

/-- Parent pointers of the stored folders refer to already-allocated ids.
Holds of every drive the program builds; rules out a pre-existing folder
whose parent pointer happens to collide with an id allocated later. -/
def Drive.PWF (d : Drive) : Prop :=
  ∀ q ∈ d.folders, ∀ pid, q.2.parent = some pid → pid < d.nextId

/-- `getFoldersByName` phrased over a bare folder list, so that statements
about it survive drive updates that leave the folder list unchanged. -/
def foldersByName (fl : List (Nat × DFolder)) (parentId : Nat)
    (name : String) : List Nat :=
  ((fl.filter (fun p => p.2.parent = some parentId)).filter
    (fun p => p.2.name = name)).map (fun p => p.1)

theorem getFoldersByName_eq_foldersByName (d : Drive) (p : Nat) (nm : String) :
    d.getFoldersByName p nm = foldersByName d.folders p nm := rfl

theorem foldersByName_append (fl l : List (Nat × DFolder)) (p : Nat)
    (nm : String) :
    foldersByName (fl ++ l) p nm =
      foldersByName fl p nm ++ foldersByName l p nm := by
  simp [foldersByName, List.filter_append]

theorem foldersByName_cons (q : Nat × DFolder) (rest : List (Nat × DFolder))
    (p : Nat) (nm : String) :
    foldersByName (q :: rest) p nm =
      (if q.2.parent = some p ∧ q.2.name = nm then [q.1] else []) ++
        foldersByName rest p nm := by
  by_cases h1 : q.2.parent = some p
  · by_cases h2 : q.2.name = nm
    · simp [foldersByName, List.filter_cons, h1, h2]
    · simp [foldersByName, List.filter_cons, h1, h2]
  · simp [foldersByName, List.filter_cons, h1]

theorem foldersByName_eq_nil (l : List (Nat × DFolder)) (p : Nat) (nm : String)
    (h : ∀ q ∈ l, q.2.parent = some p → q.2.name ≠ nm) :
    foldersByName l p nm = [] := by
  induction l with
  | nil => rfl
  | cons q rest ih =>
    rw [foldersByName_cons]
    have hr := ih (fun x hx => h x (List.mem_cons_of_mem _ hx))
    by_cases h1 : q.2.parent = some p
    · have h2 : q.2.name ≠ nm := h q (List.mem_cons_self _ _) h1
      simp [h2, hr]
    · simp [h1, hr]

mutual

/-- What a successful phase 1 guarantees about source folder `src`, its
destination counterpart `id`, and its tree node `node`, relative to the
folder list `fl` of the drive: the node carries no files, and each
sub-source has exactly one destination child folder of its name (with a
fresh id in `[lo, hi)`) plus a matching tree entry, recursively. -/
def TreeMatch (fl : List (Nat × DFolder)) (lo hi : Nat) :
    SrcFolder → Nat → FolderNode → Prop
  | .node _ _ ss, id, node =>
      node.filesMap = [] ∧ TreeMatchList fl lo hi ss id node

def TreeMatchList (fl : List (Nat × DFolder)) (lo hi : Nat) :
    List SrcFolder → Nat → FolderNode → Prop
  | [], _, _ => True
  | sub :: rest, id, node =>
      (∃ cid cnode f,
        lo ≤ cid ∧ cid < hi ∧
        foldersByName fl id sub.name = [cid] ∧
        fl.find? (fun q => q.1 = cid) = some (cid, f) ∧
        f.name = sub.name ∧
        node.getSub sub.name = some cnode ∧
        TreeMatch fl lo hi sub cid cnode) ∧
      TreeMatchList fl lo hi rest id node

end

mutual

theorem TreeMatch_mono : ∀ (src : SrcFolder) (fl : List (Nat × DFolder))
    (lo hi lo' hi' id : Nat) (node : FolderNode), lo' ≤ lo → hi ≤ hi' →
    TreeMatch fl lo hi src id node → TreeMatch fl lo' hi' src id node
  | .node n fs ss => by
    intro fl lo hi lo' hi' id node hlo hhi h
    exact ⟨h.1, TreeMatchList_mono ss fl lo hi lo' hi' id node hlo hhi h.2⟩

theorem TreeMatchList_mono : ∀ (ss : List SrcFolder)
    (fl : List (Nat × DFolder)) (lo hi lo' hi' id : Nat) (node : FolderNode),
    lo' ≤ lo → hi ≤ hi' →
    TreeMatchList fl lo hi ss id node → TreeMatchList fl lo' hi' ss id node
  | [] => by intro fl lo hi lo' hi' id node _ _ _; trivial
  | sub :: rest => by
    intro fl lo hi lo' hi' id node hlo hhi h
    obtain ⟨⟨cid, cnode, f, h1, h2, h3, h4, h5, h6, h7⟩, hrest⟩ := h
    exact ⟨⟨cid, cnode, f, le_trans hlo h1, lt_of_lt_of_le h2 hhi, h3, h4, h5,
      h6, TreeMatch_mono sub fl lo hi lo' hi' cid cnode hlo hhi h7⟩,
      TreeMatchList_mono rest fl lo hi lo' hi' id node hlo hhi hrest⟩

end

mutual

theorem TreeMatch_extend : ∀ (src : SrcFolder) (fl l : List (Nat × DFolder))
    (lo hi id : Nat) (node : FolderNode),
    (∀ q ∈ l, ∀ pid, q.2.parent = some pid →
      pid ≠ id ∧ (pid < lo ∨ hi ≤ pid)) →
    TreeMatch fl lo hi src id node → TreeMatch (fl ++ l) lo hi src id node
  | .node n fs ss => by
    intro fl l lo hi id node hl h
    exact ⟨h.1, TreeMatchList_extend ss fl l lo hi id node hl h.2⟩

theorem TreeMatchList_extend : ∀ (ss : List SrcFolder)
    (fl l : List (Nat × DFolder)) (lo hi id : Nat) (node : FolderNode),
    (∀ q ∈ l, ∀ pid, q.2.parent = some pid →
      pid ≠ id ∧ (pid < lo ∨ hi ≤ pid)) →
    TreeMatchList fl lo hi ss id node → TreeMatchList (fl ++ l) lo hi ss id node
  | [] => by intro fl l lo hi id node _ _; trivial
  | sub :: rest => by
    intro fl l lo hi id node hl h
    obtain ⟨⟨cid, cnode, f, h1, h2, h3, h4, h5, h6, h7⟩, hrest⟩ := h
    refine ⟨⟨cid, cnode, f, h1, h2, ?_, find?_append_some _ l _ _ h4, h5, h6,
      TreeMatch_extend sub fl l lo hi cid cnode ?_ h7⟩,
      TreeMatchList_extend rest fl l lo hi id node hl hrest⟩
    · rw [foldersByName_append, h3,
        foldersByName_eq_nil l id sub.name
          (fun q hq hp _ => (hl q hq id hp).1 rfl),
        List.append_nil]
    · intro q hq pid hp
      obtain ⟨hne, hrange⟩ := hl q hq pid hp
      refine ⟨?_, hrange⟩
      rintro rfl
      cases hrange with
      | inl hlt => omega
      | inr hge => omega

end

theorem TreeMatchList_setSub_ne (ss : List SrcFolder)
    (fl : List (Nat × DFolder)) (lo hi id : Nat) (node : FolderNode)
    (k : String) (c : FolderNode) (hk : ∀ sub ∈ ss, sub.name ≠ k) :
    TreeMatchList fl lo hi ss id node →
      TreeMatchList fl lo hi ss id (node.setSub k c) := by
  induction ss with
  | nil => intro _; trivial
  | cons sub rest ih =>
    intro h
    obtain ⟨⟨cid, cnode, f, h1, h2, h3, h4, h5, h6, h7⟩, hrest⟩ := h
    refine ⟨⟨cid, cnode, f, h1, h2, h3, h4, h5, ?_, h7⟩,
      ih (fun x hx => hk x (List.mem_cons_of_mem _ hx)) hrest⟩
    rw [getSub_setSub_ne node k sub.name c
      (fun he => hk sub (List.mem_cons_self _ _) he.symm)]
    exact h6

theorem TreeMatchList_congr_subFolders (ss : List SrcFolder)
    (fl : List (Nat × DFolder)) (lo hi id : Nat) (node node' : FolderNode)
    (hsub : node'.subFolders = node.subFolders) :
    TreeMatchList fl lo hi ss id node → TreeMatchList fl lo hi ss id node' := by
  induction ss with
  | nil => intro _; trivial
  | cons sub rest ih =>
    intro h
    obtain ⟨⟨cid, cnode, f, h1, h2, h3, h4, h5, h6, h7⟩, hrest⟩ := h
    refine ⟨⟨cid, cnode, f, h1, h2, h3, h4, h5, ?_, h7⟩, ih hrest⟩
    unfold FolderNode.getSub
    rw [hsub]
    exact h6

mutual

theorem createFolderStructureRecursive_zeroFiles :
    ∀ (src : SrcFolder) (d : Drive) (p : Nat) (node : FolderNode)
    (im : List Nat), node.zeroFiles →
    (createFolderStructureRecursive d src p node im).2.2.1.zeroFiles
  | .node n fs ss => by
    intro d p node im h
    simp only [createFolderStructureRecursive]
    exact createSubfolders_zeroFiles ss d p node im h

theorem createSubfolders_zeroFiles :
    ∀ (subs : List SrcFolder) (d : Drive) (p : Nat) (node : FolderNode)
    (im : List Nat), node.zeroFiles →
    (createSubfolders d subs p node im).2.2.1.zeroFiles
  | [] => by intro d p node im h; exact h
  | sub :: rest => by
    intro d p node im h
    simp only [createSubfolders]
    cases hcf : d.createFolder p sub.name with
    | error e => exact h
    | ok pr =>
      obtain ⟨newId, d₁⟩ := pr
      dsimp only
      cases hrec : createFolderStructureRecursive d₁ sub newId
          (FolderNode.mk sub.name newId (folderUrl newId) [] [])
          (im ++ [newId]) with
      | mk e? tl =>
        obtain ⟨d₂, node₂, im₂⟩ := tl
        have h₂ := createFolderStructureRecursive_zeroFiles sub d₁ newId
          (FolderNode.mk sub.name newId (folderUrl newId) [] [])
          (im ++ [newId]) ⟨rfl, trivial⟩
        rw [hrec] at h₂
        cases e? with
        | some e => exact zeroFiles_setSub node sub.name node₂ h h₂
        | none =>
          exact createSubfolders_zeroFiles rest d₂ p
            (node.setSub sub.name node₂) im₂
            (zeroFiles_setSub node sub.name node₂ h h₂)

end

theorem findFolder_none_of_ge (d : Drive) (i : Nat) (hwf : d.WF)
    (hi : d.nextId ≤ i) : d.findFolder i = none := by
  unfold Drive.findFolder
  rw [List.find?_eq_none.mpr]
  · rfl
  · intro q hq
    have := hwf.1 q hq
    simp only [decide_eq_true_eq]
    omega

theorem findFolder_isSome_of_mem (d : Drive) (i : Nat)
    (h : ∃ q ∈ d.folders, q.1 = i) : (d.findFolder i).isSome := by
  unfold Drive.findFolder
  obtain ⟨q, hq, hi⟩ := h
  have hs : (d.folders.find? (fun p => p.1 = i)).isSome := by
    rw [List.find?_isSome]
    exact ⟨q, hq, by simp [hi]⟩
  obtain ⟨x, hx⟩ := Option.isSome_iff_exists.mp hs
  rw [hx]
  rfl

mutual

theorem createFolderStructureRecursive_idMap :
    ∀ (src : SrcFolder) (d : Drive) (p : Nat) (node : FolderNode)
    (im : List Nat),
    ∃ newIds,
      (createFolderStructureRecursive d src p node im).2.2.2 = im ++ newIds ∧
      List.Pairwise (fun a b => a < b) newIds ∧
      ∀ i ∈ newIds, d.nextId ≤ i ∧
        i < (createFolderStructureRecursive d src p node im).2.1.nextId ∧
        ∃ q ∈ (createFolderStructureRecursive d src p node im).2.1.folders,
          q.1 = i
  | .node n fs ss => by
    intro d p node im
    simp only [createFolderStructureRecursive]
    exact createSubfolders_idMap ss d p node im

theorem createSubfolders_idMap :
    ∀ (subs : List SrcFolder) (d : Drive) (p : Nat) (node : FolderNode)
    (im : List Nat),
    ∃ newIds,
      (createSubfolders d subs p node im).2.2.2 = im ++ newIds ∧
      List.Pairwise (fun a b => a < b) newIds ∧
      ∀ i ∈ newIds, d.nextId ≤ i ∧
        i < (createSubfolders d subs p node im).2.1.nextId ∧
        ∃ q ∈ (createSubfolders d subs p node im).2.1.folders, q.1 = i
  | [] => by
    intro d p node im
    exact ⟨[], by simp [createSubfolders], List.Pairwise.nil,
      by simp⟩
  | sub :: rest => by
    intro d p node im
    simp only [createSubfolders]
    cases hcf : d.createFolder p sub.name with
    | error e => exact ⟨[], by simp, List.Pairwise.nil, by simp⟩
    | ok pr =>
      obtain ⟨newId, d₁⟩ := pr
      dsimp only
      obtain ⟨hnid, hd₁, _⟩ := createFolder_ok_spec hcf
      subst hnid
      have hn1 : d₁.nextId = d.nextId + 1 := by rw [hd₁]
      have hf1 : d₁.folders = d.folders ++ [(d.nextId, ⟨sub.name, some p⟩)] :=
        by rw [hd₁]
      cases hrec : createFolderStructureRecursive d₁ sub d.nextId
          (FolderNode.mk sub.name d.nextId (folderUrl d.nextId) [] [])
          (im ++ [d.nextId]) with
      | mk e? tl =>
        obtain ⟨d₂, node₂, im₂⟩ := tl
        have h₂ := createFolderStructureRecursive_idMap sub d₁ d.nextId
          (FolderNode.mk sub.name d.nextId (folderUrl d.nextId) [] [])
          (im ++ [d.nextId])
        rw [hrec] at h₂
        dsimp only at h₂
        obtain ⟨subIds, him₂, hsort₂, hbound₂⟩ := h₂
        have hg₂ := createFolderStructureRecursive_grows sub d₁ d.nextId
          (FolderNode.mk sub.name d.nextId (folderUrl d.nextId) [] [])
          (im ++ [d.nextId])
        rw [hrec] at hg₂
        dsimp only at hg₂
        cases e? with
        | some e =>
          dsimp only
          refine ⟨d.nextId :: subIds, by simp [him₂], ?_, ?_⟩
          · refine List.Pairwise.cons ?_ hsort₂
            intro b hb
            have := (hbound₂ b hb).1
            omega
          · intro i hi
            cases hi with
            | head =>
              refine ⟨le_refl _, ?_, ?_⟩
              · have h5 : d₁.nextId ≤ d₂.nextId := hg₂.2.1
                omega
              · obtain ⟨l₂, hl₂, _⟩ := hg₂.1
                refine ⟨(d.nextId, ⟨sub.name, some p⟩), ?_, rfl⟩
                rw [hl₂, hf1]
                simp
            | tail _ hi' =>
              obtain ⟨hb1, hb2, hb3⟩ := hbound₂ i hi'
              exact ⟨by omega, hb2, hb3⟩
        | none =>
          dsimp only
          have h₃ := createSubfolders_idMap rest d₂ p
            (node.setSub sub.name node₂) im₂
          obtain ⟨restIds, him₃, hsort₃, hbound₃⟩ := h₃
          have hg₃ := createSubfolders_grows rest d₂ p
            (node.setSub sub.name node₂) im₂
          have hn12 : d₁.nextId ≤ d₂.nextId := hg₂.2.1
          have hn23 : d₂.nextId ≤ (createSubfolders d₂ rest p
              (node.setSub sub.name node₂) im₂).2.1.nextId := hg₃.2.1
          refine ⟨d.nextId :: (subIds ++ restIds), ?_, ?_, ?_⟩
          · rw [him₃, him₂]
            simp
          · rw [List.pairwise_cons]
            refine ⟨?_, List.pairwise_append.mpr ⟨hsort₂, hsort₃, ?_⟩⟩
            · intro b hb
              cases List.mem_append.mp hb with
              | inl h' =>
                have := (hbound₂ b h').1
                omega
              | inr h' =>
                have h4 := (hbound₃ b h').1
                omega
            · intro a ha b hb
              have h4 := (hbound₂ a ha).2.1
              have h5 := (hbound₃ b hb).1
              omega
          · intro i hi
            cases hi with
            | head =>
              refine ⟨le_refl _, by omega, ?_⟩
              obtain ⟨l₂, hl₂, _⟩ := hg₂.1
              obtain ⟨l₃, hl₃, _⟩ := hg₃.1
              refine ⟨(d.nextId, ⟨sub.name, some p⟩), ?_, rfl⟩
              rw [hl₃, hl₂, hf1]
              simp
            | tail _ hi' =>
              cases List.mem_append.mp hi' with
              | inl h' =>
                obtain ⟨hb1, hb2, hb3⟩ := hbound₂ i h'
                refine ⟨by omega, by omega, ?_⟩
                obtain ⟨q, hq, hqi⟩ := hb3
                obtain ⟨l₃, hl₃, _⟩ := hg₃.1
                exact ⟨q, by rw [hl₃]; exact List.mem_append_left _ hq, hqi⟩
              | inr h' =>
                obtain ⟨hb1, hb2, hb3⟩ := hbound₃ i h'
                exact ⟨by omega, hb2, hb3⟩

end

theorem foldersByName_eq_nil_of_parent (l : List (Nat × DFolder)) (p : Nat)
    (nm : String)
    (h : ∀ q ∈ l, ∀ pid, q.2.parent = some pid → pid ≠ p) :
    foldersByName l p nm = [] := by
  induction l with
  | nil => rfl
  | cons q rest ih =>
    rw [foldersByName_cons]
    have hr := ih (fun x hx => h x (List.mem_cons_of_mem _ hx))
    by_cases h1 : q.2.parent = some p
    · exact absurd rfl (h q (List.mem_cons_self _ _) p h1)
    · simp [h1, hr]

mutual

theorem createFolderStructureRecursive_spec :
    ∀ (src : SrcFolder) (d : Drive) (p : Nat) (node : FolderNode)
    (im : List Nat) (d' : Drive) (node' : FolderNode) (im' : List Nat),
    createFolderStructureRecursive d src p node im = (none, d', node', im') →
    SrcFolder.goodNamesB src = true →
    (∀ q ∈ d.folders, q.1 < d.nextId) →
    Drive.PWF d →
    p < d.nextId →
    (∀ nm, foldersByName d.folders p nm = []) →
    node.subFolders = [] →
    node.filesMap = [] →
    ∃ newL,
      d'.folders = d.folders ++ newL ∧
      d.nextId ≤ d'.nextId ∧
      (∀ q ∈ newL, d.nextId ≤ q.1 ∧ q.1 < d'.nextId ∧
        ∀ pid, q.2.parent = some pid →
          (pid = p ∨ d.nextId ≤ pid) ∧ pid < d'.nextId) ∧
      (∀ q ∈ d'.folders, q.1 < d'.nextId) ∧
      Drive.PWF d' ∧
      TreeMatch d'.folders d.nextId d'.nextId src p node'
  | .node n fs ss => by
    intro d p node im d' node' im' hrun hgood hF hP hp hnoch hsubs hfm
    rw [createFolderStructureRecursive] at hrun
    obtain ⟨hfn, hsn, hsl⟩ := goodNamesB_node n fs ss hgood
    obtain ⟨newL, h1, h2, h3, h4, h5, h6, h7, h8, h9⟩ :=
      createSubfolders_spec ss d p node im d' node' im' hrun hsl hsn hF hP hp
        (fun sub _ => hnoch sub.name)
        (fun sub _ => by unfold FolderNode.getSub; rw [hsubs]; rfl)
    refine ⟨newL, h1, h2, h3, h5, h6, ?_⟩
    rw [TreeMatch]
    exact ⟨by rw [h7, hfm], h9⟩

theorem createSubfolders_spec :
    ∀ (subs : List SrcFolder) (d : Drive) (p : Nat) (node : FolderNode)
    (im : List Nat) (d' : Drive) (node' : FolderNode) (im' : List Nat),
    createSubfolders d subs p node im = (none, d', node', im') →
    goodNamesListB subs = true →
    (subs.map SrcFolder.name).Nodup →
    (∀ q ∈ d.folders, q.1 < d.nextId) →
    Drive.PWF d →
    p < d.nextId →
    (∀ sub ∈ subs, foldersByName d.folders p sub.name = []) →
    (∀ sub ∈ subs, node.getSub sub.name = none) →
    ∃ newL,
      d'.folders = d.folders ++ newL ∧
      d.nextId ≤ d'.nextId ∧
      (∀ q ∈ newL, d.nextId ≤ q.1 ∧ q.1 < d'.nextId ∧
        ∀ pid, q.2.parent = some pid →
          (pid = p ∨ d.nextId ≤ pid) ∧ pid < d'.nextId) ∧
      (∀ q ∈ newL, q.2.parent = some p →
        q.2.name ∈ subs.map SrcFolder.name) ∧
      (∀ q ∈ d'.folders, q.1 < d'.nextId) ∧
      Drive.PWF d' ∧
      node'.filesMap = node.filesMap ∧
      (∃ entries, node'.subFolders = node.subFolders ++ entries) ∧
      TreeMatchList d'.folders d.nextId d'.nextId subs p node'
  | [] => by
    intro d p node im d' node' im' hrun _ _ hF hP _ _ _
    rw [createSubfolders] at hrun
    simp only [Prod.mk.injEq] at hrun
    obtain ⟨-, hd, hn, -⟩ := hrun
    subst hd
    subst hn
    exact ⟨[], by simp, le_refl _, by simp, by simp, hF, hP, rfl,
      ⟨[], by simp⟩, trivial⟩
  | sub :: rest => by
    intro d p node im d' node' im' hrun hgoodl hnodup hF hP hp hfresh hgets
    obtain ⟨hgood_sub, hgood_rest⟩ := goodNamesListB_cons sub rest hgoodl
    rw [List.map_cons, List.nodup_cons] at hnodup
    obtain ⟨hnotin, hnodup_rest⟩ := hnodup
    rw [createSubfolders] at hrun
    cases hcf : d.createFolder p sub.name with
    | error e =>
      rw [hcf] at hrun
      simp at hrun
    | ok pr =>
      obtain ⟨newId, d₁⟩ := pr
      rw [hcf] at hrun
      dsimp only at hrun
      obtain ⟨hnid, hd₁, -⟩ := createFolder_ok_spec hcf
      subst hnid
      have hn1 : d₁.nextId = d.nextId + 1 := by rw [hd₁]
      have hf1 : d₁.folders =
          d.folders ++ [(d.nextId, ⟨sub.name, some p⟩)] := by rw [hd₁]
      cases hrec : createFolderStructureRecursive d₁ sub d.nextId
          (FolderNode.mk sub.name d.nextId (folderUrl d.nextId) [] [])
          (im ++ [d.nextId]) with
      | mk e? tl =>
        obtain ⟨d₂, cnode, im₂⟩ := tl
        rw [hrec] at hrun
        cases e? with
        | some e => simp at hrun
        | none =>
          dsimp only at hrun
          have hF₁ : ∀ q ∈ d₁.folders, q.1 < d₁.nextId := by
            intro q hq
            rw [hf1] at hq
            rw [hn1]
            cases List.mem_append.mp hq with
            | inl h' => have := hF q h'; omega
            | inr h' =>
              rw [List.mem_singleton] at h'
              subst h'
              exact Nat.lt_succ_self _
          have hP₁ : Drive.PWF d₁ := by
            intro q hq pid hpid
            rw [hf1] at hq
            rw [hn1]
            cases List.mem_append.mp hq with
            | inl h' => have := hP q h' pid hpid; omega
            | inr h' =>
              rw [List.mem_singleton] at h'
              subst h'
              simp at hpid
              omega
          have hp₁ : d.nextId < d₁.nextId := by omega
          have hnoch₁ : ∀ nm, foldersByName d₁.folders d.nextId nm = [] := by
            intro nm
            have ea : foldersByName d.folders d.nextId nm = [] :=
              foldersByName_eq_nil_of_parent d.folders _ _
                (fun q hq pid hpid => by have := hP q hq pid hpid; omega)
            have eb : foldersByName
                [(d.nextId, (⟨sub.name, some p⟩ : DFolder))] d.nextId nm = [] :=
              foldersByName_eq_nil_of_parent _ _ _ (fun q hq pid hpid => by
                rw [List.mem_singleton] at hq
                subst hq
                simp at hpid
                omega)
            rw [hf1, foldersByName_append, ea, eb]
            rfl
          obtain ⟨subL, hsf, hsn12, hsb, hsF, hsP, hstm⟩ :=
            createFolderStructureRecursive_spec sub d₁ d.nextId
              (FolderNode.mk sub.name d.nextId (folderUrl d.nextId) [] [])
              (im ++ [d.nextId]) d₂ cnode im₂ hrec hgood_sub hF₁ hP₁ hp₁
              hnoch₁ rfl rfl
          have hfresh_rest : ∀ r ∈ rest,
              foldersByName d₂.folders p r.name = [] := by
            intro r hr
            have e1 : foldersByName d.folders p r.name = [] :=
              hfresh r (List.mem_cons_of_mem _ hr)
            have e2 : foldersByName [(d.nextId, ⟨sub.name, some p⟩)]
                p r.name = [] := by
              refine foldersByName_eq_nil _ _ _ ?_
              intro q hq hqp
              rw [List.mem_singleton] at hq
              subst hq
              intro hname
              have hname' : sub.name = r.name := hname
              exact hnotin (by
                rw [hname']
                exact List.mem_map_of_mem SrcFolder.name hr)
            have e3 : foldersByName subL p r.name = [] :=
              foldersByName_eq_nil_of_parent _ _ _ (fun q hq pid hpid => by
                have h4 := ((hsb q hq).2.2 pid hpid).1
                rcases h4 with h' | h' <;> omega)
            rw [hsf, hf1, foldersByName_append, foldersByName_append,
              e1, e2, e3]
            rfl
          have hgets_rest : ∀ r ∈ rest,
              (node.setSub sub.name cnode).getSub r.name = none := by
            intro r hr
            rw [getSub_setSub_ne node sub.name r.name cnode
              (fun he => hnotin (he ▸ List.mem_map_of_mem SrcFolder.name hr))]
            exact hgets r (List.mem_cons_of_mem _ hr)
          have hp₂ : p < d₂.nextId := by omega
          obtain ⟨restL, hrf, hrn, hrb, hrnames, hrF, hrP, hrfm,
              ⟨entriesR, hrsub⟩, hrtm⟩ :=
            createSubfolders_spec rest d₂ p (node.setSub sub.name cnode) im₂
              d' node' im' hrun hgood_rest hnodup_rest hsF hsP hp₂
              hfresh_rest hgets_rest
          have hg0 : lookupAssoc node.subFolders sub.name = none :=
            hgets sub (List.mem_cons_self _ _)
          refine ⟨[(d.nextId, ⟨sub.name, some p⟩)] ++ subL ++ restL,
            ?_, ?_, ?_, ?_, hrF, hrP, ?_, ?_, ?_⟩
          · rw [hrf, hsf, hf1]
            simp [List.append_assoc]
          · omega
          · intro q hq
            rcases List.mem_append.mp hq with h' | h'
            · rcases List.mem_append.mp h' with h'' | h''
              · rw [List.mem_singleton] at h''
                subst h''
                refine ⟨le_refl _, by omega, ?_⟩
                intro pid hpid
                simp at hpid
                exact ⟨Or.inl hpid.symm, by omega⟩
              · obtain ⟨hb1, hb2, hb3⟩ := hsb q h''
                refine ⟨by omega, by omega, ?_⟩
                intro pid hpid
                obtain ⟨hb4, hb5⟩ := hb3 pid hpid
                refine ⟨Or.inr ?_, by omega⟩
                rcases hb4 with h4 | h4 <;> omega
            · obtain ⟨hb1, hb2, hb3⟩ := hrb q h'
              refine ⟨by omega, by omega, ?_⟩
              intro pid hpid
              obtain ⟨hb4, hb5⟩ := hb3 pid hpid
              refine ⟨?_, by omega⟩
              rcases hb4 with h4 | h4
              · exact Or.inl h4
              · exact Or.inr (by omega)
          · intro q hq hqp
            rcases List.mem_append.mp hq with h' | h'
            · rcases List.mem_append.mp h' with h'' | h''
              · rw [List.mem_singleton] at h''
                subst h''
                simp
              · obtain ⟨-, -, hb3⟩ := hsb q h''
                obtain ⟨hb4, -⟩ := hb3 p hqp
                rcases hb4 with h4 | h4 <;> omega
            · have := hrnames q h' hqp
              rw [List.map_cons]
              exact List.mem_cons_of_mem _ this
          · rw [hrfm, filesMap_setSub]
          · refine ⟨(sub.name, cnode) :: entriesR, ?_⟩
            rw [hrsub, subFolders_setSub,
              insertAssoc_append_of_none _ _ _ hg0, List.append_assoc]
            rfl
          · rw [TreeMatchList]
            refine ⟨⟨d.nextId, cnode, ⟨sub.name, some p⟩,
              le_refl _, by omega, ?_, ?_, rfl, ?_, ?_⟩, ?_⟩
            · have e1 : foldersByName d.folders p sub.name = [] :=
                hfresh sub (List.mem_cons_self _ _)
              have e2 : foldersByName [(d.nextId, ⟨sub.name, some p⟩)]
                  p sub.name = [d.nextId] := by
                have hcnd : ((d.nextId, (⟨sub.name, some p⟩ : DFolder)).2.parent
                      = some p ∧
                    (d.nextId, (⟨sub.name, some p⟩ : DFolder)).2.name
                      = sub.name) := ⟨rfl, rfl⟩
                rw [foldersByName_cons, if_pos hcnd]
                rfl
              have e3 : foldersByName subL p sub.name = [] :=
                foldersByName_eq_nil_of_parent _ _ _ (fun q hq pid hpid => by
                  have h4 := ((hsb q hq).2.2 pid hpid).1
                  rcases h4 with h' | h' <;> omega)
              have e4 : foldersByName restL p sub.name = [] := by
                refine foldersByName_eq_nil _ _ _ (fun q hq hqp => ?_)
                have h4 := hrnames q hq hqp
                intro hne
                rw [hne] at h4
                exact hnotin h4
              rw [hrf, hsf, hf1, foldersByName_append, foldersByName_append,
                foldersByName_append, e1, e2, e3, e4]
              rfl
            · have i1 : (d.folders ++ [(d.nextId, (⟨sub.name, some p⟩ : DFolder))]).find?
                  (fun q => q.1 = d.nextId) =
                  some (d.nextId, ⟨sub.name, some p⟩) :=
                find?_append_fresh d.folders d.nextId _
                  (fun q hq => by have := hF q hq; omega)
              rw [hrf, hsf, hf1]
              exact find?_append_some _ restL _ _
                (find?_append_some _ subL _ _ i1)
            · unfold FolderNode.getSub
              rw [hrsub, subFolders_setSub]
              exact lookupAssoc_append_left _ _ _ _
                (lookupAssoc_insertAssoc_self _ _ _)
            · have hcond : ∀ q ∈ restL, ∀ pid, q.2.parent = some pid →
                  pid ≠ d.nextId ∧ (pid < d₁.nextId ∨ d₂.nextId ≤ pid) := by
                intro q hq pid hpid
                obtain ⟨hb4, hb5⟩ := (hrb q hq).2.2 pid hpid
                rcases hb4 with h4 | h4
                · exact ⟨by omega, Or.inl (by omega)⟩
                · exact ⟨by omega, Or.inr h4⟩
              have hext := TreeMatch_extend sub d₂.folders restL d₁.nextId
                d₂.nextId d.nextId cnode hcond hstm
              rw [hrf]
              exact TreeMatch_mono sub (d₂.folders ++ restL) d₁.nextId
                d₂.nextId d.nextId d'.nextId d.nextId cnode (by omega)
                (by omega) hext
            · exact TreeMatchList_mono rest d'.folders d₂.nextId d'.nextId
                d.nextId d'.nextId p node' (by omega) (le_refl _) hrtm

end

theorem copyFilesList_count (files : List SrcFile) :
    ∀ (d : Drive) (p : Nat) (node : FolderNode) (im : List Nat)
      (cf : List FileInfo),
    (files.map (fun f => f.name)).Nodup →
    (∀ f ∈ files, node.getFile f.name = none) →
    ∃ added,
      (copyFilesList d files p node im cf).2.2 = cf ++ added ∧
      (copyFilesList d files p node im cf).2.1.fileCount =
        node.fileCount + added.length ∧
      (copyFilesList d files p node im cf).2.1.subFolders =
        node.subFolders := by
  induction files with
  | nil =>
    intro d p node im cf _ _
    exact ⟨[], by simp [copyFilesList], by simp [copyFilesList], rfl⟩
  | cons file rest ih =>
    intro d p node im cf hnodup hnone
    rw [List.map_cons, List.nodup_cons] at hnodup
    obtain ⟨hnotin, hnd⟩ := hnodup
    simp only [copyFilesList]
    cases hmc : d.makeCopy file p with
    | error e =>
      exact ih _ p node im cf hnd
        (fun f hf => hnone f (List.mem_cons_of_mem _ hf))
    | ok pr =>
      obtain ⟨newId, d₁⟩ := pr
      dsimp only
      let info : FileInfo :=
        { name := file.name, id := newId, url := fileUrl newId,
          path := getFilePath d₁ p im, folderId := p,
          size := file.content.length, mimeType := file.mimeType,
          createdTime := d₁.nowIso }
      have hgf : node.getFile file.name = none :=
        hnone file (List.mem_cons_self _ _)
      have hnone' : ∀ f ∈ rest,
          (node.setFile file.name info).getFile f.name = none := by
        intro f hf
        rw [getFile_setFile_ne _ _ _ _ (fun he =>
          hnotin (by
            rw [he]
            exact List.mem_map_of_mem (fun g => g.name) hf))]
        exact hnone f (List.mem_cons_of_mem _ hf)
      obtain ⟨added', ha1, ha2, ha3⟩ :=
        ih d₁ p (node.setFile file.name info) im (cf ++ [info]) hnd hnone'
      refine ⟨info :: added', ?_, ?_, ?_⟩
      · rw [ha1]
        simp
      · rw [ha2, fileCount_setFile_new node _ _ hgf]
        simp only [List.length_cons]
        omega
      · rw [ha3, subFolders_setFile]

theorem copySubfolderFiles_getFile (subs : List SrcFolder) :
    ∀ (d : Drive) (p : Nat) (node : FolderNode) (im : List Nat)
      (cf : List FileInfo) (k : String),
    (copySubfolderFiles d subs p node im cf).2.1.getFile k =
      node.getFile k := by
  induction subs with
  | nil => intro d p node im cf k; rfl
  | cons sub rest ih =>
    intro d p node im cf k
    simp only [copySubfolderFiles]
    cases hby : d.getFoldersByName p sub.name with
    | nil => exact ih _ p node im cf k
    | cons destSubId tlids =>
      dsimp only
      cases hns : node.getSub (d.folderName destSubId) with
      | none => exact ih _ p node im cf k
      | some subNode =>
        dsimp only
        cases hrec : copyFilesRecursive d sub destSubId subNode im cf with
        | mk d₁ tl₂ =>
          obtain ⟨subNode₁, created₁⟩ := tl₂
          rw [ih d₁ p _ im created₁ k, getFile_setSub]

mutual

theorem copyFilesRecursive_count :
    ∀ (src : SrcFolder) (d : Drive) (p : Nat) (node : FolderNode)
    (im : List Nat) (cf : List FileInfo) (lo hi : Nat),
    SrcFolder.goodNamesB src = true →
    TreeMatch d.folders lo hi src p node →
    ∃ added,
      (copyFilesRecursive d src p node im cf).2.2 = cf ++ added ∧
      (copyFilesRecursive d src p node im cf).2.1.fileCount =
        node.fileCount + added.length
  | .node n fs ss => by
    intro d p node im cf lo hi hgood htm
    obtain ⟨hfn, hsn, hsl⟩ := goodNamesB_node n fs ss hgood
    rw [TreeMatch] at htm
    obtain ⟨hfm, html⟩ := htm
    simp only [copyFilesRecursive]
    cases hfl : copyFilesList d fs p node im cf with
    | mk d₁ tl =>
      obtain ⟨node₁, cf₁⟩ := tl
      have hnone : ∀ f ∈ fs, node.getFile f.name = none := by
        intro f hf
        unfold FolderNode.getFile
        rw [hfm]
        rfl
      obtain ⟨added₁, ha1, ha2, ha3⟩ :=
        copyFilesList_count fs d p node im cf hfn hnone
      rw [hfl] at ha1 ha2 ha3
      dsimp only at ha1 ha2 ha3
      have hfol := (copyFilesList_grows fs d p node im cf).2
      rw [hfl] at hfol
      dsimp only at hfol
      have html₁ : TreeMatchList d₁.folders lo hi ss p node₁ := by
        rw [hfol]
        exact TreeMatchList_congr_subFolders ss d.folders lo hi p node node₁
          ha3 html
      obtain ⟨added₂, hb1, hb2⟩ :=
        copySubfolderFiles_count ss d₁ p node₁ im cf₁ lo hi hsn hsl html₁
      refine ⟨added₁ ++ added₂, ?_, ?_⟩
      · rw [hb1, ha1, List.append_assoc]
      · rw [hb2, ha2, List.length_append]
        omega

theorem copySubfolderFiles_count :
    ∀ (subs : List SrcFolder) (d : Drive) (p : Nat) (node : FolderNode)
    (im : List Nat) (cf : List FileInfo) (lo hi : Nat),
    (subs.map SrcFolder.name).Nodup →
    goodNamesListB subs = true →
    TreeMatchList d.folders lo hi subs p node →
    ∃ added,
      (copySubfolderFiles d subs p node im cf).2.2 = cf ++ added ∧
      (copySubfolderFiles d subs p node im cf).2.1.fileCount =
        node.fileCount + added.length
  | [] => by
    intro d p node im cf lo hi _ _ _
    exact ⟨[], by simp [copySubfolderFiles], by simp [copySubfolderFiles]⟩
  | sub :: rest => by
    intro d p node im cf lo hi hnodup hgoodl html
    rw [List.map_cons, List.nodup_cons] at hnodup
    obtain ⟨hnotin, hndrest⟩ := hnodup
    obtain ⟨hgs, hgr⟩ := goodNamesListB_cons sub rest hgoodl
    rw [TreeMatchList] at html
    obtain ⟨⟨cid, cnode, f, h1, h2, h3, h4, h5, h6, h7⟩, hrestm⟩ := html
    simp only [copySubfolderFiles]
    have hby : d.getFoldersByName p sub.name = [cid] := by
      rw [getFoldersByName_eq_foldersByName]
      exact h3
    rw [hby]
    dsimp only
    have hfnm : d.folderName cid = sub.name := by
      unfold Drive.folderName Drive.findFolder
      rw [h4]
      exact h5
    rw [hfnm, h6]
    dsimp only
    cases hrec : copyFilesRecursive d sub cid cnode im cf with
    | mk d₁ tl =>
      obtain ⟨cnode₁, cf₁⟩ := tl
      obtain ⟨added₁, ha1, ha2⟩ :=
        copyFilesRecursive_count sub d cid cnode im cf lo hi hgs h7
      rw [hrec] at ha1 ha2
      dsimp only at ha1 ha2
      have hfol := (copyFilesRecursive_grows sub d cid cnode im cf).2
      rw [hrec] at hfol
      dsimp only at hfol
      have hrestm₁ : TreeMatchList d₁.folders lo hi rest p
          (node.setSub sub.name cnode₁) := by
        rw [hfol]
        exact TreeMatchList_setSub_ne rest d.folders lo hi p node sub.name
          cnode₁
          (fun x hx he => hnotin (he ▸ List.mem_map_of_mem SrcFolder.name hx))
          hrestm
      obtain ⟨added₂, hb1, hb2⟩ :=
        copySubfolderFiles_count rest d₁ p (node.setSub sub.name cnode₁) im
          cf₁ lo hi hndrest hgr hrestm₁
      refine ⟨added₁ ++ added₂, ?_, ?_⟩
      · rw [hb1, ha1, List.append_assoc]
      · rw [hb2, List.length_append]
        have hcut := fileCount_setSub_some node sub.name cnode cnode₁ h6
        omega

end

theorem saveJsonReportStep2_totals (rd data₁ : ReturnData) (d₁ : Drive)
    (rid : Nat) (cf₁ : List FileInfo) (im : List Nat) (t₁ : FolderNode)
    (rfi : FileInfo)
    (hTF : data₁.summary.totalFiles = cf₁.length)
    (hTS : data₁.summary.totalSize = sumSizes cf₁)
    (hFC : data₁.summary.folderCount = im.eraseDups.length) :
    (saveJsonReportStep2 rd data₁ d₁ rid cf₁ im t₁ rfi).data.summary.totalFiles =
      (saveJsonReportStep2 rd data₁ d₁ rid cf₁ im t₁ rfi).createdFiles.length ∧
    (saveJsonReportStep2 rd data₁ d₁ rid cf₁ im t₁ rfi).data.summary.totalSize =
      sumSizes (saveJsonReportStep2 rd data₁ d₁ rid cf₁ im t₁ rfi).createdFiles ∧
    (saveJsonReportStep2 rd data₁ d₁ rid cf₁ im t₁ rfi).data.summary.folderCount =
      (saveJsonReportStep2 rd data₁ d₁ rid cf₁ im t₁ rfi).folderIdMap.eraseDups.length := by
  cases hsc : d₁.setContent rid (serializeResult data₁) with
  | error e =>
    refine ⟨?_, ?_, ?_⟩
    · simp only [saveJsonReportStep2, hsc]
      exact hTF
    · simp only [saveJsonReportStep2, hsc]
      exact hTS
    · simp only [saveJsonReportStep2, hsc]
      exact hFC
  | ok d₂ =>
    refine ⟨?_, ?_, ?_⟩
    · simp only [saveJsonReportStep2, hsc, List.length_map]
      exact hTF
    · simp only [saveJsonReportStep2, hsc]
      exact (sumSizes_patch cf₁ rid (d₂.getFileSize rid)).symm
    · simp only [saveJsonReportStep2, hsc]
      exact hFC

theorem saveJsonReport_totals (rd : ReturnData) (d : Drive) (cf : List FileInfo)
    (im : List Nat) (rootId : Nat) (tree : FolderNode)
    (hTF : rd.summary.totalFiles = cf.length)
    (hTS : rd.summary.totalSize = sumSizes cf)
    (hFC : rd.summary.folderCount = im.eraseDups.length) :
    (saveJsonReport rd d cf im rootId tree).data.summary.totalFiles =
      (saveJsonReport rd d cf im rootId tree).createdFiles.length ∧
    (saveJsonReport rd d cf im rootId tree).data.summary.totalSize =
      sumSizes (saveJsonReport rd d cf im rootId tree).createdFiles ∧
    (saveJsonReport rd d cf im rootId tree).data.summary.folderCount =
      (saveJsonReport rd d cf im rootId tree).folderIdMap.eraseDups.length := by
  unfold saveJsonReport
  cases hcr : d.createFile rootId JSON_REPORT_FILENAME ("\x7b\x7d")
      ("application/json") with
  | error e =>
    dsimp only
    exact ⟨hTF, hTS, hFC⟩
  | ok pr =>
    obtain ⟨rid, d₁⟩ := pr
    dsimp only
    exact saveJsonReportStep2_totals _ _ _ _ _ _ _ _ rfl rfl hFC

theorem copyFolderStructureData_totals (d : Drive) (srcId destId : Nat)
    (nn : Option String) (save : Bool) :
    (copyFolderStructureData d srcId destId nn save).data.summary.totalFiles =
      (copyFolderStructureData d srcId destId nn save).createdFiles.length ∧
    (copyFolderStructureData d srcId destId nn save).data.summary.totalSize =
      sumSizes (copyFolderStructureData d srcId destId nn save).createdFiles ∧
    (copyFolderStructureData d srcId destId nn save).data.summary.folderCount =
      (copyFolderStructureData d srcId destId nn save).folderIdMap.eraseDups.length := by
  unfold copyFolderStructureData
  dsimp only
  split
  · exact saveJsonReport_totals _ _ _ _ _ _ rfl rfl rfl
  · exact ⟨rfl, rfl, rfl⟩

theorem eraseDups_loop_of_nodup : ∀ (as bs : List Nat), as.Nodup →
    (∀ a ∈ as, a ∉ bs) →
    List.eraseDups.loop as bs = bs.reverse ++ as
  | [], bs => by
    intro _ _
    simp [List.eraseDups.loop]
  | a :: as, bs => by
    intro hnd hdisj
    rw [List.nodup_cons] at hnd
    obtain ⟨hna, hnd'⟩ := hnd
    have he : bs.elem a = false := by
      simp only [List.elem_eq_mem, decide_eq_false_iff_not]
      exact hdisj a (List.mem_cons_self _ _)
    rw [List.eraseDups.loop, he]
    dsimp only
    rw [eraseDups_loop_of_nodup as (a :: bs) hnd' ?_]
    · simp
    · intro x hx
      rw [List.mem_cons]
      rintro (rfl | hxbs)
      · exact hna hx
      · exact hdisj x (List.mem_cons_of_mem _ hx) hxbs

theorem eraseDups_of_nodup (l : List Nat) (h : l.Nodup) : l.eraseDups = l := by
  unfold List.eraseDups
  rw [eraseDups_loop_of_nodup l [] h (fun a _ hx => List.not_mem_nil a hx)]
  rfl

theorem zeroFiles_filesMap (t : FolderNode) (h : t.zeroFiles) :
    t.filesMap = [] := by
  cases t
  exact h.1

theorem zeroFiles_getFile (t : FolderNode) (k : String) (h : t.zeroFiles) :
    t.getFile k = none := by
  unfold FolderNode.getFile
  rw [zeroFiles_filesMap t h]
  rfl

theorem findFolder_lt_nextId (d : Drive) (i : Nat) (f : DFolder) (hwf : d.WF)
    (h : d.findFolder i = some f) : i < d.nextId := by
  unfold Drive.findFolder at h
  cases hf : d.folders.find? (fun p => p.1 = i) with
  | none => rw [hf] at h; simp at h
  | some q =>
    have hm := List.mem_of_find?_eq_some hf
    have hp := List.find?_some hf
    simp only [decide_eq_true_eq] at hp
    have := hwf.1 q hm
    omega

theorem copyFilesRecursive_getFile (src : SrcFolder) (d : Drive) (p : Nat)
    (node : FolderNode) (im : List Nat) (cf : List FileInfo) (k : String)
    (hk : ∀ g ∈ src.files, g.name ≠ k) :
    (copyFilesRecursive d src p node im cf).2.1.getFile k = node.getFile k := by
  match src with
  | .node n fs ss =>
    simp only [copyFilesRecursive]
    cases hfl : copyFilesList d fs p node im cf with
    | mk d₁ tl =>
      obtain ⟨node₁, cf₁⟩ := tl
      have h1 := copyFilesList_node_preserved fs d p node im cf k
        (fun g hg he => absurd he (hk g hg))
      rw [hfl] at h1
      dsimp only at h1
      rw [copySubfolderFiles_getFile ss d₁ p node₁ im cf₁ k, h1]

theorem saveJsonReportStep2_fileCount (rd data₁ : ReturnData) (d₁ : Drive)
    (rid : Nat) (cf₁ : List FileInfo) (im : List Nat) (t₁ : FolderNode)
    (rfi : FileInfo)
    (hfs : data₁.folderStructure = some t₁)
    (hfc : t₁.fileCount = cf₁.length)
    (hkey : (t₁.getFile JSON_REPORT_FILENAME).isSome) :
    treeFileCount
        (saveJsonReportStep2 rd data₁ d₁ rid cf₁ im t₁ rfi).data.folderStructure =
      (saveJsonReportStep2 rd data₁ d₁ rid cf₁ im t₁ rfi).createdFiles.length := by
  cases hsc : d₁.setContent rid (serializeResult data₁) with
  | error e =>
    simp only [saveJsonReportStep2, hsc]
    rw [hfs, treeFileCount]
    exact hfc
  | ok d₂ =>
    simp only [saveJsonReportStep2, hsc, List.length_map]
    obtain ⟨v, hv⟩ := Option.isSome_iff_exists.mp hkey
    rw [treeFileCount, fileCount_setFile_old t₁ _ _ v hv]
    exact hfc

theorem saveJsonReport_fileCount (rd : ReturnData) (d : Drive)
    (cf : List FileInfo) (im : List Nat) (rootId : Nat) (t : FolderNode)
    (hrd : rd.folderStructure = some t)
    (hfc : t.fileCount = cf.length)
    (hkey : t.getFile JSON_REPORT_FILENAME = none) :
    treeFileCount (saveJsonReport rd d cf im rootId t).data.folderStructure =
      (saveJsonReport rd d cf im rootId t).createdFiles.length := by
  cases hcr : d.createFile rootId JSON_REPORT_FILENAME ("\x7b\x7d")
      ("application/json") with
  | error e =>
    simp only [saveJsonReport, hcr]
    rw [hrd, treeFileCount]
    exact hfc
  | ok pr =>
    obtain ⟨rid, d₁⟩ := pr
    simp only [saveJsonReport, hcr]
    apply saveJsonReportStep2_fileCount
    · rfl
    · rw [fileCount_setFile_new t _ _ hkey, hfc, List.length_append]
      rfl
    · rw [getFile_setFile_self]
      rfl

theorem copyAttempt_c4 (d : Drive) (srcId destId : Nat) (nn : Option String)
    (src : SrcFolder)
    (hwf : d.WF) (hpwf : d.PWF)
    (hs : d.findSource srcId = some src)
    (hgood : SrcFolder.goodNamesB src = true)
    (hrep : JSON_REPORT_FILENAME ∉ src.files.map (fun f => f.name)) :
    (match (copyAttempt d srcId destId nn).tree with
      | none => (copyAttempt d srcId destId nn).createdFiles = []
      | some t =>
          t.fileCount = (copyAttempt d srcId destId nn).createdFiles.length ∧
          t.getFile JSON_REPORT_FILENAME = none) ∧
    (copyAttempt d srcId destId nn).folderIdMap.Nodup ∧
    (∀ i ∈ (copyAttempt d srcId destId nn).folderIdMap,
      d.nextId ≤ i ∧
      ∃ q ∈ (copyAttempt d srcId destId nn).drive.folders, q.1 = i) := by
  unfold copyAttempt
  rw [hs]
  dsimp only
  cases hd : d.findFolder destId with
  | none =>
    exact ⟨rfl, List.Pairwise.nil, by simp⟩
  | some destFolder =>
    dsimp only
    have hdlt : destId < d.nextId := findFolder_lt_nextId d destId destFolder hwf hd
    cases hcf : d.createFolder destId
        (getUniqueFolderName d destId (effectiveBaseName nn src)) with
    | error e =>
      exact ⟨rfl, List.Pairwise.nil, by simp⟩
    | ok pr =>
      obtain ⟨rootId, d₁⟩ := pr
      dsimp only
      obtain ⟨hnid, hd₁, -⟩ := createFolder_ok_spec hcf
      subst hnid
      have hn1 : d₁.nextId = d.nextId + 1 := by rw [hd₁]
      have hf1 : d₁.folders = d.folders ++
          [(d.nextId, ⟨getUniqueFolderName d destId (effectiveBaseName nn src),
            some destId⟩)] := by rw [hd₁]
      cases hrec : createFolderStructureRecursive d₁ src d.nextId
          (FolderNode.mk (getUniqueFolderName d destId (effectiveBaseName nn src))
            d.nextId (folderUrl d.nextId) [] [])
          [d.nextId] with
      | mk e? tl =>
        obtain ⟨d₂, tree₁, im₂⟩ := tl
        have hzero : tree₁.zeroFiles := by
          have h := createFolderStructureRecursive_zeroFiles src d₁ d.nextId
            (FolderNode.mk (getUniqueFolderName d destId (effectiveBaseName nn src))
              d.nextId (folderUrl d.nextId) [] [])
            [d.nextId] ⟨rfl, trivial⟩
          rw [hrec] at h
          exact h
        have hids := createFolderStructureRecursive_idMap src d₁ d.nextId
          (FolderNode.mk (getUniqueFolderName d destId (effectiveBaseName nn src))
            d.nextId (folderUrl d.nextId) [] [])
          [d.nextId]
        rw [hrec] at hids
        dsimp only at hids
        obtain ⟨newIds, him₂, hpair, hbound⟩ := hids
        have hg₂ := createFolderStructureRecursive_grows src d₁ d.nextId
          (FolderNode.mk (getUniqueFolderName d destId (effectiveBaseName nn src))
            d.nextId (folderUrl d.nextId) [] [])
          [d.nextId]
        rw [hrec] at hg₂
        dsimp only at hg₂
        obtain ⟨l₂, hl₂, -⟩ := hg₂.1
        have hnodup₂ : im₂.Nodup := by
          rw [him₂]
          rw [List.singleton_append, List.nodup_cons]
          refine ⟨?_, hpair.imp (fun h => Nat.ne_of_lt h)⟩
          intro hmem
          have := (hbound _ hmem).1
          omega
        have hmem₂ : ∀ i ∈ im₂, d.nextId ≤ i ∧
            ∃ q ∈ d₂.folders, q.1 = i := by
          intro i hi
          rw [him₂, List.singleton_append] at hi
          cases hi with
          | head =>
            refine ⟨le_refl _, ?_⟩
            refine ⟨(d.nextId,
              ⟨getUniqueFolderName d destId (effectiveBaseName nn src),
                some destId⟩), ?_, rfl⟩
            rw [hl₂, hf1]
            simp
          | tail _ hi' =>
            obtain ⟨hb1, hb2, hb3⟩ := hbound i hi'
            exact ⟨by omega, hb3⟩
        cases e? with
        | some e =>
          dsimp only
          refine ⟨⟨?_, ?_⟩, hnodup₂, hmem₂⟩
          · rw [zeroFiles_fileCount tree₁ hzero]
            rfl
          · exact zeroFiles_getFile tree₁ _ hzero
        | none =>
          dsimp only
          have hF₁ : ∀ q ∈ d₁.folders, q.1 < d₁.nextId := by
            intro q hq
            rw [hf1] at hq
            rw [hn1]
            cases List.mem_append.mp hq with
            | inl h' => have := hwf.1 q h'; omega
            | inr h' =>
              rw [List.mem_singleton] at h'
              subst h'
              exact Nat.lt_succ_self _
          have hP₁ : Drive.PWF d₁ := by
            intro q hq pid hpid
            rw [hf1] at hq
            rw [hn1]
            cases List.mem_append.mp hq with
            | inl h' => have := hpwf q h' pid hpid; omega
            | inr h' =>
              rw [List.mem_singleton] at h'
              subst h'
              simp at hpid
              omega
          have hnoch₁ : ∀ nm, foldersByName d₁.folders d.nextId nm = [] := by
            intro nm
            have ea : foldersByName d.folders d.nextId nm = [] :=
              foldersByName_eq_nil_of_parent d.folders _ _
                (fun q hq pid hpid => by have := hpwf q hq pid hpid; omega)
            have eb : foldersByName
                [(d.nextId,
                  (⟨getUniqueFolderName d destId (effectiveBaseName nn src),
                    some destId⟩ : DFolder))] d.nextId nm = [] :=
              foldersByName_eq_nil_of_parent _ _ _ (fun q hq pid hpid => by
                rw [List.mem_singleton] at hq
                subst hq
                simp at hpid
                omega)
            rw [hf1, foldersByName_append, ea, eb]
            rfl
          obtain ⟨newL, hsf, hsn12, hsb, hsF, hsP, hstm⟩ :=
            createFolderStructureRecursive_spec src d₁ d.nextId
              (FolderNode.mk
                (getUniqueFolderName d destId (effectiveBaseName nn src))
                d.nextId (folderUrl d.nextId) [] [])
              [d.nextId] d₂ tree₁ im₂ hrec hgood hF₁ hP₁
              (by omega) hnoch₁ rfl rfl
          cases hcp : copyFilesRecursive d₂ src d.nextId tree₁ im₂ [] with
          | mk d₃ tl₃ =>
            obtain ⟨tree₂, createdFiles⟩ := tl₃
            dsimp only
            have hfol₃ := (copyFilesRecursive_grows src d₂ d.nextId tree₁
              im₂ []).2
            rw [hcp] at hfol₃
            dsimp only at hfol₃
            obtain ⟨added, hc1, hc2⟩ :=
              copyFilesRecursive_count src d₂ d.nextId tree₁ im₂ []
                d₁.nextId d₂.nextId hgood hstm
            rw [hcp] at hc1 hc2
            dsimp only at hc1 hc2
            have hgf₂ : tree₂.getFile JSON_REPORT_FILENAME = none := by
              have h := copyFilesRecursive_getFile src d₂ d.nextId tree₁
                im₂ [] JSON_REPORT_FILENAME
                (fun g hg he => hrep (by
                  rw [he.symm]
                  exact List.mem_map_of_mem (fun f => f.name) hg))
              rw [hcp] at h
              dsimp only at h
              rw [h]
              exact zeroFiles_getFile tree₁ _ hzero
            refine ⟨⟨?_, hgf₂⟩, hnodup₂, ?_⟩
            · rw [hc2, zeroFiles_fileCount tree₁ hzero, hc1]
              simp
            · intro i hi
              obtain ⟨hb1, q, hq, hqi⟩ := hmem₂ i hi
              exact ⟨hb1, q, by rw [hfol₃]; exact hq, hqi⟩

theorem buildReturnData_folderStructure (d₀ : Drive) (t : Nat)
    (a : AttemptResult) :
    (buildReturnData d₀ t a).folderStructure = a.tree := rfl

theorem copyFolderStructureData_idMap (d : Drive) (srcId destId : Nat)
    (nn : Option String) (save : Bool) :
    (copyFolderStructureData d srcId destId nn save).folderIdMap =
      (copyAttempt d srcId destId nn).folderIdMap := by
  unfold copyFolderStructureData
  dsimp only
  split
  · unfold saveJsonReport
    split
    · rfl
    · unfold saveJsonReportStep2
      dsimp only
      split <;> rfl
  · rfl

theorem copyFolderStructureData_cases (d : Drive) (srcId destId : Nat)
    (nn : Option String) (save : Bool) :
    (∃ rootId tree,
      (copyAttempt d srcId destId nn).mainFolderId = some rootId ∧
      (copyAttempt d srcId destId nn).tree = some tree ∧
      copyFolderStructureData d srcId destId nn save =
        saveJsonReport (buildReturnData d destId (copyAttempt d srcId destId nn))
          (copyAttempt d srcId destId nn).drive
          (copyAttempt d srcId destId nn).createdFiles
          (copyAttempt d srcId destId nn).folderIdMap rootId tree) ∨
    copyFolderStructureData d srcId destId nn save =
      { data := buildReturnData d destId (copyAttempt d srcId destId nn)
        drive := (copyAttempt d srcId destId nn).drive
        createdFiles := (copyAttempt d srcId destId nn).createdFiles
        folderIdMap := (copyAttempt d srcId destId nn).folderIdMap
        preReportData := buildReturnData d destId (copyAttempt d srcId destId nn)
        reportId := none, reportPreJson := none } := by
  cases hsave : save with
  | false =>
    right
    unfold copyFolderStructureData
    dsimp only
  | true =>
    cases hm : (copyAttempt d srcId destId nn).mainFolderId with
    | none =>
      right
      cases ht : (copyAttempt d srcId destId nn).tree with
      | none => unfold copyFolderStructureData; dsimp only; rw [hm, ht]
      | some t => unfold copyFolderStructureData; dsimp only; rw [hm, ht]
    | some r =>
      cases ht : (copyAttempt d srcId destId nn).tree with
      | none =>
        right
        unfold copyFolderStructureData; dsimp only; rw [hm, ht]
      | some tree =>
        left
        refine ⟨r, tree, rfl, rfl, ?_⟩
        unfold copyFolderStructureData; dsimp only; rw [hm, ht]

/-- **C4 (amended).** For a well-formed drive whose source tree has
duplicate-free sibling names and no root-level file named like the JSON
report, every run satisfies the summary consistency: `summary.totalFiles`
equals the length of the flat copied-item list, which equals the count of
file leaves reachable in the returned `folderStructure` tree;
`summary.totalSize` equals the sum of the `size` field over the flat list;
and `summary.folderCount` equals the number of entries of the id-indexed
folder map, whose entries are pairwise distinct ids of containers created
by this run (absent before, present after). -/
theorem claim_C4_summary_consistency (d : Drive) (srcId destId : Nat)
    (nn : Option String) (save : Bool) (src : SrcFolder)
    (hwf : d.WF) (hpwf : d.PWF)
    (hs : d.findSource srcId = some src)
    (hgood : SrcFolder.goodNamesB src = true)
    (hrep : JSON_REPORT_FILENAME ∉ src.files.map (fun f => f.name)) :
    (copyFolderStructureData d srcId destId nn save).data.summary.totalFiles =
      (copyFolderStructureData d srcId destId nn save).createdFiles.length ∧
    (copyFolderStructureData d srcId destId nn save).createdFiles.length =
      treeFileCount
        (copyFolderStructureData d srcId destId nn save).data.folderStructure ∧
    (copyFolderStructureData d srcId destId nn save).data.summary.totalSize =
      sumSizes (copyFolderStructureData d srcId destId nn save).createdFiles ∧
    (copyFolderStructureData d srcId destId nn save).data.summary.folderCount =
      (copyFolderStructureData d srcId destId nn save).folderIdMap.length ∧
    (copyFolderStructureData d srcId destId nn save).folderIdMap.Nodup ∧
    (∀ i ∈ (copyFolderStructureData d srcId destId nn save).folderIdMap,
      d.findFolder i = none ∧
      ((copyFolderStructureData d srcId destId nn save).drive.findFolder
        i).isSome) := by
  obtain ⟨hT1, hT2, hT3⟩ := copyFolderStructureData_totals d srcId destId nn save
  obtain ⟨hmatch, hnodup, hmem⟩ :=
    copyAttempt_c4 d srcId destId nn src hwf hpwf hs hgood hrep
  have hidmap := copyFolderStructureData_idMap d srcId destId nn save
  have hfolders := copyFolderStructureData_folders d srcId destId nn save
  have hnodup' :
      (copyFolderStructureData d srcId destId nn save).folderIdMap.Nodup := by
    rw [hidmap]
    exact hnodup
  refine ⟨hT1, ?_, hT2, ?_, hnodup', ?_⟩
  · rcases copyFolderStructureData_cases d srcId destId nn save with
      ⟨rootId, tree, hm, ht, heq⟩ | heq
    · rw [ht] at hmatch
      dsimp only at hmatch
      obtain ⟨hfc, hkey⟩ := hmatch
      rw [heq]
      exact (saveJsonReport_fileCount _ _ _ _ _ _
        (by rw [buildReturnData_folderStructure, ht]) hfc hkey).symm
    · rw [heq]
      dsimp only
      rw [buildReturnData_folderStructure]
      cases ht : (copyAttempt d srcId destId nn).tree with
      | none =>
        rw [ht] at hmatch
        dsimp only at hmatch
        rw [hmatch]
        rfl
      | some t =>
        rw [ht] at hmatch
        dsimp only at hmatch
        rw [treeFileCount]
        exact hmatch.1.symm
  · rw [hT3, eraseDups_of_nodup _ hnodup']
  · intro i hi
    rw [hidmap] at hi
    obtain ⟨hge, q, hq, hqi⟩ := hmem i hi
    refine ⟨findFolder_none_of_ge d i hwf hge, ?_⟩
    apply findFolder_isSome_of_mem
    refine ⟨q, ?_, hqi⟩
    rw [hfolders]
    exact hq

/-- A drive like `exDrive` whose single source folder carries exactly one
root file, named like the JSON report file. -/
def exDriveC4 : Drive :=
  { exDrive with sources :=
      [(1, .node ("A")
        [⟨"_folder_structure_report.json", "zz", "application/json"⟩] [])] }

/-- **C4 (counterexample).** On a source containing a root file named
`_folder_structure_report.json`, a run with report-saving enabled yields
`summary.totalFiles = 2` and a flat copied-item list of length 2 (the copied
file plus the report), but the returned tree holds only 1 reachable file
leaf: the report's entry overwrites the copied file's entry under the same
key of the container's files map.  The claimed equality between the flat
list length and the tree leaf count fails. -/
theorem claim_C4_leafcount_counterexample :
    (copyFolderStructureData exDriveC4 1 2 none true).data.summary.totalFiles
      = 2 ∧
    (copyFolderStructureData exDriveC4 1 2 none true).createdFiles.length
      = 2 ∧
    treeFileCount
      (copyFolderStructureData exDriveC4 1 2 none true).data.folderStructure
      = 1 := by
  refine ⟨?_, ?_, ?_⟩ <;> decide

theorem claim_C4_summary_consistency_witness :
    exDrive.WF ∧ Drive.PWF exDrive ∧
    ((copyFolderStructureData exDrive 1 2 none true).data.summary.totalFiles =
      (copyFolderStructureData exDrive 1 2 none true).createdFiles.length ∧
    (copyFolderStructureData exDrive 1 2 none true).createdFiles.length =
      treeFileCount
        (copyFolderStructureData exDrive 1 2 none true).data.folderStructure ∧
    (copyFolderStructureData exDrive 1 2 none true).data.summary.totalSize =
      sumSizes (copyFolderStructureData exDrive 1 2 none true).createdFiles ∧
    (copyFolderStructureData exDrive 1 2 none true).data.summary.folderCount =
      (copyFolderStructureData exDrive 1 2 none true).folderIdMap.length ∧
    (copyFolderStructureData exDrive 1 2 none true).folderIdMap.Nodup ∧
    (∀ i ∈ (copyFolderStructureData exDrive 1 2 none true).folderIdMap,
      exDrive.findFolder i = none ∧
      ((copyFolderStructureData exDrive 1 2 none true).drive.findFolder
        i).isSome)) :=
  ⟨⟨by decide, by decide⟩,
   by
    intro q hq pid hpid
    simp only [exDrive, List.mem_singleton] at hq
    subst hq
    simp at hpid,
   claim_C4_summary_consistency exDrive 1 2 none true
     (.node ("A") [⟨"file2", "xx", "text/plain"⟩]
       [.node ("B") [⟨"file1", "yyy", "text/plain"⟩] []])
     ⟨by decide, by decide⟩
     (by
      intro q hq pid hpid
      simp only [exDrive, List.mem_singleton] at hq
      subst hq
      simp at hpid)
     rfl (by decide) (by decide)⟩
